import Mathlib

/-!
Skyfan Zigbee bridge: the Tuya serial protocol engine

A shallow embedding of `src/skyfan-zigbee/TuyaProtocol.cpp` (with the constants of
`TuyaProtocol.h` and `SkyfanConfig.h`) and proofs about the frame codec, the receive
state machine and the data-point decoder.

Modelling conventions.
* `uint8_t`, `uint16_t` and `uint32_t` values are natural numbers; every place where the
  C++ code truncates (a store into a narrower variable, an increment of a `uint16_t`)
  carries an explicit `% 2^w`.  Expressions the C++ code evaluates in `int`
  (for instance `6 + expectedLen + 1`) are evaluated without truncation, as on the
  32-bit target.
* `rxBuffer` is a map from indices to bytes.  A store is recorded in the effect trace
  together with its index, so that "every store is inside the 256-byte array" is a
  statement about the trace.
* The bytes that `Serial.read()` hands to one call of `processResponse` are a list; the
  bytes given to `Serial.write` are recorded in the effect trace.
* `millis()` is a parameter `now` of the call.
* `waitForResponse` is the one function whose loops are not bounded by their input: it
  takes a fuel argument, one unit per test of a loop condition, and returns `none` when
  the fuel runs out.  Its serial port is a record of the bytes waiting, the bytes that
  arrive during each following `delay`, and the clock, which advances only in `delay`.
* The older copy of the receiver in the root-level `src/TuyaProtocol.cpp` is embedded
  under the names `Root.*`.  Its decoder loop need not end, so it takes a fuel argument
  (one unit per iteration) and the receiver returns `none` when the fuel runs out.
* The colour-temperature helpers of `SkyfanConfig.h` take and return natural numbers; the
  conversion of an `int` quotient to the `uint16_t` return type is an explicit `% 65536`.
* Arduino's `map` is computed on integers with truncating division.  For
  `DebouncedButton`, the pin level read by `digitalRead` and the value of `millis()` are
  parameters of `update`.
-/

namespace Skyfan

/-! ## Constants -/

/-- Macro `TUYA_HEADER`, defined as `0x55AA`. -/
abbrev TUYA_HEADER : Nat := 0x55AA
/-- Macro `TUYA_VERSION`, defined as `0x03`. -/
abbrev TUYA_VERSION : Nat := 0x03
/-- Macro `TUYA_CMD_HEARTBEAT`, defined as `0x00`. -/
abbrev TUYA_CMD_HEARTBEAT : Nat := 0x00
/-- Macro `TUYA_CMD_NETWORK_STATUS`, defined as `0x03`. -/
abbrev TUYA_CMD_NETWORK_STATUS : Nat := 0x03
/-- Macro `TUYA_CMD_SEND_COMMAND`, defined as `0x06`. -/
abbrev TUYA_CMD_SEND_COMMAND : Nat := 0x06
/-- Macro `TUYA_CMD_STATUS_REPORT`, defined as `0x07`. -/
abbrev TUYA_CMD_STATUS_REPORT : Nat := 0x07
/-- Macro `DP_TYPE_BOOL`, defined as `0x01`. -/
abbrev DP_TYPE_BOOL : Nat := 0x01
/-- Macro `DP_TYPE_VALUE`, defined as `0x02`. -/
abbrev DP_TYPE_VALUE : Nat := 0x02
/-- Macro `DP_TYPE_ENUM`, defined as `0x04`. -/
abbrev DP_TYPE_ENUM : Nat := 0x04
/-- Macro `NETWORK_STATUS_DISCONNECTED`, defined as `3`. -/
abbrev NETWORK_STATUS_DISCONNECTED : Nat := 3
/-- Macro `NETWORK_STATUS_CONNECTED`, defined as `5`. -/
abbrev NETWORK_STATUS_CONNECTED : Nat := 5
/-- Macro `TUYA_BUFFER_SIZE`, defined as `256`. -/
abbrev TUYA_BUFFER_SIZE : Nat := 256
/-- Macro `TUYA_RX_BUFFER_SIZE`, defined as `256`. -/
abbrev TUYA_RX_BUFFER_SIZE : Nat := 256

/-! ## Data model -/

/-- The `enum class TuyaProtocolState : uint8_t` of SkyfanConfig.h. -/
inductive TuyaProtocolState where
  | WAIT_HEADER_1
  | WAIT_HEADER_2
  | WAIT_VERSION
  | WAIT_COMMAND
  | WAIT_LENGTH_HIGH
  | WAIT_LENGTH_LOW
  | WAIT_DATA_AND_CHECKSUM
  deriving DecidableEq, Repr

/-- Observable actions of the protocol engine, in program order.
`store i b` is `rxBuffer[i] = b`; `read i` is a read of `rxBuffer[i]` by the status-report
decoder; `frame cmd len payload` marks entry into the completion block
`if (rxIndex >= 6 + expectedLen + 1)` with the values of `currentCmd`, `expectedLen` and
`rxBuffer[6 .. 6+expectedLen)` at that moment; `callback d v` is
`deviceStatusCallback(d, v)`; `transmit bs` is `Serial.write(packet, idx)`. -/
inductive Effect where
  | store (idx : Nat) (byte : Nat)
  | read (idx : Nat)
  | frame (cmd : Nat) (len : Nat) (payload : List Nat)
  | callback (dpid : Nat) (value : Nat)
  | transmit (bytes : List Nat)
  deriving DecidableEq, Repr

/-- The fields of `class TuyaProtocol` that the engine reads or writes, followed by the
three function-level statics of `update`.  `deviceStatusCallback` records whether the
function pointer is non-null. -/
structure TuyaProtocol where
  lastHeartbeat : Nat
  tuyaConnected : Bool
  deviceStatusCallback : Bool
  rxState : TuyaProtocolState
  rxBuffer : Nat → Nat
  rxIndex : Nat
  expectedLen : Nat
  currentCmd : Nat
  lastHeartbeatSent : Nat
  lastZigbeeState : Bool
  firstRun : Bool

/-- The constructor `TuyaProtocol::TuyaProtocol()`; `rxBuffer` is not initialised by the
C++ code, so its initial contents `buf` are arbitrary. -/
def TuyaProtocol.new (buf : Nat → Nat) : TuyaProtocol :=
  { lastHeartbeat := 0
    tuyaConnected := false
    deviceStatusCallback := false
    rxState := TuyaProtocolState.WAIT_HEADER_1
    rxBuffer := buf
    rxIndex := 0
    expectedLen := 0
    currentCmd := 0
    lastHeartbeatSent := 0
    lastZigbeeState := false
    firstRun := true }

/-- Method `TuyaProtocol::setDeviceStatusCallback`; the argument says whether the pointer passed
is non-null. -/
def setDeviceStatusCallback (s : TuyaProtocol) (callback : Bool) : TuyaProtocol :=
  { s with deviceStatusCallback := callback }

/-- Method `TuyaProtocol::isConnected`. -/
def isConnected (s : TuyaProtocol) : Bool := s.tuyaConnected

/-! ## Frame codec -/

/-- Method `TuyaProtocol::calculateChecksum(data, len)`: a `uint16_t` accumulator over
`data[0 .. len)`, returned as `(uint8_t)(sum & 0xFF)`. -/
def calculateChecksum (data : List Nat) (len : Nat) : Nat :=
  let sum := (data.take len).foldl (fun sum b => (sum + b) % 65536) 0
  (sum &&& 0xFF) % 256

/-- Method `TuyaProtocol::sendCommand(cmd, data, len)`: the bytes handed to `Serial.write`.
`data` lists the bytes behind the pointer (`nullptr` is the empty list).  The packet is
assembled in the 256-byte `tuyaBuffer`, so the C++ function is defined for `len <= 249`. -/
def sendCommand (cmd : Nat) (data : List Nat) (len : Nat) : List Nat :=
  let packet : List Nat :=
    [(TUYA_HEADER >>> 8) &&& 0xFF, TUYA_HEADER &&& 0xFF, TUYA_VERSION, cmd,
     (len >>> 8) &&& 0xFF, len &&& 0xFF]
  let packet := if len > 0 then packet ++ data.take len else packet
  let idx := packet.length
  let checksum := calculateChecksum (packet.drop 2) (idx - 2)
  packet ++ [checksum]

/-- Method `TuyaProtocol::sendHeartbeat`. -/
def sendHeartbeat : List Nat := sendCommand TUYA_CMD_HEARTBEAT [] 0

/-- Method `TuyaProtocol::sendNetworkStatus(status)`. -/
def sendNetworkStatus (status : Nat) : List Nat :=
  sendCommand TUYA_CMD_NETWORK_STATUS [status] 1

/-! ## Receive state machine and data-point decoder -/

/-- The statement `rxBuffer[rxIndex++] = byte`. -/
def TuyaProtocol.push (s : TuyaProtocol) (byte : Nat) : TuyaProtocol :=
  { s with rxBuffer := Function.update s.rxBuffer s.rxIndex byte
           rxIndex := (s.rxIndex + 1) % 65536 }

/-- The `while` loop of the status-report branch of `processResponse`, entered with
`dataIndex = 6`.  `cb` says whether a callback is registered.  The guards keep
`dataIndex <= rxIndex`, so the `uint16_t` increments of `dataIndex` never wrap. -/
def parseStatusReport (cb : Bool) (rxBuffer : Nat → Nat) (rxIndex expectedLen : Nat)
    (dataIndex : Nat) : List Effect :=
  if _hloop : dataIndex < 6 + expectedLen ∧ dataIndex < rxIndex then
    if dataIndex + 4 > rxIndex then []
    else
      let dpid := rxBuffer dataIndex
      let type := rxBuffer (dataIndex + 1)
      let len := ((rxBuffer (dataIndex + 2) <<< 8) ||| rxBuffer (dataIndex + 3)) % 65536
      let header := [Effect.read dataIndex, Effect.read (dataIndex + 1),
                     Effect.read (dataIndex + 2), Effect.read (dataIndex + 3)]
      if dataIndex + 4 + len > rxIndex ∨ len > 8 then header
      else if type = DP_TYPE_BOOL ∧ len = 1 then
        let value := rxBuffer (dataIndex + 4)
        header ++ [Effect.read (dataIndex + 4)]
          ++ (if cb then [Effect.callback dpid value] else [])
          ++ parseStatusReport cb rxBuffer rxIndex expectedLen (dataIndex + 4 + 1)
      else if (type = DP_TYPE_VALUE ∨ type = DP_TYPE_ENUM) ∧ len = 4 then
        let value := ((rxBuffer (dataIndex + 4) <<< 24) ||| (rxBuffer (dataIndex + 5) <<< 16)
                      ||| (rxBuffer (dataIndex + 6) <<< 8) ||| rxBuffer (dataIndex + 7))
                     % 4294967296
        header ++ [Effect.read (dataIndex + 4), Effect.read (dataIndex + 5),
                   Effect.read (dataIndex + 6), Effect.read (dataIndex + 7)]
          ++ (if cb then [Effect.callback dpid value] else [])
          ++ parseStatusReport cb rxBuffer rxIndex expectedLen (dataIndex + 4 + 4)
      else
        header ++ parseStatusReport cb rxBuffer rxIndex expectedLen (dataIndex + 4 + len)
  else []
termination_by rxIndex - dataIndex
decreasing_by
  all_goals simp_wf
  all_goals omega

/-- The body of `if (rxIndex >= 6 + expectedLen + 1) { ... }` in `processResponse`:
dispatch on `currentCmd`, then reset the receiver. -/
def completeFrame (zigbeeConnected : Bool) (now : Nat) (s : TuyaProtocol) :
    TuyaProtocol × List Effect :=
  let mark := Effect.frame s.currentCmd s.expectedLen
    ((List.range s.expectedLen).map fun i => s.rxBuffer (6 + i))
  let r : TuyaProtocol × List Effect :=
    if s.currentCmd = TUYA_CMD_STATUS_REPORT then
      (s, parseStatusReport s.deviceStatusCallback s.rxBuffer s.rxIndex s.expectedLen 6)
    else if s.currentCmd = TUYA_CMD_HEARTBEAT then
      ({ s with tuyaConnected := true, lastHeartbeat := now }, [])
    else if s.currentCmd = TUYA_CMD_NETWORK_STATUS then
      let status := if zigbeeConnected then NETWORK_STATUS_CONNECTED
                    else NETWORK_STATUS_DISCONNECTED
      (s, [Effect.transmit (sendNetworkStatus status)])
    else (s, [])
  ({ r.1 with rxState := TuyaProtocolState.WAIT_HEADER_1, rxIndex := 0, expectedLen := 0 },
   mark :: r.2)

/-- One iteration of the `while (Serial.available())` loop of `processResponse`:
`uint8_t byte = Serial.read()` followed by the `switch (rxState)`. -/
def processByte (zigbeeConnected : Bool) (now : Nat) (s : TuyaProtocol) (raw : Nat) :
    TuyaProtocol × List Effect :=
  let byte := raw % 256
  match s.rxState with
  | TuyaProtocolState.WAIT_HEADER_1 =>
    if byte = 0x55 then
      ({ s.push byte with rxState := TuyaProtocolState.WAIT_HEADER_2 },
       [Effect.store s.rxIndex byte])
    else (s, [])
  | TuyaProtocolState.WAIT_HEADER_2 =>
    if byte = 0xAA then
      ({ s.push byte with rxState := TuyaProtocolState.WAIT_VERSION },
       [Effect.store s.rxIndex byte])
    else ({ s with rxState := TuyaProtocolState.WAIT_HEADER_1, rxIndex := 0 }, [])
  | TuyaProtocolState.WAIT_VERSION =>
    ({ s.push byte with rxState := TuyaProtocolState.WAIT_COMMAND },
     [Effect.store s.rxIndex byte])
  | TuyaProtocolState.WAIT_COMMAND =>
    ({ s.push byte with currentCmd := byte, rxState := TuyaProtocolState.WAIT_LENGTH_HIGH },
     [Effect.store s.rxIndex byte])
  | TuyaProtocolState.WAIT_LENGTH_HIGH =>
    ({ s.push byte with expectedLen := (byte <<< 8) % 65536,
                        rxState := TuyaProtocolState.WAIT_LENGTH_LOW },
     [Effect.store s.rxIndex byte])
  | TuyaProtocolState.WAIT_LENGTH_LOW =>
    ({ s.push byte with expectedLen := (s.expectedLen ||| byte) % 65536,
                        rxState := TuyaProtocolState.WAIT_DATA_AND_CHECKSUM },
     [Effect.store s.rxIndex byte])
  | TuyaProtocolState.WAIT_DATA_AND_CHECKSUM =>
    if s.rxIndex < TUYA_RX_BUFFER_SIZE then
      let s1 := s.push byte
      if s1.rxIndex ≥ 6 + s1.expectedLen + 1 then
        let r := completeFrame zigbeeConnected now s1
        (r.1, Effect.store s.rxIndex byte :: r.2)
      else (s1, [Effect.store s.rxIndex byte])
    else
      ({ s with rxState := TuyaProtocolState.WAIT_HEADER_1, rxIndex := 0, expectedLen := 0 },
       [])

/-- Method `TuyaProtocol::processResponse(zigbeeConnected)` on the bytes `input` that
`Serial.read()` delivers during the call: the final object state and the effects, in
order. -/
def processResponse (zigbeeConnected : Bool) (now : Nat) (s : TuyaProtocol) :
    List Nat → TuyaProtocol × List Effect
  | [] => (s, [])
  | b :: rest =>
    let r1 := processByte zigbeeConnected now s b
    let r2 := processResponse zigbeeConnected now r1.1 rest
    (r2.1, r1.2 ++ r2.2)

/-! ## Projections of the effect trace -/

/-- The completed frames `(command, declared length, payload)` of a trace, in order. -/
def frames : List Effect → List (Nat × Nat × List Nat)
  | [] => []
  | Effect.frame c l p :: es => (c, l, p) :: frames es
  | _ :: es => frames es

/-- The handler calls `(dpid, value)` of a trace, in order. -/
def callbacks : List Effect → List (Nat × Nat)
  | [] => []
  | Effect.callback d v :: es => (d, v) :: callbacks es
  | _ :: es => callbacks es

/-- The bytes transmitted by a trace, in order. -/
def transmitted : List Effect → List Nat
  | [] => []
  | Effect.transmit bs :: es => bs ++ transmitted es
  | _ :: es => transmitted es

/-- The indices of the stores into `rxBuffer` of a trace, in order. -/
def storeIndices : List Effect → List Nat
  | [] => []
  | Effect.store i _ :: es => i :: storeIndices es
  | _ :: es => storeIndices es


/-- The contents of `rxBuffer` after the consecutive stores of `bytes` from index `start`. -/
def storeBytes (buf : Nat → Nat) (start : Nat) : List Nat → Nat → Nat
  | [] => buf
  | b :: bs => storeBytes (Function.update buf start b) (start + 1) bs

/-- The trace of the consecutive stores of `bytes` from index `start`. -/
def storeTrace (start : Nat) : List Nat → List Effect
  | [] => []
  | b :: bs => Effect.store start b :: storeTrace (start + 1) bs

/-- The receiver state just before the completion block runs, after the six header bytes
`0x55 0xAA v c hi lo`, the payload `q` and the checksum byte `cs` were accumulated from
a receiver `s` waiting for a header with `rxIndex = 0`. -/
def received (s : TuyaProtocol) (v c hi lo : Nat) (q : List Nat) (cs : Nat) : TuyaProtocol :=
  { s with
      rxState := TuyaProtocolState.WAIT_DATA_AND_CHECKSUM
      rxIndex := 7 + q.length
      expectedLen := q.length
      currentCmd := c % 256
      rxBuffer := storeBytes s.rxBuffer 0
        (([0x55, 0xAA, v, c, hi, lo] ++ q ++ [cs]).map (· % 256)) }

/-- Two receivers agree on everything `processResponse` reads: all fields except the
time stamp `lastHeartbeat` and the statics of `update`. -/
def agree (s t : TuyaProtocol) : Prop :=
  s.tuyaConnected = t.tuyaConnected ∧ s.deviceStatusCallback = t.deviceStatusCallback
  ∧ s.rxState = t.rxState ∧ s.rxBuffer = t.rxBuffer ∧ s.rxIndex = t.rxIndex
  ∧ s.expectedLen = t.expectedLen ∧ s.currentCmd = t.currentCmd

/-- One call of `processResponse` per incoming byte; every element of the input is the
value of `millis()` during that call and the byte that the call reads. -/
def processEach (zigbeeConnected : Bool) (s : TuyaProtocol) :
    List (Nat × Nat) → TuyaProtocol × List Effect
  | [] => (s, [])
  | (now, b) :: rest =>
    let r1 := processResponse zigbeeConnected now s [b]
    let r2 := processEach zigbeeConnected r1.1 rest
    (r2.1, r1.2 ++ r2.2)

/-- The relation between `rxState` and `rxIndex` that the receiver maintains: while the
header is being read `rxIndex` counts the header bytes stored so far, and while payload
and checksum are being read it lies between 6 and the size of `rxBuffer`. -/
def rxInv (s : TuyaProtocol) : Prop :=
  match s.rxState with
  | TuyaProtocolState.WAIT_HEADER_1 => s.rxIndex = 0
  | TuyaProtocolState.WAIT_HEADER_2 => s.rxIndex = 1
  | TuyaProtocolState.WAIT_VERSION => s.rxIndex = 2
  | TuyaProtocolState.WAIT_COMMAND => s.rxIndex = 3
  | TuyaProtocolState.WAIT_LENGTH_HIGH => s.rxIndex = 4
  | TuyaProtocolState.WAIT_LENGTH_LOW => s.rxIndex = 5
  | TuyaProtocolState.WAIT_DATA_AND_CHECKSUM => 6 ≤ s.rxIndex ∧ s.rxIndex ≤ TUYA_RX_BUFFER_SIZE

/-- A well-formed data-point entry of a status-report payload, in the words of the wire
format: a boolean entry `id, 0x01, 0x00 0x01, value` with one value byte, or a numeric
(`0x02`) or enumerated (`0x04`) entry `id, type, 0x00 0x04, b0 b1 b2 b3` with four value
bytes, most significant first. -/
inductive Entry where
  | boolean (id : Nat) (value : Nat)
  | numeric (id : Nat) (type : Nat) (b0 b1 b2 b3 : Nat)
  deriving DecidableEq, Repr

/-- The bytes of an entry on the wire. -/
def Entry.bytes : Entry → List Nat
  | Entry.boolean id value => [id, 0x01, 0x00, 0x01, value]
  | Entry.numeric id type b0 b1 b2 b3 => [id, type, 0x00, 0x04, b0, b1, b2, b3]

/-- Every field of the entry is a byte and a four-byte entry has type `0x02` or `0x04`. -/
def Entry.wellFormed : Entry → Prop
  | Entry.boolean id value => id < 256 ∧ value < 256
  | Entry.numeric id type b0 b1 b2 b3 =>
    id < 256 ∧ (type = 0x02 ∨ type = 0x04) ∧ b0 < 256 ∧ b1 < 256 ∧ b2 < 256 ∧ b3 < 256

instance (e : Entry) : Decidable e.wellFormed := by
  cases e <;> unfold Entry.wellFormed <;> infer_instance

/-- The handler call `(id, value)` that an entry stands for: the value byte of a boolean
entry, the big-endian 32-bit value of a numeric or enumerated entry. -/
def Entry.call : Entry → Nat × Nat
  | Entry.boolean id value => (id, value)
  | Entry.numeric id _ b0 b1 b2 b3 => (id, b0 * 16777216 + b1 * 65536 + b2 * 256 + b3)

/-- The payload made of the given entries, in order. -/
def entriesBytes : List Entry → List Nat
  | [] => []
  | e :: es => e.bytes ++ entriesBytes es

/-! ## Timing, attribute ranges and data-point identifiers -/

/-- Macro `TUYA_HEARTBEAT_INTERVAL_MS`, defined as `10000`. -/
abbrev TUYA_HEARTBEAT_INTERVAL_MS : Nat := 10000
/-- Macro `TUYA_CONNECTION_TIMEOUT_MS`, defined as `30000`. -/
abbrev TUYA_CONNECTION_TIMEOUT_MS : Nat := 30000
/-- Macro `TUYA_RESPONSE_TIMEOUT_MS`, defined as `1000`. -/
abbrev TUYA_RESPONSE_TIMEOUT_MS : Nat := 1000
/-- Macro `TUYA_COMMAND_TIMEOUT_MS`, defined as `500`. -/
abbrev TUYA_COMMAND_TIMEOUT_MS : Nat := 500
/-- Macro `TUYA_BRIGHTNESS_MIN`, defined as `0`. -/
abbrev TUYA_BRIGHTNESS_MIN : Nat := 0
/-- Macro `TUYA_BRIGHTNESS_MAX`, defined as `5`. -/
abbrev TUYA_BRIGHTNESS_MAX : Nat := 5
/-- Macro `TUYA_FAN_SPEED_MIN`, defined as `0`. -/
abbrev TUYA_FAN_SPEED_MIN : Nat := 0
/-- Macro `TUYA_FAN_SPEED_MAX`, defined as `5`. -/
abbrev TUYA_FAN_SPEED_MAX : Nat := 5
/-- Macro `DP_FAN_SWITCH`, defined as `1`. -/
abbrev DP_FAN_SWITCH : Nat := 1
/-- Macro `DP_FAN_MODE`, defined as `2`. -/
abbrev DP_FAN_MODE : Nat := 2
/-- Macro `DP_FAN_SPEED`, defined as `3`. -/
abbrev DP_FAN_SPEED : Nat := 3
/-- Macro `DP_FAN_DIRECTION`, defined as `8`. -/
abbrev DP_FAN_DIRECTION : Nat := 8
/-- Macro `DP_LIGHT_SWITCH`, defined as `15`. -/
abbrev DP_LIGHT_SWITCH : Nat := 15
/-- Macro `DP_LIGHT_DIMMER`, defined as `16`. -/
abbrev DP_LIGHT_DIMMER : Nat := 16
/-- Macro `DP_LIGHT_COLOUR_TEMP`, defined as `19`. -/
abbrev DP_LIGHT_COLOUR_TEMP : Nat := 19

/-- The `enum class ColourTempLevel : uint8_t` of SkyfanConfig.h. -/
inductive ColourTempLevel where
  | WARM
  | NATURAL
  | COOL
  deriving DecidableEq, Repr

/-- The `uint8_t` value of a `ColourTempLevel`. -/
def ColourTempLevel.toUInt8 : ColourTempLevel → Nat
  | ColourTempLevel.WARM => 0
  | ColourTempLevel.NATURAL => 1
  | ColourTempLevel.COOL => 2

/-- The `enum class TuyaFanMode : uint8_t` of SkyfanConfig.h. -/
inductive TuyaFanMode where
  | NORMAL
  | ECO
  | SLEEP
  deriving DecidableEq, Repr

/-- The `uint8_t` value of a `TuyaFanMode`. -/
def TuyaFanMode.toUInt8 : TuyaFanMode → Nat
  | TuyaFanMode.NORMAL => 0
  | TuyaFanMode.ECO => 1
  | TuyaFanMode.SLEEP => 2

/-- The `enum class FanDirection : uint8_t` of SkyfanConfig.h. -/
inductive FanDirection where
  | FORWARD
  | REVERSE
  deriving DecidableEq, Repr

/-- The `uint8_t` value of a `FanDirection`. -/
def FanDirection.toUInt8 : FanDirection → Nat
  | FanDirection.FORWARD => 0
  | FanDirection.REVERSE => 1

/-- The template `isInRange(value, min, max)` of SkyfanConfig.h. -/
def isInRange (value min max : Nat) : Bool :=
  decide (value ≥ min) && decide (value ≤ max)

/-- Function `isValidTuyaFanSpeed` of SkyfanConfig.h. -/
def isValidTuyaFanSpeed (speed : Nat) : Bool :=
  isInRange speed TUYA_FAN_SPEED_MIN TUYA_FAN_SPEED_MAX

/-- Function `isValidTuyaBrightness` of SkyfanConfig.h. -/
def isValidTuyaBrightness (brightness : Nat) : Bool :=
  isInRange brightness TUYA_BRIGHTNESS_MIN TUYA_BRIGHTNESS_MAX

/-- The difference `now - since` of two `unsigned long` values (32 bits on the target), as
in `millis() - lastHeartbeat`. -/
def elapsed (now since : Nat) : Nat :=
  (now % 4294967296 + 4294967296 - since % 4294967296) % 4294967296

/-! ## The blocking wait -/

/-- The serial port and the clock as `waitForResponse` sees them: `rx` holds the bytes
waiting in the receive buffer (`Serial.available()` is its length), `incoming` lists the
bytes that arrive during each of the following calls of `delay`, and `now` is
`millis()`. -/
structure Serial where
  rx : List Nat
  incoming : List (List Nat)
  now : Nat
  deriving DecidableEq, Repr

/-- The call `delay(ms)`: the clock advances by `ms` and the next batch of incoming bytes
reaches the receive buffer. -/
def Serial.delay (io : Serial) (ms : Nat) : Serial :=
  { rx := io.rx ++ io.incoming.headD []
    incoming := io.incoming.tail
    now := (io.now + ms) % 4294967296 }

/-- The loop `for (uint16_t i = 0; i < len + 1; i++) { if (Serial.available()) Serial.read(); }`
of `waitForResponse`, started at counter value `i`, with one unit of `fuel` per test of
the loop condition.  The comparison is made in `int`, so `len + 1` does not wrap, while
the increment of the `uint16_t` counter does.  The result is the receive buffer after the
loop, or `none` when the fuel runs out first. -/
def drain : Nat → Nat → Nat → List Nat → Option (List Nat)
  | 0, _, _, _ => none
  | fuel + 1, i, len, rx =>
    if i < len + 1 then drain fuel ((i + 1) % 65536) len (rx.drop 1)
    else some rx

/-- The loop `while (millis() - startTime < timeout)` of `waitForResponse`, with one unit of
`fuel` per test of the loop condition (the drain loops of an iteration get the fuel
that is left).  The result is the return value with the serial port and clock at
return, or `none` when the fuel runs out first.  The six reads of a header happen only
when `Serial.available() >= 6`; the two operands of `(Serial.read() << 8) | Serial.read()`
are read from left to right. -/
def waitLoop (expectedCmd timeout startTime : Nat) : Nat → Serial → Option (Bool × Serial)
  | 0, _ => none
  | fuel + 1, io =>
    if elapsed io.now startTime < timeout then
      if io.rx.length ≥ 6 then
        if io.rx.getD 0 0 = 0x55 then
          if io.rx.getD 1 0 = 0xAA then
            let cmd := io.rx.getD 3 0 % 256
            let len := ((io.rx.getD 4 0 <<< 8) ||| io.rx.getD 5 0) % 65536
            if cmd = expectedCmd ∨ expectedCmd = 0xFF then
              match drain fuel 0 len (io.rx.drop 6) with
              | none => none
              | some rx => some (true, { io with rx := rx })
            else
              match drain fuel 0 len (io.rx.drop 6) with
              | none => none
              | some rx =>
                waitLoop expectedCmd timeout startTime fuel
                  (Serial.delay { io with rx := rx } 10)
          else
            waitLoop expectedCmd timeout startTime fuel
              (Serial.delay { io with rx := io.rx.drop 2 } 10)
        else
          waitLoop expectedCmd timeout startTime fuel
            (Serial.delay { io with rx := io.rx.drop 1 } 10)
      else waitLoop expectedCmd timeout startTime fuel (Serial.delay io 10)
    else some (false, io)

/-- Method `TuyaProtocol::waitForResponse(expectedCmd, timeout)`: `startTime = millis()`
followed by the polling loop. -/
def waitForResponse (fuel expectedCmd timeout : Nat) (io : Serial) : Option (Bool × Serial) :=
  waitLoop expectedCmd timeout io.now fuel io

/-! ## Outbound data points and attribute setters -/

/-- The array `data[0 .. dataLen)` that `sendDataPoint(dpid, type, value)` builds. -/
def dataPointPayload (dpid type value : Nat) : List Nat :=
  [dpid, type]
    ++ (if type = DP_TYPE_BOOL then
          [0x00, 0x01, if value ≠ 0 then 0x01 else 0x00]
        else if type = DP_TYPE_VALUE ∨ type = DP_TYPE_ENUM then
          [0x00, 0x04, (value >>> 24) &&& 0xFF, (value >>> 16) &&& 0xFF,
           (value >>> 8) &&& 0xFF, value &&& 0xFF]
        else [])

/-- Method `TuyaProtocol::sendDataPoint(dpid, type, value)`: the bytes handed to
`Serial.write`, and the outcome of the call of `waitForResponse` that follows (`none`
when that call does not return within `fuel`). -/
def sendDataPoint (fuel dpid type value : Nat) (io : Serial) :
    List Nat × Option (Bool × Serial) :=
  let data := dataPointPayload dpid type value
  (sendCommand TUYA_CMD_SEND_COMMAND data data.length,
   waitForResponse fuel TUYA_CMD_SEND_COMMAND TUYA_COMMAND_TIMEOUT_MS io)

/-- The tail of every attribute setter: `sendDataPoint(dpid, type, value); return true;`.
The result is the bytes transmitted, and the return value with the serial port at
return (`none` when the call does not return within `fuel`). -/
def sendAndReturnTrue (fuel dpid type value : Nat) (io : Serial) :
    List Nat × Option (Bool × Serial) :=
  ((sendDataPoint fuel dpid type value io).1,
   (sendDataPoint fuel dpid type value io).2.map fun w => (true, w.2))

/-- Method `TuyaProtocol::setFanSwitch(on)`. -/
def setFanSwitch (fuel : Nat) (isOn : Bool) (io : Serial) :
    List Nat × Option (Bool × Serial) :=
  sendAndReturnTrue fuel DP_FAN_SWITCH DP_TYPE_BOOL (if isOn then 1 else 0) io

/-- Method `TuyaProtocol::setFanSpeed(speed)`. -/
def setFanSpeed (fuel speed : Nat) (io : Serial) : List Nat × Option (Bool × Serial) :=
  if ¬ isValidTuyaFanSpeed speed then ([], some (false, io))
  else sendAndReturnTrue fuel DP_FAN_SPEED DP_TYPE_VALUE speed io

/-- Method `TuyaProtocol::setFanMode(mode)`. -/
def setFanMode (fuel mode : Nat) (io : Serial) : List Nat × Option (Bool × Serial) :=
  if mode > TuyaFanMode.SLEEP.toUInt8 then ([], some (false, io))
  else sendAndReturnTrue fuel DP_FAN_MODE DP_TYPE_ENUM mode io

/-- Method `TuyaProtocol::setFanDirection(direction)`. -/
def setFanDirection (fuel direction : Nat) (io : Serial) :
    List Nat × Option (Bool × Serial) :=
  if direction > FanDirection.REVERSE.toUInt8 then ([], some (false, io))
  else sendAndReturnTrue fuel DP_FAN_DIRECTION DP_TYPE_ENUM direction io

/-- Method `TuyaProtocol::setLightSwitch(on)`. -/
def setLightSwitch (fuel : Nat) (isOn : Bool) (io : Serial) :
    List Nat × Option (Bool × Serial) :=
  sendAndReturnTrue fuel DP_LIGHT_SWITCH DP_TYPE_BOOL (if isOn then 1 else 0) io

/-- Method `TuyaProtocol::setLightBrightness(brightness)`. -/
def setLightBrightness (fuel brightness : Nat) (io : Serial) :
    List Nat × Option (Bool × Serial) :=
  if ¬ isValidTuyaBrightness brightness then ([], some (false, io))
  else sendAndReturnTrue fuel DP_LIGHT_DIMMER DP_TYPE_VALUE brightness io

/-- Method `TuyaProtocol::setLightColourTemp(colourTemp)`. -/
def setLightColourTemp (fuel colourTemp : Nat) (io : Serial) :
    List Nat × Option (Bool × Serial) :=
  if colourTemp > ColourTempLevel.COOL.toUInt8 then ([], some (false, io))
  else sendAndReturnTrue fuel DP_LIGHT_COLOUR_TEMP DP_TYPE_ENUM colourTemp io

/-! ## The periodic tick -/

/-- Method `TuyaProtocol::update(zigbeeConnected)` at time `now`, with `input` the bytes
that its call of `processResponse` reads: the object state afterwards (the three
function-level statics included) and the effects, in order. -/
def update (zigbeeConnected : Bool) (now : Nat) (s : TuyaProtocol) (input : List Nat) :
    TuyaProtocol × List Effect :=
  let r := processResponse zigbeeConnected now s input
  let beat : Bool := decide (elapsed now r.1.lastHeartbeatSent > TUYA_HEARTBEAT_INTERVAL_MS)
  let s1 : TuyaProtocol := if beat then { r.1 with lastHeartbeatSent := now } else r.1
  let e1 : List Effect := if beat then [Effect.transmit sendHeartbeat] else []
  let lost : Bool :=
    s1.tuyaConnected && decide (elapsed now s1.lastHeartbeat > TUYA_CONNECTION_TIMEOUT_MS)
  let s2 : TuyaProtocol := if lost then { s1 with tuyaConnected := false } else s1
  let announce : Bool := s2.firstRun || (s2.lastZigbeeState != zigbeeConnected)
  let status : Nat :=
    if zigbeeConnected then NETWORK_STATUS_CONNECTED else NETWORK_STATUS_DISCONNECTED
  let s3 : TuyaProtocol :=
    if announce then { s2 with lastZigbeeState := zigbeeConnected, firstRun := false } else s2
  let e3 : List Effect := if announce then [Effect.transmit (sendNetworkStatus status)] else []
  (s3, r.2 ++ e1 ++ e3)

/-- A sequence of calls of `update`; every element is the upstream-connectivity flag, the
value of `millis()` and the bytes read during one call. -/
def runTicks (s : TuyaProtocol) : List (Bool × Nat × List Nat) → TuyaProtocol
  | [] => s
  | (zc, now, input) :: rest => runTicks (update zc now s input).1 rest

/-- Ticks during which no byte arrives. -/
def quiet (ticks : List (Bool × Nat)) : List (Bool × Nat × List Nat) :=
  ticks.map fun t => (t.1, t.2, [])

/-- The packets handed to `Serial.write` by a trace, one per call, in order. -/
def packets : List Effect → List (List Nat)
  | [] => []
  | Effect.transmit bs :: es => bs :: packets es
  | _ :: es => packets es

/-- The command byte of a transmitted packet (offset 3 of the frame). -/
def commandOf (packet : List Nat) : Nat := packet.getD 3 0

/-- The network-status frames among the packets of a trace. -/
def networkStatusPackets (es : List Effect) : List (List Nat) :=
  (packets es).filter fun p => decide (commandOf p = TUYA_CMD_NETWORK_STATUS)

/-- The times at which a sequence of calls of `update` transmits the heartbeat frame. -/
def heartbeatTimes (s : TuyaProtocol) : List (Bool × Nat × List Nat) → List Nat
  | [] => []
  | (zc, now, input) :: rest =>
    (if sendHeartbeat ∈ packets (update zc now s input).2 then [now] else [])
      ++ heartbeatTimes (update zc now s input).1 rest

/-- No byte of the receive buffer or of the bytes still to arrive is `0xFF`, so that no
frame header read from the stream declares the length `0xFFFF`. -/
def Serial.noFF (io : Serial) : Prop :=
  (∀ b ∈ io.rx, b < 255) ∧ ∀ l ∈ io.incoming, ∀ b ∈ l, b < 255

instance (io : Serial) : Decidable io.noFF := by
  unfold Serial.noFF; infer_instance

/-- A call returned `true`. -/
def returnsTrue (r : List Nat × Option (Bool × Serial)) : Prop :=
  ∃ io, r.2 = some (true, io)

/-- A call returned `false`. -/
def returnsFalse (r : List Nat × Option (Bool × Serial)) : Prop :=
  ∃ io, r.2 = some (false, io)

/-- A call returned `false` and transmitted no byte. -/
def rejected (r : List Nat × Option (Bool × Serial)) : Prop :=
  returnsFalse r ∧ r.1 = []

/-- The setter `set` validates its argument against the upper bound `max`: for every
argument it returns `false` without transmitting a byte if and only if the argument
exceeds `max`; for an argument within the bound it never returns `false`, its outcome is
that of the wait for the acknowledgement with the return value replaced by `true`, and it
returns `true` whenever the incoming stream holds no byte `0xFF` (given enough fuel). -/
def validates (set : Nat → Nat → Serial → List Nat × Option (Bool × Serial)) (max : Nat)
    (io : Serial) : Prop :=
  (∀ fuel x, rejected (set fuel x io) ↔ max < x)
  ∧ (∀ fuel x, x ≤ max → ¬ returnsFalse (set fuel x io))
  ∧ (∀ fuel x, x ≤ max →
      (set fuel x io).2
        = (waitForResponse fuel TUYA_CMD_SEND_COMMAND TUYA_COMMAND_TIMEOUT_MS io).map
            fun w => (true, w.2))
  ∧ (io.noFF → ∀ fuel x, 66038 ≤ fuel → x ≤ max → returnsTrue (set fuel x io))

/-! ## Reads of the data-point decoder -/

/-- The indices of the reads of `rxBuffer` that the data-point decoder performs in a
trace, in order. -/
def readIndices : List Effect → List Nat
  | [] => []
  | Effect.read i :: es => i :: readIndices es
  | _ :: es => readIndices es

/-! ## Colour temperature -/

/-- Macro `COLOUR_TEMP_WARM_KELVIN`, defined as `3000`. -/
abbrev COLOUR_TEMP_WARM_KELVIN : Nat := 3000
/-- Macro `COLOUR_TEMP_NATURAL_KELVIN`, defined as `4200`. -/
abbrev COLOUR_TEMP_NATURAL_KELVIN : Nat := 4200
/-- Macro `COLOUR_TEMP_COOL_KELVIN`, defined as `6500`. -/
abbrev COLOUR_TEMP_COOL_KELVIN : Nat := 6500
/-- Macro `COLOUR_TEMP_WARM_MIRED`, defined as `333` with the comment `1000000/3000`. -/
abbrev COLOUR_TEMP_WARM_MIRED : Nat := 333
/-- Macro `COLOUR_TEMP_NATURAL_MIRED`, defined as `238` with the comment `1000000/4200`. -/
abbrev COLOUR_TEMP_NATURAL_MIRED : Nat := 238
/-- Macro `COLOUR_TEMP_COOL_MIRED`, defined as `154` with the comment `1000000/6500`. -/
abbrev COLOUR_TEMP_COOL_MIRED : Nat := 154

/-- Function `kelvinToMired(uint16_t kelvin)`: the quotient is computed in `int` and
converted to the `uint16_t` return type, which reduces it modulo 65536. -/
def kelvinToMired (kelvin : Nat) : Nat :=
  (if kelvin > 0 then 1000000 / kelvin else 0) % 65536

/-- Function `miredToKelvin(uint16_t mired)`, with the same conversion to `uint16_t`. -/
def miredToKelvin (mired : Nat) : Nat :=
  (if mired > 0 then 1000000 / mired else 0) % 65536

/-- Function `kelvinToTuyaColourTemp(uint16_t kelvin)`: the thresholds are the integer
midpoints `(3000 + 4200) / 2` and `(4200 + 6500) / 2`. -/
def kelvinToTuyaColourTemp (kelvin : Nat) : ColourTempLevel :=
  if kelvin ≤ (COLOUR_TEMP_WARM_KELVIN + COLOUR_TEMP_NATURAL_KELVIN) / 2 then
    ColourTempLevel.WARM
  else if kelvin ≤ (COLOUR_TEMP_NATURAL_KELVIN + COLOUR_TEMP_COOL_KELVIN) / 2 then
    ColourTempLevel.NATURAL
  else ColourTempLevel.COOL

/-- Function `miredToTuyaColourTemp(uint16_t mired)`. -/
def miredToTuyaColourTemp (mired : Nat) : ColourTempLevel :=
  kelvinToTuyaColourTemp (miredToKelvin mired)

/-- Function `tuyaColourTempToMired(ColourTempLevel)`; the `default` branch of the
`switch` is not reachable from the three enumerators. -/
def tuyaColourTempToMired : ColourTempLevel → Nat
  | ColourTempLevel.WARM => COLOUR_TEMP_WARM_MIRED
  | ColourTempLevel.NATURAL => COLOUR_TEMP_NATURAL_MIRED
  | ColourTempLevel.COOL => COLOUR_TEMP_COOL_MIRED

/-- Function `tuyaColourTempToKelvin(ColourTempLevel)`; the `default` branch of the
`switch` is not reachable from the three enumerators. -/
def tuyaColourTempToKelvin : ColourTempLevel → Nat
  | ColourTempLevel.WARM => COLOUR_TEMP_WARM_KELVIN
  | ColourTempLevel.NATURAL => COLOUR_TEMP_NATURAL_KELVIN
  | ColourTempLevel.COOL => COLOUR_TEMP_COOL_KELVIN

/-! ## The root-level copy of the receiver (src/TuyaProtocol.cpp) -/

/-- The receiver fields of class `TuyaProtocol` as the root-level `src/TuyaProtocol.h`
declares them: `rxState` is a plain `uint8_t` there, and `rxBuffer` has 256 elements.  The
model keeps `rxBuffer` as a function on all indices, so that a store past the end of the
array is an event of the trace like any other store. -/
structure Root.TuyaProtocol where
  lastHeartbeat : Nat
  tuyaConnected : Bool
  deviceStatusCallback : Bool
  rxState : Nat
  rxBuffer : Nat → Nat
  rxIndex : Nat
  expectedLen : Nat
  currentCmd : Nat

/-- The constructor `TuyaProtocol::TuyaProtocol()` of the root-level copy. -/
def Root.TuyaProtocol.new (buf : Nat → Nat) : Root.TuyaProtocol :=
  { lastHeartbeat := 0
    tuyaConnected := false
    deviceStatusCallback := false
    rxState := 0
    rxBuffer := buf
    rxIndex := 0
    expectedLen := 0
    currentCmd := 0 }

/-- The statement `rxBuffer[rxIndex++] = byte` of the root-level copy. -/
def Root.TuyaProtocol.push (s : Root.TuyaProtocol) (byte : Nat) : Root.TuyaProtocol :=
  { s with rxBuffer := Function.update s.rxBuffer s.rxIndex byte
           rxIndex := (s.rxIndex + 1) % 65536 }

/-- The `while (dataIndex < 6 + expectedLen)` loop of the root-level `processResponse`,
with at most `fuel` iterations (`none` when they do not suffice: the loop need not end,
since the `uint16_t dataIndex` can wrap in `dataIndex += len`).  The guard
`dataIndex + 4 < rxIndex` on the `uint16_t rxIndex` keeps the first four increments of
`dataIndex` from wrapping.  The handler is called for every entry, with value 0 for an
entry of unrecognised type or length.  Reads are not traced for this copy. -/
def Root.parseStatusReport (cb : Bool) (rxBuffer : Nat → Nat) (rxIndex expectedLen : Nat) :
    Nat → Nat → Option (List Effect)
  | 0, _ => none
  | fuel + 1, dataIndex =>
    if dataIndex < 6 + expectedLen then
      if dataIndex + 4 < rxIndex then
        let dpid := rxBuffer dataIndex
        let type := rxBuffer (dataIndex + 1)
        let len := ((rxBuffer (dataIndex + 2) <<< 8) ||| rxBuffer (dataIndex + 3)) % 65536
        let step : Nat × Nat :=
          if type = DP_TYPE_BOOL ∧ len = 1 then
            (rxBuffer (dataIndex + 4), (dataIndex + 4 + 1) % 65536)
          else if (type = DP_TYPE_VALUE ∨ type = DP_TYPE_ENUM) ∧ len = 4 then
            (((rxBuffer (dataIndex + 4) <<< 24) ||| (rxBuffer (dataIndex + 5) <<< 16)
               ||| (rxBuffer (dataIndex + 6) <<< 8) ||| rxBuffer (dataIndex + 7))
              % 4294967296,
             (dataIndex + 4 + 4) % 65536)
          else (0, (dataIndex + 4 + len) % 65536)
        (Root.parseStatusReport cb rxBuffer rxIndex expectedLen fuel step.2).map fun rest =>
          (if cb then [Effect.callback dpid step.1] else []) ++ rest
      else some []
    else some []

/-- The body of `if (rxIndex >= 6 + expectedLen + 1) { ... }` in the root-level
`processResponse`: dispatch on `currentCmd`, then reset the receiver.  The functions
`sendNetworkStatus`, `sendCommand` and `calculateChecksum` of the root-level copy have the
same text as in the newer copy and share its embedding. -/
def Root.completeFrame (fuel : Nat) (zigbeeConnected : Bool) (now : Nat)
    (s : Root.TuyaProtocol) : Option (Root.TuyaProtocol × List Effect) :=
  let mark := Effect.frame s.currentCmd s.expectedLen
    ((List.range s.expectedLen).map fun i => s.rxBuffer (6 + i))
  let r : Option (Root.TuyaProtocol × List Effect) :=
    if s.currentCmd = TUYA_CMD_STATUS_REPORT then
      (Root.parseStatusReport s.deviceStatusCallback s.rxBuffer s.rxIndex s.expectedLen
        fuel 6).map fun e => (s, e)
    else if s.currentCmd = TUYA_CMD_HEARTBEAT then
      some ({ s with tuyaConnected := true, lastHeartbeat := now }, [])
    else if s.currentCmd = TUYA_CMD_NETWORK_STATUS then
      let status := if zigbeeConnected then NETWORK_STATUS_CONNECTED
                    else NETWORK_STATUS_DISCONNECTED
      some (s, [Effect.transmit (sendNetworkStatus status)])
    else some (s, [])
  r.map fun r => ({ r.1 with rxState := 0, rxIndex := 0, expectedLen := 0 }, mark :: r.2)

/-- One iteration of the `while (Serial.available())` loop of the root-level
`processResponse`: `uint8_t byte = Serial.read()` followed by the `switch (rxState)`,
which has the cases 0 to 6 and no default.  Case 6 stores the byte without comparing
`rxIndex` with the size of `rxBuffer`. -/
def Root.processByte (fuel : Nat) (zigbeeConnected : Bool) (now : Nat)
    (s : Root.TuyaProtocol) (raw : Nat) : Option (Root.TuyaProtocol × List Effect) :=
  let byte := raw % 256
  match s.rxState with
  | 0 =>
    if byte = 0x55 then
      some ({ s.push byte with rxState := 1 }, [Effect.store s.rxIndex byte])
    else some (s, [])
  | 1 =>
    if byte = 0xAA then
      some ({ s.push byte with rxState := 2 }, [Effect.store s.rxIndex byte])
    else some ({ s with rxState := 0, rxIndex := 0 }, [])
  | 2 => some ({ s.push byte with rxState := 3 }, [Effect.store s.rxIndex byte])
  | 3 =>
    some ({ s.push byte with currentCmd := byte, rxState := 4 },
          [Effect.store s.rxIndex byte])
  | 4 =>
    some ({ s.push byte with expectedLen := (byte <<< 8) % 65536, rxState := 5 },
          [Effect.store s.rxIndex byte])
  | 5 =>
    some ({ s.push byte with expectedLen := (s.expectedLen ||| byte) % 65536, rxState := 6 },
          [Effect.store s.rxIndex byte])
  | 6 =>
    let s1 := s.push byte
    if s1.rxIndex ≥ 6 + s1.expectedLen + 1 then
      (Root.completeFrame fuel zigbeeConnected now s1).map fun r =>
        (r.1, Effect.store s.rxIndex byte :: r.2)
    else some (s1, [Effect.store s.rxIndex byte])
  | _ => some (s, [])

/-- Method `TuyaProtocol::processResponse(zigbeeConnected)` of the root-level copy on the
bytes `input` that `Serial.read()` delivers during the call; `fuel` bounds the iterations
of each run of the decoder loop. -/
def Root.processResponse (fuel : Nat) (zigbeeConnected : Bool) (now : Nat) :
    Root.TuyaProtocol → List Nat → Option (Root.TuyaProtocol × List Effect)
  | s, [] => some (s, [])
  | s, b :: rest =>
    match Root.processByte fuel zigbeeConnected now s b with
    | none => none
    | some r1 =>
      (Root.processResponse fuel zigbeeConnected now r1.1 rest).map fun r2 =>
        (r2.1, r1.2 ++ r2.2)

/-- The `uint8_t` value of a `TuyaProtocolState`. -/
def TuyaProtocolState.toUInt8 : TuyaProtocolState → Nat
  | TuyaProtocolState.WAIT_HEADER_1 => 0
  | TuyaProtocolState.WAIT_HEADER_2 => 1
  | TuyaProtocolState.WAIT_VERSION => 2
  | TuyaProtocolState.WAIT_COMMAND => 3
  | TuyaProtocolState.WAIT_LENGTH_HIGH => 4
  | TuyaProtocolState.WAIT_LENGTH_LOW => 5
  | TuyaProtocolState.WAIT_DATA_AND_CHECKSUM => 6

/-- The root-level receiver that holds the same values as the newer receiver `s`. -/
def toRoot (s : TuyaProtocol) : Root.TuyaProtocol :=
  { lastHeartbeat := s.lastHeartbeat
    tuyaConnected := s.tuyaConnected
    deviceStatusCallback := s.deviceStatusCallback
    rxState := s.rxState.toUInt8
    rxBuffer := s.rxBuffer
    rxIndex := s.rxIndex
    expectedLen := s.expectedLen
    currentCmd := s.currentCmd }

/-- The overflow guard of the newer receiver discards the next byte: the receiver waits
for payload or checksum and `rxIndex` has reached the size of `rxBuffer`. -/
def overflowGuardFires (s : TuyaProtocol) : Prop :=
  s.rxState = TuyaProtocolState.WAIT_DATA_AND_CHECKSUM ∧ ¬ s.rxIndex < TUYA_RX_BUFFER_SIZE

/-- Well-formed traffic for the comparison of the two copies: along the run of the newer
receiver from `s` on `input`, the overflow guard never fires, and the payload of every
status report that completes is a concatenation of well-formed boolean, numeric and
enumerated entries. -/
def wellFormedTraffic (zigbeeConnected : Bool) (now : Nat) :
    TuyaProtocol → List Nat → Prop
  | _, [] => True
  | s, b :: rest =>
    ¬ overflowGuardFires s
    ∧ (∀ l p, (TUYA_CMD_STATUS_REPORT, l, p) ∈ frames (processByte zigbeeConnected now s b).2 →
        ∃ es : List Entry, (∀ e ∈ es, e.wellFormed) ∧ p = entriesBytes es)
    ∧ wellFormedTraffic zigbeeConnected now (processByte zigbeeConnected now s b).1 rest

/-! ## Brightness mapping -/

/-- Macro `ZIGBEE_BRIGHTNESS_MIN`, defined as `0`. -/
abbrev ZIGBEE_BRIGHTNESS_MIN : Nat := 0
/-- Macro `ZIGBEE_BRIGHTNESS_MAX`, defined as `254`. -/
abbrev ZIGBEE_BRIGHTNESS_MAX : Nat := 254

/-- Function template `clamp(value, min, max)`, used at type `uint8_t`. -/
def clamp (value min max : Nat) : Nat :=
  if value < min then min else if value > max then max else value

/-- Modelled from the spec: Arduino's library function
`long map(long x, long in_min, long in_max, long out_min, long out_max)`, which is not part
of the repository sources; it is the integer linear map
`(x - in_min) * (out_max - out_min) / (in_max - in_min) + out_min` with truncating
division.  The callers pass values between 0 and 254, far from the range of `long`. -/
def map (x in_min in_max out_min out_max : Int) : Int :=
  Int.tdiv ((x - in_min) * (out_max - out_min)) (in_max - in_min) + out_min

/-- Function `zigbeeBrightnessToTuya(uint8_t zigbeeBrightness)`; the `long` result of `map`
is converted to the `uint8_t` return type. -/
def zigbeeBrightnessToTuya (zigbeeBrightness : Nat) : Nat :=
  let clamped := clamp zigbeeBrightness ZIGBEE_BRIGHTNESS_MIN ZIGBEE_BRIGHTNESS_MAX
  (map clamped ZIGBEE_BRIGHTNESS_MIN ZIGBEE_BRIGHTNESS_MAX TUYA_BRIGHTNESS_MIN
    TUYA_BRIGHTNESS_MAX % 256).toNat

/-- Function `tuyaBrightnessToZigbee(uint8_t tuyaBrightness)`; the `long` result of `map`
is converted to the `uint8_t` return type. -/
def tuyaBrightnessToZigbee (tuyaBrightness : Nat) : Nat :=
  let clamped := clamp tuyaBrightness TUYA_BRIGHTNESS_MIN TUYA_BRIGHTNESS_MAX
  (map clamped TUYA_BRIGHTNESS_MIN TUYA_BRIGHTNESS_MAX ZIGBEE_BRIGHTNESS_MIN
    ZIGBEE_BRIGHTNESS_MAX % 256).toNat

/-! ## The debounced button -/

/-- Modelled from the spec: Arduino's macro `HIGH`, which is not part of the repository
sources: the pin level for which `bool reading = digitalRead(pin)` is true. -/
abbrev HIGH : Bool := true
/-- Modelled from the spec: Arduino's macro `LOW`, which is not part of the repository
sources: the pin level for which `bool reading = digitalRead(pin)` is false. -/
abbrev LOW : Bool := false
/-- Macro `BUTTON_DEBOUNCE_DELAY_MS`, defined as `100`. -/
abbrev BUTTON_DEBOUNCE_DELAY_MS : Nat := 100
/-- Macro `FACTORY_RESET_HOLD_TIME_MS`, defined as `3000`. -/
abbrev FACTORY_RESET_HOLD_TIME_MS : Nat := 3000

/-- The data members of class `DebouncedButton`; the time stamps are `unsigned long`
values of `millis()`. -/
structure DebouncedButton where
  pin : Nat
  lastStateChange : Nat
  lastPressTime : Nat
  lastState : Bool
  currentState : Bool
  pressed : Bool
  longPressed : Bool
  debounceDelay : Nat
  longPressDelay : Nat
  deriving DecidableEq, Repr

/-- The constructor `DebouncedButton(buttonPin, debounceMs, longPressMs)`; the defaults of
the last two arguments are `BUTTON_DEBOUNCE_DELAY_MS` and `FACTORY_RESET_HOLD_TIME_MS`. -/
def DebouncedButton.new (buttonPin : Nat) (debounceMs : Nat) (longPressMs : Nat) :
    DebouncedButton :=
  { pin := buttonPin
    lastStateChange := 0
    lastPressTime := 0
    lastState := HIGH
    currentState := HIGH
    pressed := false
    longPressed := false
    debounceDelay := debounceMs
    longPressDelay := longPressMs }

/-- Method `DebouncedButton::update()`: `reading` is the value of `digitalRead(pin)` and
`now` the value of `millis()` during the call. -/
def DebouncedButton.update (s : DebouncedButton) (reading : Bool) (now : Nat) :
    DebouncedButton :=
  let s1 := if reading ≠ s.lastState then { s with lastStateChange := now % 4294967296 } else s
  let s4 :=
    if elapsed now s1.lastStateChange > s1.debounceDelay then
      let s2 :=
        if reading ≠ s1.currentState then
          let t := { s1 with currentState := reading }
          if t.currentState = LOW then
            { t with lastPressTime := now % 4294967296, pressed := true, longPressed := false }
          else t
        else s1
      let s3 :=
        if s2.currentState = LOW ∧ ¬ s2.longPressed then
          if elapsed now s2.lastPressTime > s2.longPressDelay then
            { s2 with longPressed := true }
          else s2
        else s2
      if s3.currentState = HIGH ∧ s3.pressed then { s3 with pressed := false } else s3
    else s1
  { s4 with lastState := reading }

/-- Method `DebouncedButton::wasPressed()`: the return value and the object afterwards. -/
def DebouncedButton.wasPressed (s : DebouncedButton) : Bool × DebouncedButton :=
  if s.pressed ∧ s.currentState = HIGH then
    (!s.longPressed, { s with pressed := false })
  else (false, s)

/-- Method `DebouncedButton::isPressed()`. -/
def DebouncedButton.isPressed (s : DebouncedButton) : Bool :=
  s.currentState = LOW

/-- A sequence of calls of `update()`, each with the pin level read and the value of
`millis()` during the call. -/
def DebouncedButton.updates (s : DebouncedButton) : List (Bool × Nat) → DebouncedButton
  | [] => s
  | (reading, now) :: rest => DebouncedButton.updates (s.update reading now) rest

/-! ## Arithmetic helpers -/

theorem and_ff (n : Nat) : n &&& 0xFF = n % 256 :=
  Nat.and_pow_two_sub_one_eq_mod n 8

theorem shl8_or (hi lo : Nat) (h : lo < 256) : (hi <<< 8) ||| lo = hi * 256 + lo := by
  have key := Nat.mul_add_lt_is_or (i := 8) (b := lo) (by simpa using h) hi
  rw [Nat.shiftLeft_eq, Nat.mul_comm hi, ← key]

theorem foldl_checksum (l : List Nat) (a : Nat) :
    (l.foldl (fun sum b => (sum + b) % 65536) a) % 256 = (a + l.sum) % 256 := by
  induction l generalizing a with
  | nil => simp
  | cons b bs ih =>
    simp only [List.foldl_cons, List.sum_cons]
    rw [ih]
    omega

theorem calculateChecksum_eq (data : List Nat) (len : Nat) :
    calculateChecksum data len = (data.take len).sum % 256 := by
  simp only [calculateChecksum, and_ff, Nat.mod_mod]
  rw [foldl_checksum]
  simp

theorem sendCommand_eq (c : Nat) (p : List Nat) :
    sendCommand c p p.length
      = [0x55, 0xAA, 0x03, c, p.length / 256 % 256, p.length % 256] ++ p
        ++ [(0x03 + c + p.length / 256 % 256 + p.length % 256 + p.sum) % 256] := by
  cases p with
  | nil => simp [sendCommand, calculateChecksum_eq, TUYA_HEADER, TUYA_VERSION, and_ff]
  | cons b bs =>
    simp only [sendCommand, calculateChecksum_eq, and_ff, Nat.shiftRight_eq_div_pow,
      TUYA_HEADER, TUYA_VERSION]
    simp
    omega

theorem len_combine (hi lo : Nat) :
    (((hi % 256) <<< 8) % 65536 ||| lo % 256) % 65536 = hi % 256 * 256 + lo % 256 := by
  have h1 : (hi % 256) <<< 8 = hi % 256 * 256 := by rw [Nat.shiftLeft_eq]
  have h2 : hi % 256 * 256 % 65536 = hi % 256 * 256 := by omega
  rw [h1, h2, ← h1, shl8_or _ _ (Nat.mod_lt _ (by decide))]
  omega

/-! ## Effect-trace projections -/

theorem frames_append (a b : List Effect) : frames (a ++ b) = frames a ++ frames b := by
  induction a with
  | nil => rfl
  | cons e es ih => cases e <;> simp [frames, ih]

theorem callbacks_append (a b : List Effect) :
    callbacks (a ++ b) = callbacks a ++ callbacks b := by
  induction a with
  | nil => rfl
  | cons e es ih => cases e <;> simp [callbacks, ih]

theorem transmitted_append (a b : List Effect) :
    transmitted (a ++ b) = transmitted a ++ transmitted b := by
  induction a with
  | nil => rfl
  | cons e es ih => cases e <;> simp [transmitted, ih]

theorem storeIndices_append (a b : List Effect) :
    storeIndices (a ++ b) = storeIndices a ++ storeIndices b := by
  induction a with
  | nil => rfl
  | cons e es ih => cases e <;> simp [storeIndices, ih]

theorem frames_storeTrace (k : Nat) (bs : List Nat) : frames (storeTrace k bs) = [] := by
  induction bs generalizing k with
  | nil => rfl
  | cons b bs ih => simp [storeTrace, frames, ih]

theorem callbacks_storeTrace (k : Nat) (bs : List Nat) : callbacks (storeTrace k bs) = [] := by
  induction bs generalizing k with
  | nil => rfl
  | cons b bs ih => simp [storeTrace, callbacks, ih]

theorem transmitted_storeTrace (k : Nat) (bs : List Nat) :
    transmitted (storeTrace k bs) = [] := by
  induction bs generalizing k with
  | nil => rfl
  | cons b bs ih => simp [storeTrace, transmitted, ih]

theorem storeTrace_append (k : Nat) (a b : List Nat) :
    storeTrace k (a ++ b) = storeTrace k a ++ storeTrace (k + a.length) b := by
  induction a generalizing k with
  | nil => simp [storeTrace]
  | cons x xs ih => simp [storeTrace, ih, Nat.add_assoc, Nat.add_comm 1]

theorem storeBytes_append (buf : Nat → Nat) (k : Nat) (a b : List Nat) :
    storeBytes buf k (a ++ b) = storeBytes (storeBytes buf k a) (k + a.length) b := by
  induction a generalizing buf k with
  | nil => simp [storeBytes]
  | cons x xs ih => simp [storeBytes, ih, Nat.add_assoc, Nat.add_comm 1]

theorem storeBytes_below (buf : Nat → Nat) (k : Nat) (bs : List Nat) (i : Nat) (h : i < k) :
    storeBytes buf k bs i = buf i := by
  induction bs generalizing buf k with
  | nil => rfl
  | cons b bs ih =>
    rw [storeBytes, ih _ _ (by omega), Function.update_noteq (by omega)]

theorem storeBytes_at (buf : Nat → Nat) (k : Nat) (bs : List Nat) (i : Nat)
    (h : i < bs.length) : storeBytes buf k bs (k + i) = bs.getD i 0 := by
  induction bs generalizing buf k i with
  | nil => simp at h
  | cons b bs ih =>
    cases i with
    | zero =>
      rw [storeBytes, storeBytes_below _ _ _ _ (by omega)]
      simp
    | succ j =>
      have hj : j < bs.length := by simpa using h
      have := ih (Function.update buf k b) (k + 1) j hj
      rw [storeBytes, List.getD_cons_succ, ← this]
      congr 1
      omega

/-! ## The receive state machine, byte by byte -/

theorem processResponse_append (zc : Bool) (now : Nat) (s : TuyaProtocol) (a b : List Nat) :
    processResponse zc now s (a ++ b)
      = ((processResponse zc now (processResponse zc now s a).1 b).1,
         (processResponse zc now s a).2
           ++ (processResponse zc now (processResponse zc now s a).1 b).2) := by
  induction a generalizing s with
  | nil => simp [processResponse]
  | cons x xs ih => simp [processResponse, ih, List.append_assoc]

theorem recv_header (zc : Bool) (now : Nat) (s : TuyaProtocol) (v c hi lo : Nat)
    (hs : s.rxState = TuyaProtocolState.WAIT_HEADER_1) (h0 : s.rxIndex = 0) :
    processResponse zc now s [0x55, 0xAA, v, c, hi, lo]
      = ({ s with
            rxState := TuyaProtocolState.WAIT_DATA_AND_CHECKSUM
            rxIndex := 6
            expectedLen := hi % 256 * 256 + lo % 256
            currentCmd := c % 256
            rxBuffer := storeBytes s.rxBuffer 0 [0x55, 0xAA, v % 256, c % 256, hi % 256, lo % 256] },
         storeTrace 0 [0x55, 0xAA, v % 256, c % 256, hi % 256, lo % 256]) := by
  simp [processResponse, processByte, TuyaProtocol.push, hs, h0, storeBytes, storeTrace,
    len_combine]

theorem recv_data (zc : Bool) (now : Nat) (q : List Nat) (t : TuyaProtocol)
    (hs : t.rxState = TuyaProtocolState.WAIT_DATA_AND_CHECKSUM)
    (hroom : t.rxIndex + q.length ≤ 256)
    (hpart : t.rxIndex + q.length < 7 + t.expectedLen) :
    processResponse zc now t q
      = ({ t with
            rxIndex := t.rxIndex + q.length
            rxBuffer := storeBytes t.rxBuffer t.rxIndex (q.map (· % 256)) },
         storeTrace t.rxIndex (q.map (· % 256))) := by
  induction q generalizing t with
  | nil => simp [processResponse, storeBytes, storeTrace]
  | cons b bs ih =>
    simp only [List.length_cons] at hroom hpart
    have hlt : t.rxIndex < 256 := by omega
    have hmod : (t.rxIndex + 1) % 65536 = t.rxIndex + 1 := by omega
    have hnot : ¬ (7 + t.expectedLen ≤ t.rxIndex + 1) := by omega
    have hstep : processByte zc now t b
        = (t.push (b % 256), [Effect.store t.rxIndex (b % 256)]) := by
      simp only [processByte, hs, TuyaProtocol.push, hmod, TUYA_RX_BUFFER_SIZE, hlt, if_true,
        ge_iff_le]
      rw [if_neg (by omega)]
    rw [processResponse]
    simp only [hstep]
    rw [ih (t.push (b % 256)) (by simpa [TuyaProtocol.push] using hs)
      (by simp only [TuyaProtocol.push, hmod]; omega)
      (by simp only [TuyaProtocol.push, hmod]; omega)]
    simp [TuyaProtocol.push, hmod, storeBytes, storeTrace, Nat.add_assoc, Nat.add_comm 1]

theorem parseStatusReport_kinds (cb : Bool) (buf : Nat → Nat) (ri el : Nat) :
    ∀ n d, ri - d ≤ n →
      frames (parseStatusReport cb buf ri el d) = []
      ∧ transmitted (parseStatusReport cb buf ri el d) = []
      ∧ storeIndices (parseStatusReport cb buf ri el d) = [] := by
  intro n
  induction n with
  | zero =>
    intro d h
    rw [parseStatusReport]
    rw [dif_neg (by omega)]
    exact ⟨rfl, rfl, rfl⟩
  | succ n ih =>
    intro d h
    rw [parseStatusReport]
    by_cases hloop : d < 6 + el ∧ d < ri
    · rw [dif_pos hloop]
      have h1 := ih (d + 4 + 1) (by omega)
      have h4 := ih (d + 4 + 4) (by omega)
      have hl := fun l => ih (d + 4 + l) (by omega)
      simp only []
      split_ifs <;>
        simp [frames, transmitted, storeIndices, frames_append, transmitted_append,
          storeIndices_append, h1, h4, hl]
    · rw [dif_neg hloop]
      exact ⟨rfl, rfl, rfl⟩

theorem completeFrame_state (zc : Bool) (now : Nat) (t : TuyaProtocol) :
    (completeFrame zc now t).1.rxState = TuyaProtocolState.WAIT_HEADER_1
    ∧ (completeFrame zc now t).1.rxIndex = 0
    ∧ (completeFrame zc now t).1.expectedLen = 0
    ∧ (completeFrame zc now t).1.currentCmd = t.currentCmd
    ∧ (completeFrame zc now t).1.rxBuffer = t.rxBuffer
    ∧ (completeFrame zc now t).1.deviceStatusCallback = t.deviceStatusCallback := by
  unfold completeFrame
  simp only []
  split_ifs <;> simp

theorem completeFrame_frames (zc : Bool) (now : Nat) (t : TuyaProtocol) :
    frames (completeFrame zc now t).2
      = [(t.currentCmd, t.expectedLen,
          (List.range t.expectedLen).map fun i => t.rxBuffer (6 + i))] := by
  unfold completeFrame
  simp only []
  split_ifs <;>
    simp [frames, (parseStatusReport_kinds _ _ _ _ _ _ (Nat.le_refl _)).1]

theorem completeFrame_callbacks (zc : Bool) (now : Nat) (t : TuyaProtocol) :
    callbacks (completeFrame zc now t).2
      = if t.currentCmd = TUYA_CMD_STATUS_REPORT then
          callbacks (parseStatusReport t.deviceStatusCallback t.rxBuffer t.rxIndex
            t.expectedLen 6)
        else [] := by
  unfold completeFrame
  simp only []
  split_ifs <;> simp [callbacks]

theorem recv_frame (zc : Bool) (now : Nat) (s : TuyaProtocol) (v c hi lo : Nat)
    (q : List Nat) (cs : Nat)
    (hs : s.rxState = TuyaProtocolState.WAIT_HEADER_1) (h0 : s.rxIndex = 0)
    (hq : q.length = hi % 256 * 256 + lo % 256) (hL : q.length ≤ 249) :
    processResponse zc now s ([0x55, 0xAA, v, c, hi, lo] ++ q ++ [cs])
      = ((completeFrame zc now (received s v c hi lo q cs)).1,
         storeTrace 0 (([0x55, 0xAA, v, c, hi, lo] ++ q ++ [cs]).map (· % 256))
           ++ (completeFrame zc now (received s v c hi lo q cs)).2) := by
  rw [List.append_assoc, processResponse_append, recv_header zc now s v c hi lo hs h0]
  simp only []
  rw [processResponse_append, recv_data zc now q _ rfl (by simp; omega) (by simp; omega)]
  simp only []
  have hmod : (6 + q.length + 1) % 65536 = 7 + q.length := by omega
  have hlt : 6 + q.length < 256 := by omega
  have hbuf : Function.update
        (storeBytes (storeBytes s.rxBuffer 0 [0x55, 0xAA, v % 256, c % 256, hi % 256, lo % 256])
          6 (q.map (· % 256))) (6 + q.length) (cs % 256)
      = storeBytes s.rxBuffer 0 (([0x55, 0xAA, v, c, hi, lo] ++ q ++ [cs]).map (· % 256)) := by
    rw [List.map_append, List.map_append, storeBytes_append, storeBytes_append]
    simp only [storeBytes, List.map_cons, List.map_nil, List.length_cons, List.length_nil,
      List.length_map, List.length_append, Nat.zero_add, Nat.reduceAdd, Nat.reduceMod]
  have hstate : ({ s with
            rxState := TuyaProtocolState.WAIT_DATA_AND_CHECKSUM
            rxIndex := 6 + q.length
            expectedLen := hi % 256 * 256 + lo % 256
            currentCmd := c % 256
            rxBuffer := storeBytes
              (storeBytes s.rxBuffer 0 [0x55, 0xAA, v % 256, c % 256, hi % 256, lo % 256])
              6 (q.map (· % 256)) } : TuyaProtocol).push (cs % 256)
        = received s v c hi lo q cs := by
    simp only [TuyaProtocol.push, received, ← hq, hmod, hbuf]
  simp only [processResponse, processByte, TUYA_RX_BUFFER_SIZE, hlt, if_true]
  rw [hstate]
  have hdone : (received s v c hi lo q cs).rxIndex
      ≥ 6 + (received s v c hi lo q cs).expectedLen + 1 := by
    simp only [received]; omega
  rw [if_pos hdone]
  simp [List.map_append, storeTrace_append, storeTrace]

theorem map_mod_of_lt (p : List Nat) (hp : ∀ b ∈ p, b < 256) : p.map (· % 256) = p := by
  induction p with
  | nil => rfl
  | cons b bs ih =>
    have hb : b % 256 = b := Nat.mod_eq_of_lt (hp b (List.mem_cons_self _ _))
    simp only [List.map_cons, hb]
    rw [ih (fun x hx => hp x (List.mem_cons_of_mem _ hx))]

theorem received_at (s : TuyaProtocol) (v c hi lo : Nat) (q : List Nat) (cs : Nat) (i : Nat)
    (h : i < q.length) :
    (received s v c hi lo q cs).rxBuffer (6 + i) = q.getD i 0 % 256 := by
  have hlen : 6 + i < (([0x55, 0xAA, v, c, hi, lo] ++ q ++ [cs]).map (· % 256)).length := by
    simp; omega
  have key := storeBytes_at s.rxBuffer 0
    (([0x55, 0xAA, v, c, hi, lo] ++ q ++ [cs]).map (· % 256)) (6 + i) hlen
  rw [Nat.zero_add] at key
  simp only [received, key]
  have h6 : 6 + i = i + 6 := by omega
  rw [h6]
  simp only [List.cons_append, List.nil_append, List.map_cons, List.getD_cons_succ,
    List.map_append]
  rw [List.getD_append _ _ _ _ (by simpa using h)]
  rw [List.getD_eq_getElem _ _ (by simpa using h), List.getD_eq_getElem _ _ h]
  simp

theorem received_payload (s : TuyaProtocol) (v c hi lo : Nat) (q : List Nat) (cs : Nat) :
    (List.range q.length).map (fun i => (received s v c hi lo q cs).rxBuffer (6 + i))
      = q.map (· % 256) := by
  apply List.ext_getElem
  · simp
  · intro n h1 h2
    have hn : n < q.length := by simpa using h1
    simp only [List.getElem_map, List.getElem_range]
    rw [received_at s v c hi lo q cs n hn, List.getD_eq_getElem _ _ hn]

theorem recv_frame_frames (zc : Bool) (now : Nat) (s : TuyaProtocol) (v c hi lo : Nat)
    (q : List Nat) (cs : Nat)
    (hs : s.rxState = TuyaProtocolState.WAIT_HEADER_1) (h0 : s.rxIndex = 0)
    (hq : q.length = hi % 256 * 256 + lo % 256) (hL : q.length ≤ 249) :
    frames (processResponse zc now s ([0x55, 0xAA, v, c, hi, lo] ++ q ++ [cs])).2
      = [(c % 256, q.length, q.map (· % 256))] := by
  rw [recv_frame zc now s v c hi lo q cs hs h0 hq hL]
  simp only [frames_append, frames_storeTrace, completeFrame_frames, List.nil_append]
  have hp := received_payload s v c hi lo q cs
  simp only [received] at hp ⊢
  rw [hp]

theorem recv_frame_final (zc : Bool) (now : Nat) (s : TuyaProtocol) (v c hi lo : Nat)
    (q : List Nat) (cs : Nat)
    (hs : s.rxState = TuyaProtocolState.WAIT_HEADER_1) (h0 : s.rxIndex = 0)
    (hq : q.length = hi % 256 * 256 + lo % 256) (hL : q.length ≤ 249) :
    (processResponse zc now s ([0x55, 0xAA, v, c, hi, lo] ++ q ++ [cs])).1.rxState
        = TuyaProtocolState.WAIT_HEADER_1
    ∧ (processResponse zc now s ([0x55, 0xAA, v, c, hi, lo] ++ q ++ [cs])).1.rxIndex = 0
    ∧ (processResponse zc now s ([0x55, 0xAA, v, c, hi, lo] ++ q ++ [cs])).1.expectedLen = 0
    ∧ (processResponse zc now s ([0x55, 0xAA, v, c, hi, lo] ++ q ++ [cs])).1.currentCmd
        = c % 256
    ∧ (∀ i, i < q.length →
        (processResponse zc now s ([0x55, 0xAA, v, c, hi, lo] ++ q ++ [cs])).1.rxBuffer (6 + i)
          = q.getD i 0 % 256)
    ∧ (processResponse zc now s ([0x55, 0xAA, v, c, hi, lo] ++ q ++ [cs])).1.deviceStatusCallback
        = s.deviceStatusCallback := by
  rw [recv_frame zc now s v c hi lo q cs hs h0 hq hL]
  obtain ⟨h1, h2, h3, h4, h5, h6⟩ := completeFrame_state zc now (received s v c hi lo q cs)
  refine ⟨h1, h2, h3, ?_, ?_, ?_⟩
  · rw [h4]; rfl
  · intro i hlt
    simp only [h5]
    exact received_at s v c hi lo q cs i hlt
  · rw [h6]; rfl

theorem recv_frame_partial (zc : Bool) (now : Nat) (s : TuyaProtocol) (v c hi lo : Nat)
    (q : List Nat) (cs : Nat)
    (hs : s.rxState = TuyaProtocolState.WAIT_HEADER_1) (h0 : s.rxIndex = 0)
    (hq : q.length = hi % 256 * 256 + lo % 256) (hL : q.length ≤ 249)
    (pre suf : List Nat) (hsplit : [0x55, 0xAA, v, c, hi, lo] ++ q ++ [cs] = pre ++ suf)
    (hsuf : suf ≠ []) :
    frames (processResponse zc now s pre).2 = [] := by
  obtain ⟨rest, x, rfl⟩ := (List.eq_nil_or_concat suf).resolve_left hsuf
  rw [List.concat_eq_append, ← List.append_assoc] at hsplit
  have hpre : [0x55, 0xAA, v, c, hi, lo] ++ q = pre ++ rest :=
    List.append_inj_left' hsplit rfl
  have hall : frames (processResponse zc now s ([0x55, 0xAA, v, c, hi, lo] ++ q)).2 = [] := by
    rw [processResponse_append, recv_header zc now s v c hi lo hs h0]
    simp only []
    rw [recv_data zc now q _ rfl (by simp; omega) (by simp; omega)]
    simp only [frames_append, frames_storeTrace, List.append_nil]
  rw [hpre, processResponse_append] at hall
  simp only [frames_append, List.append_eq_nil] at hall
  exact hall.1

theorem recv_sendCommand (zc : Bool) (now : Nat) (s : TuyaProtocol) (c : Nat)
    (p : List Nat)
    (hs : s.rxState = TuyaProtocolState.WAIT_HEADER_1) (h0 : s.rxIndex = 0)
    (hc : c < 256) (hp : ∀ b ∈ p, b < 256) (hlen : p.length ≤ 249) :
    (∀ pre suf, sendCommand c p p.length = pre ++ suf → suf ≠ [] →
        frames (processResponse zc now s pre).2 = [])
    ∧ frames (processResponse zc now s (sendCommand c p p.length)).2 = [(c, p.length, p)]
    ∧ (processResponse zc now s (sendCommand c p p.length)).1.rxState
        = TuyaProtocolState.WAIT_HEADER_1
    ∧ (processResponse zc now s (sendCommand c p p.length)).1.rxIndex = 0
    ∧ (processResponse zc now s (sendCommand c p p.length)).1.expectedLen = 0
    ∧ (processResponse zc now s (sendCommand c p p.length)).1.currentCmd = c
    ∧ (∀ i, i < p.length →
        (processResponse zc now s (sendCommand c p p.length)).1.rxBuffer (6 + i)
          = p.getD i 0) := by
  have hq : p.length = (p.length / 256 % 256) % 256 * 256 + (p.length % 256) % 256 := by
    omega
  have hcm : c % 256 = c := Nat.mod_eq_of_lt hc
  rw [sendCommand_eq]
  refine ⟨?_, ?_, ?_⟩
  · intro pre suf hsplit hsuf
    exact recv_frame_partial zc now s _ c _ _ p _ hs h0 hq hlen pre suf hsplit hsuf
  · rw [recv_frame_frames zc now s _ c _ _ p _ hs h0 hq hlen, hcm, map_mod_of_lt p hp]
  · obtain ⟨h1, h2, h3, h4, h5, _⟩ := recv_frame_final zc now s 0x03 c _ _ p
      ((0x03 + c + p.length / 256 % 256 + p.length % 256 + p.sum) % 256) hs h0 hq hlen
    refine ⟨h1, h2, h3, by rw [h4, hcm], ?_⟩
    intro i hi
    rw [h5 i hi]
    have hb : p.getD i 0 < 256 := by
      rw [List.getD_eq_getElem _ _ hi]
      exact hp _ (List.getElem_mem _)
    exact Nat.mod_eq_of_lt hb

/-! ## Claims about the frame codec and the receive state machine -/

/-- C1. Round trip: the bytes that `sendCommand(c, p)` transmits (payload of at most 249
bytes), fed to a receiver waiting for a header with `rxIndex = 0`, complete exactly one
frame, on the last byte and on no earlier byte, with `currentCmd = c`, declared length
`|p|` and `rxBuffer[6 .. 6+|p|) = p`, and leave the receiver waiting for a header with
`rxIndex = 0` again. -/
theorem sendCommand_roundtrip (zc : Bool) (now : Nat) (s : TuyaProtocol) (c : Nat)
    (p : List Nat)
    (hs : s.rxState = TuyaProtocolState.WAIT_HEADER_1) (h0 : s.rxIndex = 0)
    (hc : c < 256) (hp : ∀ b ∈ p, b < 256) (hlen : p.length ≤ 249) :
    (∀ pre suf, sendCommand c p p.length = pre ++ suf → suf ≠ [] →
        frames (processResponse zc now s pre).2 = [])
    ∧ frames (processResponse zc now s (sendCommand c p p.length)).2 = [(c, p.length, p)]
    ∧ (processResponse zc now s (sendCommand c p p.length)).1.rxState
        = TuyaProtocolState.WAIT_HEADER_1
    ∧ (processResponse zc now s (sendCommand c p p.length)).1.rxIndex = 0
    ∧ (processResponse zc now s (sendCommand c p p.length)).1.expectedLen = 0
    ∧ (processResponse zc now s (sendCommand c p p.length)).1.currentCmd = c
    ∧ (∀ i, i < p.length →
        (processResponse zc now s (sendCommand c p p.length)).1.rxBuffer (6 + i)
          = p.getD i 0) :=
  recv_sendCommand zc now s c p hs h0 hc hp hlen

/-- Witness for C1: a send-command frame carrying a five-byte payload. -/
theorem sendCommand_roundtrip_witness :
    frames (processResponse true 0 (TuyaProtocol.new fun _ => 0)
      (sendCommand 6 [1, 1, 0, 1, 1] 5)).2 = [(6, 5, [1, 1, 0, 1, 1])] :=
  (sendCommand_roundtrip true 0 (TuyaProtocol.new fun _ => 0) 6 [1, 1, 0, 1, 1] rfl rfl
    (by decide) (by decide) (by decide)).2.1

/-- C2. Frame layout: for a payload of at most 249 bytes `sendCommand(c, p)` transmits
exactly `|p| + 7` bytes: `0x55 0xAA 0x03 c`, the high and the low byte of `|p|`, the bytes
of `p`, and the sum of the bytes from the version field to the end of the payload, modulo
256. -/
theorem sendCommand_layout (c : Nat) (p : List Nat) (hlen : p.length ≤ 249) :
    sendCommand c p p.length
        = [0x55, 0xAA, 0x03, c, p.length / 256 % 256, p.length % 256] ++ p
          ++ [(0x03 + c + p.length / 256 % 256 + p.length % 256 + p.sum) % 256]
    ∧ (sendCommand c p p.length).length = p.length + 7
    ∧ p.length / 256 % 256 = 0 ∧ p.length % 256 = p.length := by
  refine ⟨sendCommand_eq c p, ?_, by omega, by omega⟩
  rw [sendCommand_eq]
  simp

/-- Witness for C2: `sendHeartbeat` transmits `55 AA 03 00 00 00 03`. -/
theorem sendCommand_layout_witness :
    ([] : List Nat).length ≤ 249 ∧ sendHeartbeat = [0x55, 0xAA, 0x03, 0x00, 0x00, 0x00, 0x03] :=
  ⟨by decide, (sendCommand_layout 0 [] (by decide)).1⟩

/-- C3. `calculateChecksum(data, len)` is the sum of the first `len` bytes modulo 256,
for every length, although the running sum is reduced modulo 65536 at every step. -/
theorem calculateChecksum_sum_mod (data : List Nat) (len : Nat) :
    calculateChecksum data len = (data.take len).sum % 256 :=
  calculateChecksum_eq data len

theorem agree_refl (s : TuyaProtocol) : agree s s :=
  ⟨rfl, rfl, rfl, rfl, rfl, rfl, rfl⟩

theorem processByte_agree (zc : Bool) (n1 n2 : Nat) (s t : TuyaProtocol) (b : Nat)
    (h : agree s t) :
    agree (processByte zc n1 s b).1 (processByte zc n2 t b).1
    ∧ (processByte zc n1 s b).2 = (processByte zc n2 t b).2 := by
  obtain ⟨lh, tc, cb, st, buf, ri, el, cmd, lhs, lz, fr⟩ := s
  obtain ⟨lh2, tc2, cb2, st2, buf2, ri2, el2, cmd2, lhs2, lz2, fr2⟩ := t
  simp only [agree] at h
  obtain ⟨rfl, rfl, rfl, rfl, rfl, rfl, rfl⟩ := h
  cases st <;>
    simp only [processByte, TuyaProtocol.push, completeFrame, agree] <;>
    (try split_ifs) <;> simp

theorem processResponse_agree (zc : Bool) (n1 n2 : Nat) (input : List Nat) :
    ∀ s t : TuyaProtocol, agree s t →
      agree (processResponse zc n1 s input).1 (processResponse zc n2 t input).1
      ∧ (processResponse zc n1 s input).2 = (processResponse zc n2 t input).2 := by
  induction input with
  | nil => intro s t h; exact ⟨h, rfl⟩
  | cons b bs ih =>
    intro s t h
    obtain ⟨h1, h2⟩ := processByte_agree zc n1 n2 s t b h
    obtain ⟨h3, h4⟩ := ih _ _ h1
    simp only [processResponse]
    exact ⟨h3, by rw [h2, h4]⟩

theorem processEach_agree (zc : Bool) (now : Nat) (input : List (Nat × Nat)) :
    ∀ s t : TuyaProtocol, agree s t →
      agree (processEach zc s input).1 (processResponse zc now t (input.map (·.2))).1
      ∧ (processEach zc s input).2 = (processResponse zc now t (input.map (·.2))).2 := by
  induction input with
  | nil => intro s t h; exact ⟨h, rfl⟩
  | cons x xs ih =>
    intro s t h
    obtain ⟨n, b⟩ := x
    obtain ⟨h1, h2⟩ := processByte_agree zc n now s t b h
    simp only [processEach, processResponse, List.map_cons, List.append_nil]
    obtain ⟨h3, h4⟩ := ih _ _ h1
    exact ⟨h3, by rw [h2, h4]⟩

/-- C4. Two valid encoded frames back to back (payloads of at most 249 bytes), fed to a
receiver waiting for a header with `rxIndex = 0`, give exactly two completed frames: the
first, with command `c1` and payload `p1`, on the last byte of the first frame and on no
earlier byte; the second, with command `c2` and payload `p2`, on the last byte of the
second frame and on no earlier byte. -/
theorem two_frames_back_to_back (zc : Bool) (now : Nat) (s : TuyaProtocol)
    (c1 : Nat) (p1 : List Nat) (c2 : Nat) (p2 : List Nat)
    (hs : s.rxState = TuyaProtocolState.WAIT_HEADER_1) (h0 : s.rxIndex = 0)
    (hc1 : c1 < 256) (hp1 : ∀ b ∈ p1, b < 256) (hlen1 : p1.length ≤ 249)
    (hc2 : c2 < 256) (hp2 : ∀ b ∈ p2, b < 256) (hlen2 : p2.length ≤ 249) :
    (∀ pre suf, sendCommand c1 p1 p1.length = pre ++ suf → suf ≠ [] →
        frames (processResponse zc now s pre).2 = [])
    ∧ frames (processResponse zc now s (sendCommand c1 p1 p1.length)).2
        = [(c1, p1.length, p1)]
    ∧ (∀ pre suf, sendCommand c2 p2 p2.length = pre ++ suf → suf ≠ [] →
        frames (processResponse zc now s (sendCommand c1 p1 p1.length ++ pre)).2
          = [(c1, p1.length, p1)])
    ∧ frames (processResponse zc now s
        (sendCommand c1 p1 p1.length ++ sendCommand c2 p2 p2.length)).2
        = [(c1, p1.length, p1), (c2, p2.length, p2)] := by
  obtain ⟨a1, a2, a3, a4, _⟩ := recv_sendCommand zc now s c1 p1 hs h0 hc1 hp1 hlen1
  obtain ⟨b1, b2, _⟩ := recv_sendCommand zc now
    (processResponse zc now s (sendCommand c1 p1 p1.length)).1 c2 p2 a3 a4 hc2 hp2 hlen2
  refine ⟨a1, a2, ?_, ?_⟩
  · intro pre suf hsplit hsuf
    rw [processResponse_append]
    simp only [frames_append, a2, b1 pre suf hsplit hsuf, List.append_nil]
  · rw [processResponse_append]
    simp only [frames_append, a2, b2]
    rfl

/-- Witness for C4: a heartbeat frame followed by a status report. -/
theorem two_frames_back_to_back_witness :
    frames (processResponse false 0 (TuyaProtocol.new fun _ => 0)
      (sendCommand 0 [] 0 ++ sendCommand 7 [1, 1, 0, 1, 1] 5)).2
      = [(0, 0, []), (7, 5, [1, 1, 0, 1, 1])] :=
  (two_frames_back_to_back false 0 (TuyaProtocol.new fun _ => 0) 0 [] 7 [1, 1, 0, 1, 1]
    rfl rfl (by decide) (by decide) (by decide) (by decide) (by decide) (by decide)).2.2.2

/-- C5. Chunking independence: for every receiver state and every split `a ++ b` of the
incoming bytes, `processResponse` on `a` and then on `b` (same upstream-connectivity flag,
any values of `millis()`) ends in the same `rxState`, `rxIndex`, `expectedLen`,
`currentCmd`, buffer and connected flag, with the same handler calls and the same
transmitted bytes, as one call on `a ++ b`; the same holds for one call per byte. -/
theorem chunking_independence (zc : Bool) (n1 n2 n3 : Nat) (s : TuyaProtocol)
    (a b : List Nat) :
    (processResponse zc n2 (processResponse zc n1 s a).1 b).1.rxState
        = (processResponse zc n3 s (a ++ b)).1.rxState
    ∧ (processResponse zc n2 (processResponse zc n1 s a).1 b).1.rxIndex
        = (processResponse zc n3 s (a ++ b)).1.rxIndex
    ∧ (processResponse zc n2 (processResponse zc n1 s a).1 b).1.expectedLen
        = (processResponse zc n3 s (a ++ b)).1.expectedLen
    ∧ (processResponse zc n2 (processResponse zc n1 s a).1 b).1.currentCmd
        = (processResponse zc n3 s (a ++ b)).1.currentCmd
    ∧ (processResponse zc n2 (processResponse zc n1 s a).1 b).1.rxBuffer
        = (processResponse zc n3 s (a ++ b)).1.rxBuffer
    ∧ (processResponse zc n2 (processResponse zc n1 s a).1 b).1.tuyaConnected
        = (processResponse zc n3 s (a ++ b)).1.tuyaConnected
    ∧ callbacks ((processResponse zc n1 s a).2
          ++ (processResponse zc n2 (processResponse zc n1 s a).1 b).2)
        = callbacks (processResponse zc n3 s (a ++ b)).2
    ∧ transmitted ((processResponse zc n1 s a).2
          ++ (processResponse zc n2 (processResponse zc n1 s a).1 b).2)
        = transmitted (processResponse zc n3 s (a ++ b)).2
    ∧ (∀ timed : List (Nat × Nat),
        (processEach zc s timed).1.rxState
            = (processResponse zc n3 s (timed.map (·.2))).1.rxState
        ∧ (processEach zc s timed).1.rxIndex
            = (processResponse zc n3 s (timed.map (·.2))).1.rxIndex
        ∧ (processEach zc s timed).1.expectedLen
            = (processResponse zc n3 s (timed.map (·.2))).1.expectedLen
        ∧ (processEach zc s timed).1.currentCmd
            = (processResponse zc n3 s (timed.map (·.2))).1.currentCmd
        ∧ (processEach zc s timed).1.rxBuffer
            = (processResponse zc n3 s (timed.map (·.2))).1.rxBuffer
        ∧ (processEach zc s timed).1.tuyaConnected
            = (processResponse zc n3 s (timed.map (·.2))).1.tuyaConnected
        ∧ callbacks (processEach zc s timed).2
            = callbacks (processResponse zc n3 s (timed.map (·.2))).2
        ∧ transmitted (processEach zc s timed).2
            = transmitted (processResponse zc n3 s (timed.map (·.2))).2) := by
  obtain ⟨ha, hae⟩ := processResponse_agree zc n1 n3 a s s (agree_refl s)
  obtain ⟨hb, hbe⟩ := processResponse_agree zc n2 n3 b _ _ ha
  obtain ⟨g1, _, g3, g4, g5, g6, g7⟩ := hb
  rw [processResponse_append]
  refine ⟨g3, g5, g6, g7, g4, g1, by rw [hae, hbe], by rw [hae, hbe], ?_⟩
  intro timed
  obtain ⟨⟨k1, _, k3, k4, k5, k6, k7⟩, ke⟩ := processEach_agree zc n3 timed s s (agree_refl s)
  exact ⟨k3, k5, k6, k7, k4, k1, by rw [ke], by rw [ke]⟩

theorem sendHeartbeat_eq : sendHeartbeat = [0x55, 0xAA, 0x03, 0x00, 0x00, 0x00, 0x03] := by
  decide

/-- C6 (the code at the failing input). A stray `0x55` followed by a heartbeat frame, fed
to a freshly constructed receiver, completes no frame: the second `0x55` is consumed by
the reset in `WAIT_HEADER_2` and the rest of the frame is skipped in `WAIT_HEADER_1`.  The
heartbeat frame alone completes one frame. -/
theorem resync_drops_second_header (zc : Bool) (now : Nat) (buf : Nat → Nat) :
    frames (processResponse zc now (TuyaProtocol.new buf) (0x55 :: sendHeartbeat)).2 = []
    ∧ (processResponse zc now (TuyaProtocol.new buf) (0x55 :: sendHeartbeat)).1.rxState
        = TuyaProtocolState.WAIT_HEADER_1
    ∧ (processResponse zc now (TuyaProtocol.new buf) [0x55, 0x55]).1.rxState
        = TuyaProtocolState.WAIT_HEADER_1
    ∧ frames (processResponse zc now (TuyaProtocol.new buf) sendHeartbeat).2
        = [(0, 0, [])] := by
  rw [sendHeartbeat_eq]
  simp [processResponse, processByte, TuyaProtocol.new, TuyaProtocol.push, frames,
    completeFrame]

theorem recv_overflow (zc : Bool) (now : Nat) (s : TuyaProtocol) (v c hi lo : Nat)
    (g : List Nat) (x : Nat)
    (hs : s.rxState = TuyaProtocolState.WAIT_HEADER_1) (h0 : s.rxIndex = 0)
    (hL : 250 ≤ hi % 256 * 256 + lo % 256) (hg : g.length = 250) :
    processResponse zc now s ([0x55, 0xAA, v, c, hi, lo] ++ g ++ [x])
      = ({ s with
            rxState := TuyaProtocolState.WAIT_HEADER_1
            rxIndex := 0
            expectedLen := 0
            currentCmd := c % 256
            rxBuffer := storeBytes s.rxBuffer 0
              (([0x55, 0xAA, v, c, hi, lo] ++ g).map (· % 256)) },
         storeTrace 0 (([0x55, 0xAA, v, c, hi, lo] ++ g).map (· % 256))) := by
  rw [List.append_assoc, processResponse_append, recv_header zc now s v c hi lo hs h0]
  simp only []
  rw [processResponse_append, recv_data zc now g _ rfl (by simp; omega) (by simp; omega)]
  simp only [processResponse, processByte, TUYA_RX_BUFFER_SIZE, hg]
  rw [if_neg (by omega)]
  simp [List.map_append, storeTrace_append, storeBytes_append, storeTrace, storeBytes]

/-- C7 (counterexample). A header declaring 250 payload bytes followed at once by a
well-formed heartbeat frame: the seven bytes of the frame are stored as payload of the
oversized frame and no frame is completed. -/
theorem overflow_header_swallows_next_frame :
    frames (processResponse true 0 (TuyaProtocol.new fun _ => 0)
      ([0x55, 0xAA, 0x03, 0x00, 0x00, 0xFA] ++ sendCommand 0 [] 0)).2 = []
    ∧ (processResponse true 0 (TuyaProtocol.new fun _ => 0)
      ([0x55, 0xAA, 0x03, 0x00, 0x00, 0xFA] ++ sendCommand 0 [] 0)).1.rxState
        = TuyaProtocolState.WAIT_DATA_AND_CHECKSUM
    ∧ (processResponse true 0 (TuyaProtocol.new fun _ => 0)
      ([0x55, 0xAA, 0x03, 0x00, 0x00, 0xFA] ++ sendCommand 0 [] 0)).1.rxIndex = 13 := by
  have h : sendCommand 0 [] 0 = [0x55, 0xAA, 0x03, 0x00, 0x00, 0x00, 0x03] := by decide
  rw [h]
  simp [processResponse, processByte, TuyaProtocol.new, TuyaProtocol.push, frames,
    TUYA_RX_BUFFER_SIZE]

/-- C7 (amended). After a header `0x55 0xAA v c hi lo` whose declared length is at least
250, the next 250 bytes `g` are stored and the byte `x` after them triggers the overflow
guard, which resets the receiver without completing a frame; every well-formed encoded
frame fed after these 251 bytes is completed with its exact command and payload. -/
theorem overflow_recovery (zc : Bool) (now : Nat) (s : TuyaProtocol) (v c hi lo : Nat)
    (g : List Nat) (x : Nat) (c2 : Nat) (p2 : List Nat)
    (hs : s.rxState = TuyaProtocolState.WAIT_HEADER_1) (h0 : s.rxIndex = 0)
    (hhi : hi < 256) (hlo : lo < 256) (hL : 250 ≤ hi * 256 + lo) (hg : g.length = 250)
    (hc2 : c2 < 256) (hp2 : ∀ b ∈ p2, b < 256) (hlen2 : p2.length ≤ 249) :
    frames (processResponse zc now s ([0x55, 0xAA, v, c, hi, lo] ++ g ++ [x])).2 = []
    ∧ (processResponse zc now s ([0x55, 0xAA, v, c, hi, lo] ++ g ++ [x])).1.rxState
        = TuyaProtocolState.WAIT_HEADER_1
    ∧ (processResponse zc now s ([0x55, 0xAA, v, c, hi, lo] ++ g ++ [x])).1.rxIndex = 0
    ∧ (∀ pre suf, sendCommand c2 p2 p2.length = pre ++ suf → suf ≠ [] →
        frames (processResponse zc now s
          ([0x55, 0xAA, v, c, hi, lo] ++ g ++ [x] ++ pre)).2 = [])
    ∧ frames (processResponse zc now s
        ([0x55, 0xAA, v, c, hi, lo] ++ g ++ [x] ++ sendCommand c2 p2 p2.length)).2
        = [(c2, p2.length, p2)] := by
  have hL2 : 250 ≤ hi % 256 * 256 + lo % 256 := by
    rw [Nat.mod_eq_of_lt hhi, Nat.mod_eq_of_lt hlo]; exact hL
  have hov := recv_overflow zc now s v c hi lo g x hs h0 hL2 hg
  have e1 : frames (processResponse zc now s ([0x55, 0xAA, v, c, hi, lo] ++ g ++ [x])).2
      = [] := by
    rw [hov]; exact frames_storeTrace _ _
  have e2 : (processResponse zc now s ([0x55, 0xAA, v, c, hi, lo] ++ g ++ [x])).1.rxState
      = TuyaProtocolState.WAIT_HEADER_1 := by rw [hov]
  have e3 : (processResponse zc now s ([0x55, 0xAA, v, c, hi, lo] ++ g ++ [x])).1.rxIndex
      = 0 := by rw [hov]
  obtain ⟨b1, b2, _⟩ := recv_sendCommand zc now
    (processResponse zc now s ([0x55, 0xAA, v, c, hi, lo] ++ g ++ [x])).1 c2 p2 e2 e3
    hc2 hp2 hlen2
  refine ⟨e1, e2, e3, ?_, ?_⟩
  · intro pre suf hsplit hsuf
    rw [processResponse_append]
    simp only [frames_append, e1, b1 pre suf hsplit hsuf, List.append_nil]
  · rw [processResponse_append]
    simp only [frames_append, e1, b2, List.nil_append]

/-- Witness for C7 (amended): declared length 0xFFFF, 251 zero bytes, then a heartbeat. -/
theorem overflow_recovery_witness :
    frames (processResponse true 0 (TuyaProtocol.new fun _ => 0)
      ([0x55, 0xAA, 0x03, 0x07, 0xFF, 0xFF] ++ List.replicate 250 0 ++ [0x55]
        ++ sendCommand 0 [] 0)).2 = [(0, 0, [])] :=
  (overflow_recovery true 0 (TuyaProtocol.new fun _ => 0) 0x03 0x07 0xFF 0xFF
    (List.replicate 250 0) 0x55 0 [] rfl rfl (by decide) (by decide) (by decide)
    (List.length_replicate 250 0) (by decide) (by decide) (by decide)).2.2.2.2

theorem completeFrame_storeIndices (zc : Bool) (now : Nat) (t : TuyaProtocol) :
    storeIndices (completeFrame zc now t).2 = [] := by
  unfold completeFrame
  simp only []
  split_ifs <;>
    simp [storeIndices, (parseStatusReport_kinds _ _ _ _ _ _ (Nat.le_refl _)).2.2]

theorem rxInv_le (s : TuyaProtocol) (h : rxInv s) : s.rxIndex ≤ TUYA_RX_BUFFER_SIZE := by
  unfold rxInv at h
  simp only [TUYA_RX_BUFFER_SIZE] at h ⊢
  split at h <;> omega

theorem processByte_inv (zc : Bool) (now : Nat) (s : TuyaProtocol) (b : Nat)
    (h : rxInv s) :
    rxInv (processByte zc now s b).1
    ∧ ∀ i ∈ storeIndices (processByte zc now s b).2, i < TUYA_RX_BUFFER_SIZE := by
  obtain ⟨lh, tc, cb, st, buf, ri, el, cmd, lhs, lz, fr⟩ := s
  cases st <;> simp only [rxInv, TUYA_RX_BUFFER_SIZE] at h
  case WAIT_DATA_AND_CHECKSUM =>
    simp only [processByte, TuyaProtocol.push, TUYA_RX_BUFFER_SIZE]
    by_cases hlt : ri < 256
    · rw [if_pos hlt]
      have hmod : (ri + 1) % 65536 = ri + 1 := by omega
      split_ifs
      · obtain ⟨h1, h2, _⟩ := completeFrame_state zc now
          { lastHeartbeat := lh, tuyaConnected := tc, deviceStatusCallback := cb,
            rxState := TuyaProtocolState.WAIT_DATA_AND_CHECKSUM,
            rxBuffer := Function.update buf ri (b % 256), rxIndex := (ri + 1) % 65536,
            expectedLen := el, currentCmd := cmd, lastHeartbeatSent := lhs,
            lastZigbeeState := lz, firstRun := fr }
        refine ⟨?_, ?_⟩
        · simp only [rxInv, h1, h2]
        · intro i hi
          rw [storeIndices, completeFrame_storeIndices, List.mem_singleton] at hi
          omega
      · refine ⟨?_, ?_⟩
        · simp only [rxInv, hmod, TUYA_RX_BUFFER_SIZE]; omega
        · simp only [storeIndices, List.mem_singleton]
          intro i hi; omega
    · rw [if_neg hlt]
      exact ⟨by simp [rxInv], by simp [storeIndices]⟩
  all_goals
    subst h
    simp only [processByte, TuyaProtocol.push]
    (try split_ifs) <;> simp [rxInv, storeIndices, TUYA_RX_BUFFER_SIZE]

theorem processResponse_inv (zc : Bool) (now : Nat) (input : List Nat) :
    ∀ s : TuyaProtocol, rxInv s →
      rxInv (processResponse zc now s input).1
      ∧ ∀ i ∈ storeIndices (processResponse zc now s input).2, i < TUYA_RX_BUFFER_SIZE := by
  induction input with
  | nil => intro s h; exact ⟨h, by simp [processResponse, storeIndices]⟩
  | cons b bs ih =>
    intro s h
    obtain ⟨h1, h2⟩ := processByte_inv zc now s b h
    obtain ⟨h3, h4⟩ := ih _ h1
    simp only [processResponse, storeIndices_append, List.mem_append]
    exact ⟨h3, fun i hi => hi.elim (h2 i) (h4 i)⟩

/-- C8. Buffer bound: for every byte sequence fed to a receiver that starts waiting for a
header with `rxIndex = 0`, after every byte `rxIndex` is at most 256
(`TUYA_RX_BUFFER_SIZE`), and every store into `rxBuffer` is at an index below 256,
whatever length field the stream declares. -/
theorem rx_buffer_bound (zc : Bool) (now : Nat) (s : TuyaProtocol) (input : List Nat)
    (hs : s.rxState = TuyaProtocolState.WAIT_HEADER_1) (h0 : s.rxIndex = 0) :
    (∀ pre suf, input = pre ++ suf →
        (processResponse zc now s pre).1.rxIndex ≤ TUYA_RX_BUFFER_SIZE)
    ∧ ∀ i ∈ storeIndices (processResponse zc now s input).2, i < TUYA_RX_BUFFER_SIZE := by
  have hinv : rxInv s := by simp [rxInv, hs, h0]
  refine ⟨?_, (processResponse_inv zc now input s hinv).2⟩
  intro pre suf _
  exact rxInv_le _ (processResponse_inv zc now pre s hinv).1

/-- Witness for C8: a header declaring 65535 payload bytes followed by 300 bytes. -/
theorem rx_buffer_bound_witness :
    (processResponse true 0 (TuyaProtocol.new fun _ => 0)
        ([0x55, 0xAA, 0x03, 0x07, 0xFF, 0xFF] ++ List.replicate 300 7)).1.rxIndex
      ≤ TUYA_RX_BUFFER_SIZE
    ∧ (storeIndices (processResponse true 0 (TuyaProtocol.new fun _ => 0)
        ([0x55, 0xAA, 0x03, 0x07, 0xFF, 0xFF] ++ List.replicate 300 7)).2).all
          (fun i => decide (i < TUYA_RX_BUFFER_SIZE)) = true :=
  ⟨(rx_buffer_bound true 0 (TuyaProtocol.new fun _ => 0)
      ([0x55, 0xAA, 0x03, 0x07, 0xFF, 0xFF] ++ List.replicate 300 7) rfl rfl).1 _ []
      (List.append_nil _).symm,
   List.all_eq_true.mpr fun i hi => decide_eq_true
    ((rx_buffer_bound true 0 (TuyaProtocol.new fun _ => 0)
      ([0x55, 0xAA, 0x03, 0x07, 0xFF, 0xFF] ++ List.replicate 300 7) rfl rfl).2 i hi)⟩

/-! ## The data-point decoder -/

theorem shl_or (k hi lo : Nat) (h : lo < 2 ^ k) : (hi <<< k) ||| lo = hi * 2 ^ k + lo := by
  rw [Nat.shiftLeft_eq, Nat.mul_comm hi, ← Nat.mul_add_lt_is_or h hi]

theorem be32 (b0 b1 b2 b3 : Nat) (h0 : b0 < 256) (h1 : b1 < 256) (h2 : b2 < 256)
    (h3 : b3 < 256) :
    ((b0 <<< 24) ||| (b1 <<< 16) ||| (b2 <<< 8) ||| b3) % 4294967296
      = b0 * 16777216 + b1 * 65536 + b2 * 256 + b3 := by
  rw [Nat.or_assoc, Nat.or_assoc]
  rw [shl_or 8 b2 b3 (by norm_num; exact h3)]
  rw [shl_or 16 b1 _ (by norm_num; omega)]
  rw [shl_or 24 b0 _ (by norm_num; omega)]
  norm_num
  omega

theorem parse_bool_step (buf : Nat → Nat) (ri el d id value : Nat)
    (hloop : d < 6 + el) (hfit : d + 5 ≤ ri)
    (e0 : buf d = id) (e1 : buf (d + 1) = 1) (e2 : buf (d + 2) = 0) (e3 : buf (d + 3) = 1)
    (e4 : buf (d + 4) = value) :
    callbacks (parseStatusReport true buf ri el d)
      = (id, value) :: callbacks (parseStatusReport true buf ri el (d + 5)) := by
  rw [parseStatusReport]
  have hlen : ((0 <<< 8) ||| 1) % 65536 = 1 := by decide
  rw [dif_pos ⟨hloop, by omega⟩, if_neg (by omega)]
  simp only [e0, e1, e2, e3, e4, hlen]
  rw [if_neg (by omega), if_pos (by decide)]
  simp [callbacks, callbacks_append]

theorem parse_num_step (buf : Nat → Nat) (ri el d id type b0 b1 b2 b3 : Nat)
    (hloop : d < 6 + el) (hfit : d + 8 ≤ ri)
    (ht : type = 0x02 ∨ type = 0x04)
    (h0 : b0 < 256) (h1 : b1 < 256) (h2 : b2 < 256) (h3 : b3 < 256)
    (e0 : buf d = id) (e1 : buf (d + 1) = type) (e2 : buf (d + 2) = 0) (e3 : buf (d + 3) = 4)
    (e4 : buf (d + 4) = b0) (e5 : buf (d + 5) = b1) (e6 : buf (d + 6) = b2)
    (e7 : buf (d + 7) = b3) :
    callbacks (parseStatusReport true buf ri el d)
      = (id, b0 * 16777216 + b1 * 65536 + b2 * 256 + b3)
        :: callbacks (parseStatusReport true buf ri el (d + 8)) := by
  rw [parseStatusReport]
  have hlen : ((0 <<< 8) ||| 4) % 65536 = 4 := by decide
  rw [dif_pos ⟨hloop, by omega⟩, if_neg (by omega)]
  simp only [e0, e1, e2, e3, e4, e5, e6, e7, hlen, be32 b0 b1 b2 b3 h0 h1 h2 h3]
  rw [if_neg (by omega), if_neg (by omega), if_pos ⟨ht, trivial⟩]
  simp [callbacks, callbacks_append]

theorem parse_done (cb : Bool) (buf : Nat → Nat) (ri el d : Nat) (h : 6 + el ≤ d) :
    parseStatusReport cb buf ri el d = [] := by
  rw [parseStatusReport, dif_neg (by omega)]

theorem entriesBytes_lt (es : List Entry) (hwf : ∀ e ∈ es, e.wellFormed) :
    ∀ b ∈ entriesBytes es, b < 256 := by
  induction es with
  | nil => intro b hb; simp [entriesBytes] at hb
  | cons e es ih =>
    intro b hb
    have he := hwf e (List.mem_cons_self _ _)
    simp only [entriesBytes, List.mem_append] at hb
    rcases hb with hb | hb
    · cases e with
      | boolean id value =>
        simp only [Entry.wellFormed] at he
        simp only [Entry.bytes, List.mem_cons, List.mem_singleton, List.not_mem_nil,
          or_false] at hb
        omega
      | numeric id type b0 b1 b2 b3 =>
        simp only [Entry.wellFormed] at he
        simp only [Entry.bytes, List.mem_cons, List.mem_singleton, List.not_mem_nil,
          or_false] at hb
        omega
    · exact ih (fun x hx => hwf x (List.mem_cons_of_mem _ hx)) b hb

theorem parse_entries (buf : Nat → Nat) (ri el : Nat) (hri : 6 + el ≤ ri) :
    ∀ (es : List Entry) (d : Nat), (∀ e ∈ es, e.wellFormed) →
      (∀ i, i < (entriesBytes es).length → buf (d + i) = (entriesBytes es).getD i 0) →
      d + (entriesBytes es).length ≤ 6 + el →
      callbacks (parseStatusReport true buf ri el d)
        = es.map Entry.call
          ++ callbacks (parseStatusReport true buf ri el (d + (entriesBytes es).length)) := by
  intro es
  induction es with
  | nil => intro d _ _ _; simp [entriesBytes]
  | cons e es ih =>
    intro d hwf hbuf hfit
    have he := hwf e (List.mem_cons_self _ _)
    have hwf2 : ∀ x ∈ es, x.wellFormed := fun x hx => hwf x (List.mem_cons_of_mem _ hx)
    cases e with
    | boolean id value =>
      have hl : (entriesBytes (Entry.boolean id value :: es)).length
          = (entriesBytes es).length + 5 := by simp [entriesBytes, Entry.bytes]
      rw [hl] at hfit hbuf
      have e0 : buf d = id := hbuf 0 (by omega)
      have e1 : buf (d + 1) = 1 := hbuf 1 (by omega)
      have e2 : buf (d + 2) = 0 := hbuf 2 (by omega)
      have e3 : buf (d + 3) = 1 := hbuf 3 (by omega)
      have e4 : buf (d + 4) = value := hbuf 4 (by omega)
      have hrest : ∀ i, i < (entriesBytes es).length →
          buf (d + 5 + i) = (entriesBytes es).getD i 0 := by
        intro i hi
        have h := hbuf (i + 5) (by omega)
        rw [show d + (i + 5) = d + 5 + i by omega] at h
        exact h
      rw [parse_bool_step buf ri el d id value (by omega) (by omega) e0 e1 e2 e3 e4,
        ih (d + 5) hwf2 hrest (by omega), hl]
      simp only [List.map_cons, Entry.call, List.cons_append]
      rw [show d + 5 + (entriesBytes es).length = d + ((entriesBytes es).length + 5) by omega]
    | numeric id type b0 b1 b2 b3 =>
      simp only [Entry.wellFormed] at he
      obtain ⟨_, ht, h0, h1, h2, h3⟩ := he
      have hl : (entriesBytes (Entry.numeric id type b0 b1 b2 b3 :: es)).length
          = (entriesBytes es).length + 8 := by simp [entriesBytes, Entry.bytes]
      rw [hl] at hfit hbuf
      have e0 : buf d = id := hbuf 0 (by omega)
      have e1 : buf (d + 1) = type := hbuf 1 (by omega)
      have e2 : buf (d + 2) = 0 := hbuf 2 (by omega)
      have e3 : buf (d + 3) = 4 := hbuf 3 (by omega)
      have e4 : buf (d + 4) = b0 := hbuf 4 (by omega)
      have e5 : buf (d + 5) = b1 := hbuf 5 (by omega)
      have e6 : buf (d + 6) = b2 := hbuf 6 (by omega)
      have e7 : buf (d + 7) = b3 := hbuf 7 (by omega)
      have hrest : ∀ i, i < (entriesBytes es).length →
          buf (d + 8 + i) = (entriesBytes es).getD i 0 := by
        intro i hi
        have h := hbuf (i + 8) (by omega)
        rw [show d + (i + 8) = d + 8 + i by omega] at h
        exact h
      rw [parse_num_step buf ri el d id type b0 b1 b2 b3 (by omega) (by omega) ht h0 h1 h2 h3
          e0 e1 e2 e3 e4 e5 e6 e7,
        ih (d + 8) hwf2 hrest (by omega), hl]
      simp only [List.map_cons, Entry.call, List.cons_append]
      rw [show d + 8 + (entriesBytes es).length = d + ((entriesBytes es).length + 8) by omega]

theorem received_checksum (s : TuyaProtocol) (v c hi lo : Nat) (q : List Nat) (cs : Nat) :
    (received s v c hi lo q cs).rxBuffer (6 + q.length) = cs % 256 := by
  have hlen : 6 + q.length
      < (([0x55, 0xAA, v, c, hi, lo] ++ q ++ [cs]).map (· % 256)).length := by
    simp; omega
  have key := storeBytes_at s.rxBuffer 0
    (([0x55, 0xAA, v, c, hi, lo] ++ q ++ [cs]).map (· % 256)) (6 + q.length) hlen
  rw [Nat.zero_add] at key
  simp only [received, key]
  have h6 : 6 + q.length = q.length + 6 := by omega
  rw [h6]
  simp only [List.cons_append, List.nil_append, List.map_cons, List.getD_cons_succ,
    List.map_append, List.map_nil]
  have hq : q.length = (q.map (· % 256)).length := by simp
  rw [hq, List.getD_eq_getElem?_getD, List.getElem?_append_right (Nat.le_refl _)]
  simp

theorem recv_status_report (zc : Bool) (now : Nat) (s : TuyaProtocol) (v : Nat)
    (q : List Nat) (cs : Nat)
    (hs : s.rxState = TuyaProtocolState.WAIT_HEADER_1) (h0 : s.rxIndex = 0)
    (hL : q.length ≤ 249) :
    callbacks (processResponse zc now s
        ([0x55, 0xAA, v, 0x07, 0x00, q.length] ++ q ++ [cs])).2
      = callbacks (parseStatusReport s.deviceStatusCallback
          (received s v 0x07 0x00 q.length q cs).rxBuffer (7 + q.length) q.length 6) := by
  rw [recv_frame zc now s v 0x07 0x00 q.length q cs hs h0 (by omega) hL]
  simp only [callbacks_append, callbacks_storeTrace, completeFrame_callbacks,
    List.nil_append]
  rw [if_pos (by simp [received])]
  rfl

theorem received_entries (s : TuyaProtocol) (v c hi lo : Nat) (q rest : List Nat) (cs : Nat)
    (hq : ∀ b ∈ q, b < 256) :
    ∀ i, i < q.length →
      (received s v c hi lo (q ++ rest) cs).rxBuffer (6 + i) = q.getD i 0 := by
  intro i hlt
  rw [received_at s v c hi lo (q ++ rest) cs i (by simp; omega),
    List.getD_append _ _ _ _ hlt]
  have hb : q.getD i 0 < 256 := by
    rw [List.getD_eq_getElem _ _ hlt]
    exact hq _ (List.getElem_mem _)
  exact Nat.mod_eq_of_lt hb

theorem parse_truncated_step (buf : Nat → Nat) (ri el d : Nat) (hfit : d + 4 ≤ ri)
    (hover : d + 4 + ((buf (d + 2) <<< 8) ||| buf (d + 3)) % 65536 > ri) :
    callbacks (parseStatusReport true buf ri el d) = [] := by
  rw [parseStatusReport]
  by_cases hloop : d < 6 + el ∧ d < ri
  · rw [dif_pos hloop, if_neg (by omega)]
    simp only []
    rw [if_pos (Or.inl hover)]
    rfl
  · rw [dif_neg hloop]
    rfl

theorem truncated_by_two_stops (zc : Bool) (now : Nat) (s : TuyaProtocol)
    (v cs : Nat) (es : List Entry) (id type hi lo : Nat) (rest : List Nat)
    (hs : s.rxState = TuyaProtocolState.WAIT_HEADER_1) (h0 : s.rxIndex = 0)
    (hcb : s.deviceStatusCallback = true)
    (hwf : ∀ e ∈ es, e.wellFormed) (hhi : hi < 256) (hlo : lo < 256)
    (hover : rest.length + 2 ≤ hi * 256 + lo)
    (hlen : (entriesBytes es ++ ([id, type, hi, lo] ++ rest)).length ≤ 249) :
    callbacks (processResponse zc now s
        ([0x55, 0xAA, v, 0x07, 0x00, (entriesBytes es ++ ([id, type, hi, lo] ++ rest)).length]
          ++ (entriesBytes es ++ ([id, type, hi, lo] ++ rest)) ++ [cs])).2
      = es.map Entry.call := by
  rw [recv_status_report zc now s v _ cs hs h0 hlen, hcb]
  have hbuf := received_entries s v 0x07 0x00
    (entriesBytes es ++ ([id, type, hi, lo] ++ rest)).length (entriesBytes es)
    ([id, type, hi, lo] ++ rest) cs (entriesBytes_lt es hwf)
  have hl : (entriesBytes es ++ ([id, type, hi, lo] ++ rest)).length
      = (entriesBytes es).length + 4 + rest.length := by simp; omega
  have hat := received_at s v 0x07 0x00
    (entriesBytes es ++ ([id, type, hi, lo] ++ rest)).length
    (entriesBytes es ++ ([id, type, hi, lo] ++ rest)) cs
  rw [hl] at hbuf hat ⊢
  have hget : ∀ j, j < 4 →
      (entriesBytes es ++ ([id, type, hi, lo] ++ rest)).getD ((entriesBytes es).length + j) 0
        = ([id, type, hi, lo] ++ rest).getD j 0 := by
    intro j hj
    rw [List.getD_eq_getElem?_getD, List.getD_eq_getElem?_getD,
      List.getElem?_append_right (by omega)]
    congr 2
    omega
  have hB : ∀ j, j < 4 →
      (received s v 0x07 0x00 ((entriesBytes es).length + 4 + rest.length)
          (entriesBytes es ++ ([id, type, hi, lo] ++ rest)) cs).rxBuffer
            (6 + (entriesBytes es).length + j)
        = ([id, type, hi, lo] ++ rest).getD j 0 % 256 := by
    intro j hj
    have h := hat ((entriesBytes es).length + j) (by omega)
    rw [hget j hj] at h
    rw [show 6 + (entriesBytes es).length + j = 6 + ((entriesBytes es).length + j) by omega]
    exact h
  have e2 := hB 2 (by omega)
  have e3 := hB 3 (by omega)
  rw [show ([id, type, hi, lo] ++ rest).getD 2 0 = hi from rfl, Nat.mod_eq_of_lt hhi] at e2
  rw [show ([id, type, hi, lo] ++ rest).getD 3 0 = lo from rfl, Nat.mod_eq_of_lt hlo] at e3
  rw [parse_entries _ _ _ (by omega) es 6 hwf hbuf (by omega)]
  rw [parse_truncated_step _ _ _ _ (by omega)
    (by rw [e2, e3, shl8_or hi lo hlo]; omega)]
  simp

/-! ## Claims about the data-point decoder -/

/-- C9. Data-point decoding of well-formed reports: for every status-report frame
(command `0x07`, any version and checksum byte, payload of at most 249 bytes) whose payload
is the concatenation of well-formed boolean, numeric and enumerated entries, the
registered handler is called once per entry, in payload order, with the entry's id and its
value: the value byte of a boolean entry, the big-endian 32-bit value of a four-byte
entry. -/
theorem status_report_decoding (zc : Bool) (now : Nat) (s : TuyaProtocol) (v cs : Nat)
    (es : List Entry)
    (hs : s.rxState = TuyaProtocolState.WAIT_HEADER_1) (h0 : s.rxIndex = 0)
    (hcb : s.deviceStatusCallback = true)
    (hwf : ∀ e ∈ es, e.wellFormed) (hlen : (entriesBytes es).length ≤ 249) :
    callbacks (processResponse zc now s
        ([0x55, 0xAA, v, 0x07, 0x00, (entriesBytes es).length] ++ entriesBytes es ++ [cs])).2
      = es.map Entry.call := by
  rw [recv_status_report zc now s v (entriesBytes es) cs hs h0 hlen, hcb]
  have hbuf := received_entries s v 0x07 0x00 (entriesBytes es).length (entriesBytes es) []
    cs (entriesBytes_lt es hwf)
  rw [List.append_nil] at hbuf
  rw [parse_entries _ (7 + (entriesBytes es).length) (entriesBytes es).length (by omega)
    es 6 hwf hbuf (by omega)]
  rw [parse_done _ _ _ _ _ (Nat.le_refl _)]
  simp [callbacks]

/-- Witness for C9: boolean id 1 value 1, then numeric id 3 value 4, give the calls
`(1, 1)` then `(3, 4)`. -/
theorem status_report_decoding_witness :
    callbacks (processResponse false 0
        (setDeviceStatusCallback (TuyaProtocol.new fun _ => 0) true)
        [0x55, 0xAA, 0x03, 0x07, 0x00, 13,
         1, 0x01, 0x00, 0x01, 1,
         3, 0x02, 0x00, 0x04, 0, 0, 0, 4,
         40]).2
      = [(1, 1), (3, 4)] :=
  status_report_decoding false 0 (setDeviceStatusCallback (TuyaProtocol.new fun _ => 0) true)
    0x03 40 [Entry.boolean 1 1, Entry.numeric 3 0x02 0 0 0 4] rfl rfl rfl
    (by decide) (by decide)

/-- C10 (the code at the failing inputs). A status report whose payload is a sequence of
well-formed entries followed by a boolean entry header `id, 0x01, 0x00 0x01` with no value
byte left in the payload: the length check compares against `rxIndex`, which counts the
checksum byte, so the truncated entry passes it and the handler is called for it with the
checksum byte as value. -/
theorem truncated_boolean_takes_checksum (zc : Bool) (now : Nat) (s : TuyaProtocol)
    (v cs : Nat) (es : List Entry) (id : Nat)
    (hs : s.rxState = TuyaProtocolState.WAIT_HEADER_1) (h0 : s.rxIndex = 0)
    (hcb : s.deviceStatusCallback = true)
    (hwf : ∀ e ∈ es, e.wellFormed) (hid : id < 256)
    (hlen : (entriesBytes es ++ [id, 0x01, 0x00, 0x01]).length ≤ 249) :
    callbacks (processResponse zc now s
        ([0x55, 0xAA, v, 0x07, 0x00, (entriesBytes es ++ [id, 0x01, 0x00, 0x01]).length]
          ++ (entriesBytes es ++ [id, 0x01, 0x00, 0x01]) ++ [cs])).2
      = es.map Entry.call ++ [(id, cs % 256)] := by
  rw [recv_status_report zc now s v _ cs hs h0 hlen, hcb]
  have hbuf := received_entries s v 0x07 0x00
    (entriesBytes es ++ [id, 0x01, 0x00, 0x01]).length (entriesBytes es)
    [id, 0x01, 0x00, 0x01] cs (entriesBytes_lt es hwf)
  have hl : (entriesBytes es ++ [id, 0x01, 0x00, 0x01]).length
      = (entriesBytes es).length + 4 := by simp
  have hat := received_at s v 0x07 0x00
    (entriesBytes es ++ [id, 0x01, 0x00, 0x01]).length
    (entriesBytes es ++ [id, 0x01, 0x00, 0x01]) cs
  have hcs := received_checksum s v 0x07 0x00
    (entriesBytes es ++ [id, 0x01, 0x00, 0x01]).length
    (entriesBytes es ++ [id, 0x01, 0x00, 0x01]) cs
  rw [hl] at hbuf hat hcs ⊢
  have hget : ∀ j, j < 4 →
      (entriesBytes es ++ [id, 0x01, 0x00, 0x01]).getD ((entriesBytes es).length + j) 0
        = [id, 0x01, 0x00, 0x01].getD j 0 := by
    intro j hj
    rw [List.getD_eq_getElem?_getD, List.getD_eq_getElem?_getD,
      List.getElem?_append_right (by omega)]
    congr 2
    omega
  have hB : ∀ j, j < 4 →
      (received s v 0x07 0x00 ((entriesBytes es).length + 4)
          (entriesBytes es ++ [id, 0x01, 0x00, 0x01]) cs).rxBuffer
            (6 + (entriesBytes es).length + j)
        = [id, 0x01, 0x00, 0x01].getD j 0 % 256 := by
    intro j hj
    have h := hat ((entriesBytes es).length + j) (by omega)
    rw [hget j hj] at h
    rw [show 6 + (entriesBytes es).length + j = 6 + ((entriesBytes es).length + j) by omega]
    exact h
  have e0 := hB 0 (by omega)
  rw [List.getD_cons_zero, Nat.mod_eq_of_lt hid] at e0
  have e4 : (received s v 0x07 0x00 ((entriesBytes es).length + 4)
      (entriesBytes es ++ [id, 0x01, 0x00, 0x01]) cs).rxBuffer
        (6 + (entriesBytes es).length + 4) = cs % 256 := by
    rw [show 6 + (entriesBytes es).length + 4 = 6 + ((entriesBytes es).length + 4) by omega]
    exact hcs
  rw [parse_entries _ (7 + ((entriesBytes es).length + 4)) ((entriesBytes es).length + 4)
    (by omega) es 6 hwf hbuf (by omega)]
  rw [parse_bool_step _ _ _ (6 + (entriesBytes es).length) id (cs % 256) (by omega) (by omega)
    e0 (hB 1 (by omega)) (hB 2 (by omega)) (hB 3 (by omega)) e4]
  rw [parse_done _ _ _ _ _ (by omega)]
  simp [callbacks]

/-- Witness for C10: the payload is the single truncated entry `01 01 00 01`; the handler
is called with id 1 and the checksum byte `0x11`. -/
theorem truncated_boolean_takes_checksum_witness :
    callbacks (processResponse false 0
        (setDeviceStatusCallback (TuyaProtocol.new fun _ => 0) true)
        [0x55, 0xAA, 0x03, 0x07, 0x00, 0x04, 0x01, 0x01, 0x00, 0x01, 0x11]).2
      = [(1, 0x11)] :=
  truncated_boolean_takes_checksum false 0
    (setDeviceStatusCallback (TuyaProtocol.new fun _ => 0) true) 0x03 0x11 [] 1 rfl rfl rfl
    (by decide) (by decide) (by decide)

/-! ## Unrecognised entries -/

theorem received_segment (s : TuyaProtocol) (v c hi lo : Nat) (payload pre q rest : List Nat)
    (cs : Nat) (hp : payload = pre ++ q ++ rest) (hq : ∀ b ∈ q, b < 256) :
    ∀ i, i < q.length →
      (received s v c hi lo payload cs).rxBuffer (6 + pre.length + i) = q.getD i 0 := by
  intro i hlt
  subst hp
  rw [show 6 + pre.length + i = 6 + (pre.length + i) by omega,
    received_at s v c hi lo (pre ++ q ++ rest) cs (pre.length + i) (by simp; omega)]
  have hget : (pre ++ q ++ rest).getD (pre.length + i) 0 = q.getD i 0 := by
    rw [List.append_assoc, List.getD_eq_getElem?_getD, List.getD_eq_getElem?_getD,
      List.getElem?_append_right (by omega), List.getElem?_append_left (by omega)]
    congr 2
    omega
  rw [hget]
  have hb : q.getD i 0 < 256 := by
    rw [List.getD_eq_getElem _ _ hlt]
    exact hq _ (List.getElem_mem _)
  exact Nat.mod_eq_of_lt hb

theorem parse_break_step (buf : Nat → Nat) (ri el d : Nat) (hfit : d + 4 ≤ ri)
    (hbreak : d + 4 + ((buf (d + 2) <<< 8) ||| buf (d + 3)) % 65536 > ri
      ∨ ((buf (d + 2) <<< 8) ||| buf (d + 3)) % 65536 > 8) :
    callbacks (parseStatusReport true buf ri el d) = [] := by
  rw [parseStatusReport]
  by_cases hloop : d < 6 + el ∧ d < ri
  · rw [dif_pos hloop, if_neg (by omega)]
    simp only []
    rw [if_pos hbreak]
    rfl
  · rw [dif_neg hloop]
    rfl

theorem parse_skip_step (buf : Nat → Nat) (ri el d type len : Nat)
    (hloop : d < 6 + el) (hfit : d + 4 + len ≤ ri) (hlen : len ≤ 8)
    (e1 : buf (d + 1) = type) (elen : ((buf (d + 2) <<< 8) ||| buf (d + 3)) % 65536 = len)
    (hb : ¬ (type = DP_TYPE_BOOL ∧ len = 1))
    (hn : ¬ ((type = DP_TYPE_VALUE ∨ type = DP_TYPE_ENUM) ∧ len = 4)) :
    callbacks (parseStatusReport true buf ri el d)
      = callbacks (parseStatusReport true buf ri el (d + 4 + len)) := by
  rw [parseStatusReport]
  rw [dif_pos ⟨hloop, by omega⟩, if_neg (by omega)]
  simp only [e1, elen]
  rw [if_neg (by omega), if_neg hb, if_neg hn]
  simp [callbacks, callbacks_append]

theorem recv_skip_entry (zc : Bool) (now : Nat) (s : TuyaProtocol) (v cs : Nat)
    (es1 es2 : List Entry) (id type hi lo : Nat) (vals : List Nat)
    (hs : s.rxState = TuyaProtocolState.WAIT_HEADER_1) (h0 : s.rxIndex = 0)
    (hcb : s.deviceStatusCallback = true)
    (hwf1 : ∀ e ∈ es1, e.wellFormed) (hwf2 : ∀ e ∈ es2, e.wellFormed)
    (hid : id < 256) (htype : type < 256) (hhi : hi < 256) (hlo : lo < 256)
    (hdecl : hi * 256 + lo = vals.length) (hsmall : vals.length ≤ 8)
    (hb : ¬ (type = 0x01 ∧ vals.length = 1))
    (hn : ¬ ((type = 0x02 ∨ type = 0x04) ∧ vals.length = 4))
    (hlen : (entriesBytes es1 ++ ([id, type, hi, lo] ++ vals) ++ entriesBytes es2).length
      ≤ 249) :
    callbacks (processResponse zc now s
        ([0x55, 0xAA, v, 0x07, 0x00,
            (entriesBytes es1 ++ ([id, type, hi, lo] ++ vals) ++ entriesBytes es2).length]
          ++ (entriesBytes es1 ++ ([id, type, hi, lo] ++ vals) ++ entriesBytes es2)
          ++ [cs])).2
      = es1.map Entry.call ++ es2.map Entry.call := by
  rw [recv_status_report zc now s v _ cs hs h0 hlen, hcb]
  generalize hP : entriesBytes es1 ++ ([id, type, hi, lo] ++ vals) ++ entriesBytes es2 = P
    at hlen ⊢
  have hl : P.length
      = (entriesBytes es1).length + 4 + vals.length + (entriesBytes es2).length := by
    rw [← hP]; simp; omega
  have seg1 := received_segment s v 0x07 0x00 P.length P [] (entriesBytes es1)
    ([id, type, hi, lo] ++ vals ++ entriesBytes es2) cs
    (by rw [← hP]; simp [List.append_assoc]) (entriesBytes_lt es1 hwf1)
  have segh := received_segment s v 0x07 0x00 P.length P (entriesBytes es1)
    [id, type, hi, lo] (vals ++ entriesBytes es2) cs
    (by rw [← hP]; simp [List.append_assoc])
    (by intro b hb; simp only [List.mem_cons, List.mem_singleton, List.not_mem_nil,
          or_false] at hb; omega)
  have seg2 := received_segment s v 0x07 0x00 P.length P
    (entriesBytes es1 ++ ([id, type, hi, lo] ++ vals)) (entriesBytes es2) [] cs
    (by rw [← hP]; simp [List.append_assoc]) (entriesBytes_lt es2 hwf2)
  generalize (received s v 0x07 0x00 P.length P cs).rxBuffer = B at seg1 segh seg2 ⊢
  have hbuf1 : ∀ i, i < (entriesBytes es1).length →
      B (6 + i) = (entriesBytes es1).getD i 0 := by
    intro i hi1
    have h := seg1 i hi1
    rw [List.length_nil, Nat.add_zero] at h
    exact h
  have e1 : B (6 + (entriesBytes es1).length + 1) = type := segh 1 (by simp)
  have e2 : B (6 + (entriesBytes es1).length + 2) = hi := segh 2 (by simp)
  have e3 : B (6 + (entriesBytes es1).length + 3) = lo := segh 3 (by simp)
  have hbuf2 : ∀ i, i < (entriesBytes es2).length →
      B (6 + (entriesBytes es1).length + 4 + vals.length + i)
        = (entriesBytes es2).getD i 0 := by
    intro i hi2
    have h := seg2 i hi2
    rw [show (entriesBytes es1 ++ ([id, type, hi, lo] ++ vals)).length
        = (entriesBytes es1).length + 4 + vals.length by simp; omega] at h
    rw [show 6 + (entriesBytes es1).length + 4 + vals.length + i
        = 6 + ((entriesBytes es1).length + 4 + vals.length) + i by omega]
    exact h
  rw [parse_entries B _ _ (by omega) es1 6 hwf1 hbuf1 (by omega)]
  rw [parse_skip_step B _ _ (6 + (entriesBytes es1).length) type vals.length (by omega)
    (by omega) hsmall e1 (by rw [e2, e3, shl8_or hi lo hlo]; omega) hb hn]
  rw [parse_entries B _ _ (by omega) es2 _ hwf2 hbuf2 (by omega)]
  rw [parse_done _ _ _ _ _ (by omega)]
  simp [callbacks]

/-- C11 (counterexample). A status report whose first entry has the unrecognised type
`0x03` and nine value bytes, all present, followed by the well-formed boolean entry
`01 01 00 01 01`: the decoder stops at the first entry (its length exceeds 8) and the
handler is never called. -/
theorem long_unrecognised_entry_stops_decoding :
    callbacks (processResponse false 0
        (setDeviceStatusCallback (TuyaProtocol.new fun _ => 0) true)
        [0x55, 0xAA, 0x03, 0x07, 0x00, 18,
         9, 0x03, 0x00, 0x09, 1, 2, 3, 4, 5, 6, 7, 8, 9,
         1, 0x01, 0x00, 0x01, 1,
         0x62]).2 = [] := by
  have h := recv_status_report false 0
    (setDeviceStatusCallback (TuyaProtocol.new fun _ => 0) true) 0x03
    [9, 0x03, 0x00, 0x09, 1, 2, 3, 4, 5, 6, 7, 8, 9, 1, 0x01, 0x00, 0x01, 1] 0x62
    rfl rfl (by decide)
  refine Eq.trans h ?_
  apply parse_break_step _ _ _ 6 (by decide)
  right
  rw [received_at _ _ _ _ _ _ _ 2 (by decide), received_at _ _ _ _ _ _ _ 3 (by decide)]
  decide

/-- C11 (amended). Unrecognised entries of at most 8 value bytes are skipped: in a status
report whose payload is well-formed entries `es1`, then an entry `id, type, hi, lo`
followed by its `hi * 256 + lo <= 8` value bytes whose (type, length) combination is
none of `(0x01, 1)`, `(0x02, 4)`, `(0x04, 4)`, then well-formed entries `es2`, the handler
is called for every entry of `es1` and of `es2`, in order, and not for the unrecognised
entry. -/
theorem unrecognised_entry_skipped (zc : Bool) (now : Nat) (s : TuyaProtocol) (v cs : Nat)
    (es1 es2 : List Entry) (id type hi lo : Nat) (vals : List Nat)
    (hs : s.rxState = TuyaProtocolState.WAIT_HEADER_1) (h0 : s.rxIndex = 0)
    (hcb : s.deviceStatusCallback = true)
    (hwf1 : ∀ e ∈ es1, e.wellFormed) (hwf2 : ∀ e ∈ es2, e.wellFormed)
    (hid : id < 256) (htype : type < 256) (hhi : hi < 256) (hlo : lo < 256)
    (hdecl : hi * 256 + lo = vals.length) (hsmall : vals.length ≤ 8)
    (hb : ¬ (type = 0x01 ∧ vals.length = 1))
    (hn : ¬ ((type = 0x02 ∨ type = 0x04) ∧ vals.length = 4))
    (hlen : (entriesBytes es1 ++ ([id, type, hi, lo] ++ vals) ++ entriesBytes es2).length
      ≤ 249) :
    callbacks (processResponse zc now s
        ([0x55, 0xAA, v, 0x07, 0x00,
            (entriesBytes es1 ++ ([id, type, hi, lo] ++ vals) ++ entriesBytes es2).length]
          ++ (entriesBytes es1 ++ ([id, type, hi, lo] ++ vals) ++ entriesBytes es2)
          ++ [cs])).2
      = es1.map Entry.call ++ es2.map Entry.call :=
  recv_skip_entry zc now s v cs es1 es2 id type hi lo vals hs h0 hcb hwf1 hwf2 hid htype hhi
    hlo hdecl hsmall hb hn hlen

/-- Witness for C11 (amended): a string entry (type `0x03`) with two value bytes between a
boolean and a numeric entry. -/
theorem unrecognised_entry_skipped_witness :
    callbacks (processResponse false 0
        (setDeviceStatusCallback (TuyaProtocol.new fun _ => 0) true)
        [0x55, 0xAA, 0x03, 0x07, 0x00, 19,
         1, 0x01, 0x00, 0x01, 1,
         9, 0x03, 0x00, 0x02, 0x41, 0x42,
         3, 0x02, 0x00, 0x04, 0, 0, 0, 4,
         0x17]).2
      = [(1, 1), (3, 4)] :=
  unrecognised_entry_skipped false 0
    (setDeviceStatusCallback (TuyaProtocol.new fun _ => 0) true) 0x03 0x17
    [Entry.boolean 1 1] [Entry.numeric 3 0x02 0 0 0 4] 9 0x03 0x00 0x02 [0x41, 0x42]
    rfl rfl rfl (by decide) (by decide) (by decide) (by decide) (by decide) (by decide)
    (by decide) (by decide) (by decide) (by decide) (by decide)

/-! ## The blocking wait -/

theorem drain_diverges (fuel : Nat) : ∀ i rx, i < 65536 → drain fuel i 65535 rx = none := by
  induction fuel with
  | zero => intro i rx _; rfl
  | succ n ih =>
    intro i rx hi
    rw [drain, if_pos (by omega)]
    exact ih _ _ (Nat.mod_lt _ (by decide))

theorem drain_returns (len : Nat) (hlen : len < 65535) :
    ∀ k fuel i rx, i + k = len + 1 → k < fuel →
      drain fuel i len rx = some (rx.drop k) := by
  intro k
  induction k with
  | zero =>
    intro fuel i rx hi hf
    obtain ⟨n, rfl⟩ : ∃ n, fuel = n + 1 := ⟨fuel - 1, by omega⟩
    rw [drain, if_neg (by omega)]
    rfl
  | succ k ih =>
    intro fuel i rx hi hf
    obtain ⟨n, rfl⟩ : ∃ n, fuel = n + 1 := ⟨fuel - 1, by omega⟩
    rw [drain, if_pos (by omega), Nat.mod_eq_of_lt (by omega),
      ih n (i + 1) (rx.drop 1) (by omega) (by omega)]
    simp [List.drop_drop, Nat.add_comm]

theorem elapsed_self (now : Nat) : elapsed now now = 0 := by
  unfold elapsed
  omega

theorem waitForResponse_hangs (fuel expectedCmd timeout v cmd : Nat) (rest : List Nat)
    (incoming : List (List Nat)) (now : Nat) :
    waitForResponse fuel expectedCmd timeout
      { rx := [0x55, 0xAA, v, cmd, 0xFF, 0xFF] ++ rest, incoming := incoming, now := now }
      = if 0 < timeout ∧ 0 < fuel then none
        else if fuel = 0 then none
        else some (false,
          { rx := [0x55, 0xAA, v, cmd, 0xFF, 0xFF] ++ rest, incoming := incoming, now := now }) := by
  cases fuel with
  | zero => simp [waitForResponse, waitLoop]
  | succ n =>
    by_cases ht : 0 < timeout
    · have hlen : ((0xFF <<< 8) ||| 0xFF) % 65536 = 65535 := by decide
      simp only [waitForResponse, waitLoop, elapsed_self, ht, if_true, List.cons_append,
        List.length_cons, List.getD_cons_zero, List.getD_cons_succ, hlen,
        drain_diverges n 0 _ (by decide)]
      simp
    · have h0 : timeout = 0 := by omega
      subst h0
      simp [waitForResponse, waitLoop]

theorem noFF_delay (io : Serial) (rx : List Nat) (h : io.noFF)
    (hsub : ∀ b ∈ rx, b ∈ io.rx) : (Serial.delay { io with rx := rx } 10).noFF := by
  obtain ⟨h1, h2⟩ := h
  refine ⟨?_, ?_⟩
  · intro b hb
    simp only [Serial.delay, List.mem_append] at hb
    rcases hb with hb | hb
    · exact h1 b (hsub b hb)
    · cases hinc : io.incoming with
      | nil => rw [hinc] at hb; simp at hb
      | cons l ls =>
        rw [hinc] at hb
        exact h2 l (by rw [hinc]; exact List.mem_cons_self _ _) b (by simpa using hb)
  · intro l hl b hb
    simp only [Serial.delay] at hl
    exact h2 l (List.mem_of_mem_tail hl) b hb

theorem getD_lt_of_noFF (rx : List Nat) (h : ∀ b ∈ rx, b < 255) (i : Nat)
    (hi : i < rx.length) : rx.getD i 0 < 255 := by
  rw [List.getD_eq_getElem _ _ hi]
  exact h _ (List.getElem_mem _)

theorem elapsed_offset (now start e : Nat)
    (hnow : now % 4294967296 = (start + e) % 4294967296) (he : e < 4294967296) :
    elapsed now start = e := by
  unfold elapsed
  omega

theorem waitLoop_returns (expectedCmd timeout start : Nat)
    (ht : timeout + 10 ≤ 4294967296) :
    ∀ k fuel (io : Serial) e, io.now % 4294967296 = (start + e) % 4294967296 →
      e < timeout + 10 → timeout ≤ e + 10 * k → io.noFF → k + 65537 ≤ fuel →
      ∃ r, waitLoop expectedCmd timeout start fuel io = some r := by
  intro k
  induction k with
  | zero =>
    intro fuel io e hnow he hk _ hf
    obtain ⟨n, rfl⟩ : ∃ n, fuel = n + 1 := ⟨fuel - 1, by omega⟩
    rw [waitLoop, elapsed_offset io.now start e hnow (by omega), if_neg (by omega)]
    exact ⟨_, rfl⟩
  | succ k ih =>
    intro fuel io e hnow he hk hsafe hf
    obtain ⟨n, rfl⟩ : ∃ n, fuel = n + 1 := ⟨fuel - 1, by omega⟩
    have hnext : e < timeout → ∀ rx : List Nat, (∀ b ∈ rx, b ∈ io.rx) →
        ∃ r, waitLoop expectedCmd timeout start n (Serial.delay { io with rx := rx } 10)
          = some r := by
      intro hlt rx hsub
      refine ih n _ (e + 10) ?_ (by omega) (by omega) (noFF_delay io rx hsafe hsub)
        (by omega)
      simp only [Serial.delay]
      omega
    rw [waitLoop, elapsed_offset io.now start e hnow (by omega)]
    by_cases hlt : e < timeout
    · rw [if_pos hlt]
      by_cases h6 : io.rx.length ≥ 6
      · rw [if_pos h6]
        by_cases hb0 : io.rx.getD 0 0 = 0x55
        · rw [if_pos hb0]
          by_cases hb1 : io.rx.getD 1 0 = 0xAA
          · rw [if_pos hb1]
            simp only []
            have hhi := getD_lt_of_noFF io.rx hsafe.1 4 (by omega)
            have hlo := getD_lt_of_noFF io.rx hsafe.1 5 (by omega)
            have hlen : ((io.rx.getD 4 0 <<< 8) ||| io.rx.getD 5 0) % 65536 < 65535 := by
              rw [shl8_or _ _ (by omega)]
              omega
            rw [drain_returns _ hlen _ n 0 _ (Nat.zero_add _) (by omega)]
            by_cases hcmd : io.rx.getD 3 0 % 256 = expectedCmd ∨ expectedCmd = 0xFF
            · rw [if_pos hcmd]
              exact ⟨_, rfl⟩
            · rw [if_neg hcmd]
              exact hnext hlt
                (List.drop (((io.rx.getD 4 0 <<< 8) ||| io.rx.getD 5 0) % 65536 + 1)
                  (List.drop 6 io.rx))
                (fun b hb => List.mem_of_mem_drop (List.mem_of_mem_drop hb))
          · rw [if_neg hb1]
            exact hnext hlt (List.drop 2 io.rx) (fun b hb => List.mem_of_mem_drop hb)
        · rw [if_neg hb0]
          exact hnext hlt (List.drop 1 io.rx) (fun b hb => List.mem_of_mem_drop hb)
      · rw [if_neg h6]
        exact hnext hlt io.rx (fun b hb => hb)
    · rw [if_neg hlt]
      exact ⟨_, rfl⟩

theorem waitForResponse_returns (expectedCmd timeout : Nat) (io : Serial)
    (ht : timeout + 10 ≤ 4294967296) (hsafe : io.noFF) :
    ∀ fuel, timeout + 65538 ≤ fuel →
      ∃ r, waitForResponse fuel expectedCmd timeout io = some r := by
  intro fuel hf
  exact waitLoop_returns expectedCmd timeout io.now ht timeout fuel io 0 (by simp)
    (by omega) (by omega) hsafe (by omega)

/-! ## Attribute setters -/

theorem sendCommand_ne_nil (c : Nat) (p : List Nat) : sendCommand c p p.length ≠ [] := by
  rw [sendCommand_eq]
  simp

theorem sendAndReturnTrue_not_false (fuel dpid type value : Nat) (io : Serial) :
    ¬ returnsFalse (sendAndReturnTrue fuel dpid type value io) := by
  rintro ⟨io1, h⟩
  simp only [sendAndReturnTrue] at h
  cases hw : (sendDataPoint fuel dpid type value io).2 with
  | none => rw [hw] at h; simp at h
  | some w => rw [hw] at h; simp at h

theorem sendAndReturnTrue_returns (fuel dpid type value : Nat) (io : Serial)
    (hsafe : io.noFF) (hf : 66038 ≤ fuel) :
    returnsTrue (sendAndReturnTrue fuel dpid type value io) := by
  obtain ⟨r, hr⟩ := waitForResponse_returns TUYA_CMD_SEND_COMMAND TUYA_COMMAND_TIMEOUT_MS io
    (by decide) hsafe fuel (by simpa using hf)
  exact ⟨r.2, by simp [sendAndReturnTrue, sendDataPoint, hr]⟩

theorem validates_of_eq (set : Nat → Nat → Serial → List Nat × Option (Bool × Serial))
    (max dpid type : Nat)
    (hset : ∀ fuel x io, set fuel x io
      = if max < x then ([], some (false, io)) else sendAndReturnTrue fuel dpid type x io)
    (io : Serial) : validates set max io := by
  refine ⟨?_, ?_, ?_, ?_⟩
  · intro fuel x
    rw [hset]
    by_cases hx : max < x
    · rw [if_pos hx]
      exact ⟨fun _ => hx, fun _ => ⟨⟨io, rfl⟩, rfl⟩⟩
    · rw [if_neg hx]
      refine ⟨fun h => ?_, fun h => absurd h hx⟩
      exact absurd h.2 (sendCommand_ne_nil _ _)
  · intro fuel x hx
    rw [hset, if_neg (by omega)]
    exact sendAndReturnTrue_not_false fuel dpid type x io
  · intro fuel x hx
    rw [hset, if_neg (by omega)]
    rfl
  · intro hsafe fuel x hf hx
    rw [hset, if_neg (by omega)]
    exact sendAndReturnTrue_returns fuel dpid type x io hsafe hf

theorem setFanSpeed_eq (fuel x : Nat) (io : Serial) :
    setFanSpeed fuel x io
      = if 5 < x then ([], some (false, io))
        else sendAndReturnTrue fuel DP_FAN_SPEED DP_TYPE_VALUE x io := by
  unfold setFanSpeed isValidTuyaFanSpeed isInRange
  by_cases hx : 5 < x
  · rw [if_pos hx, if_pos (by simp [TUYA_FAN_SPEED_MAX]; omega)]
  · rw [if_neg hx, if_neg (by simp [TUYA_FAN_SPEED_MAX]; omega)]

theorem setLightBrightness_eq (fuel x : Nat) (io : Serial) :
    setLightBrightness fuel x io
      = if 5 < x then ([], some (false, io))
        else sendAndReturnTrue fuel DP_LIGHT_DIMMER DP_TYPE_VALUE x io := by
  unfold setLightBrightness isValidTuyaBrightness isInRange
  by_cases hx : 5 < x
  · rw [if_pos hx, if_pos (by simp [TUYA_BRIGHTNESS_MAX]; omega)]
  · rw [if_neg hx, if_neg (by simp [TUYA_BRIGHTNESS_MAX]; omega)]

/-- Validation by the attribute setters, for every state of the serial port:
`setFanSpeed` and `setLightBrightness` return `false` and transmit no byte if and only if
the argument exceeds 5, `setFanMode` and `setLightColourTemp` if and only if it exceeds 2,
`setFanDirection` if and only if it exceeds 1; for every other argument they never return
`false`, and return `true` when the wait for the acknowledgement returns (a sufficient
condition is that the incoming stream has no byte `0xFF`); `setFanSwitch` and
`setLightSwitch` transmit a frame and never return `false`, for both arguments. -/
theorem setters_validate (io : Serial) :
    validates setFanSpeed 5 io
    ∧ validates setLightBrightness 5 io
    ∧ validates setFanMode 2 io
    ∧ validates setLightColourTemp 2 io
    ∧ validates setFanDirection 1 io
    ∧ (∀ fuel isOn, ¬ returnsFalse (setFanSwitch fuel isOn io)
        ∧ (setFanSwitch fuel isOn io).1 ≠ []
        ∧ (io.noFF → 66038 ≤ fuel → returnsTrue (setFanSwitch fuel isOn io)))
    ∧ (∀ fuel isOn, ¬ returnsFalse (setLightSwitch fuel isOn io)
        ∧ (setLightSwitch fuel isOn io).1 ≠ []
        ∧ (io.noFF → 66038 ≤ fuel → returnsTrue (setLightSwitch fuel isOn io))) := by
  refine ⟨validates_of_eq _ 5 _ _ setFanSpeed_eq io,
    validates_of_eq _ 5 _ _ setLightBrightness_eq io,
    validates_of_eq _ 2 DP_FAN_MODE DP_TYPE_ENUM (fun _ _ _ => rfl) io,
    validates_of_eq _ 2 DP_LIGHT_COLOUR_TEMP DP_TYPE_ENUM (fun _ _ _ => rfl) io,
    validates_of_eq _ 1 DP_FAN_DIRECTION DP_TYPE_ENUM (fun _ _ _ => rfl) io, ?_, ?_⟩
  · intro fuel isOn
    exact ⟨sendAndReturnTrue_not_false _ _ _ _ _, sendCommand_ne_nil _ _,
      fun hsafe hf => sendAndReturnTrue_returns _ _ _ _ _ hsafe hf⟩
  · intro fuel isOn
    exact ⟨sendAndReturnTrue_not_false _ _ _ _ _, sendCommand_ne_nil _ _,
      fun hsafe hf => sendAndReturnTrue_returns _ _ _ _ _ hsafe hf⟩

/-- An instance of `setters_validate`: speed 6 is rejected without a byte sent; speed 5 on
a silent link returns `true`. -/
theorem setters_validate_witness :
    rejected (setFanSpeed 0 6 { rx := [], incoming := [], now := 0 })
    ∧ returnsTrue (setFanSpeed 66038 5 { rx := [], incoming := [], now := 0 }) :=
  ⟨((setters_validate { rx := [], incoming := [], now := 0 }).1.1 0 6).mpr (by decide),
   (setters_validate { rx := [], incoming := [], now := 0 }).1.2.2.2 (by decide) 66038 5
     (by decide) (by decide)⟩

theorem sendAndReturnTrue_hangs (fuel dpid type value v cmd : Nat) (rest : List Nat)
    (io : Serial) (hrx : io.rx = [0x55, 0xAA, v, cmd, 0xFF, 0xFF] ++ rest) :
    (sendAndReturnTrue fuel dpid type value io).2 = none
    ∧ ¬ returnsTrue (sendAndReturnTrue fuel dpid type value io)
    ∧ (sendAndReturnTrue fuel dpid type value io).1 ≠ [] := by
  obtain ⟨rx, incoming, now⟩ := io
  simp only [] at hrx
  subst hrx
  have hw := waitForResponse_hangs fuel TUYA_CMD_SEND_COMMAND TUYA_COMMAND_TIMEOUT_MS v cmd
    rest incoming now
  have hnone : waitForResponse fuel TUYA_CMD_SEND_COMMAND TUYA_COMMAND_TIMEOUT_MS
      { rx := [0x55, 0xAA, v, cmd, 0xFF, 0xFF] ++ rest, incoming := incoming, now := now }
      = none := by
    rw [hw]
    by_cases hf : 0 < fuel
    · rw [if_pos ⟨by decide, hf⟩]
    · rw [if_neg (fun h => hf h.2), if_pos (by omega)]
  have h2 : (sendAndReturnTrue fuel dpid type value
      { rx := [0x55, 0xAA, v, cmd, 0xFF, 0xFF] ++ rest, incoming := incoming,
        now := now }).2 = none := by
    simp only [sendAndReturnTrue, sendDataPoint, hnone, Option.map_none']
  refine ⟨h2, ?_, sendCommand_ne_nil _ _⟩
  rintro ⟨io1, h⟩
  rw [h2] at h
  exact Option.noConfusion h

/-- C12 (the code at the failing inputs). When the six bytes of a header
`55 AA v cmd FF FF` are waiting in the receive buffer, every validated setter called with
an argument within its range (`setFanSpeed` and `setLightBrightness` up to 5, `setFanMode`
and `setLightColourTemp` up to 2, `setFanDirection` up to 1) transmits its frame and then
does not return, whatever the fuel, so it does not return `true`; `setFanSwitch` and
`setLightSwitch` do not return either, for both arguments.  The call hangs in the drain
loop of `waitForResponse` (the defect of C16).  The other half of the claim holds also
here: each validated setter returns `false` without transmitting a byte if and only if the
argument exceeds its bound. -/
theorem setters_hang_on_ffff (fuel v cmd : Nat) (rest : List Nat) (io : Serial)
    (hrx : io.rx = [0x55, 0xAA, v, cmd, 0xFF, 0xFF] ++ rest) :
    (∀ x, x ≤ 5 → (setFanSpeed fuel x io).2 = none ∧ ¬ returnsTrue (setFanSpeed fuel x io)
        ∧ (setFanSpeed fuel x io).1 ≠ [])
    ∧ (∀ x, x ≤ 5 → (setLightBrightness fuel x io).2 = none
        ∧ ¬ returnsTrue (setLightBrightness fuel x io)
        ∧ (setLightBrightness fuel x io).1 ≠ [])
    ∧ (∀ x, x ≤ 2 → (setFanMode fuel x io).2 = none ∧ ¬ returnsTrue (setFanMode fuel x io)
        ∧ (setFanMode fuel x io).1 ≠ [])
    ∧ (∀ x, x ≤ 2 → (setLightColourTemp fuel x io).2 = none
        ∧ ¬ returnsTrue (setLightColourTemp fuel x io)
        ∧ (setLightColourTemp fuel x io).1 ≠ [])
    ∧ (∀ x, x ≤ 1 → (setFanDirection fuel x io).2 = none
        ∧ ¬ returnsTrue (setFanDirection fuel x io)
        ∧ (setFanDirection fuel x io).1 ≠ [])
    ∧ (∀ isOn, (setFanSwitch fuel isOn io).2 = none
        ∧ ¬ returnsTrue (setFanSwitch fuel isOn io))
    ∧ (∀ isOn, (setLightSwitch fuel isOn io).2 = none
        ∧ ¬ returnsTrue (setLightSwitch fuel isOn io))
    ∧ (∀ x, (rejected (setFanSpeed fuel x io) ↔ 5 < x)
        ∧ (rejected (setLightBrightness fuel x io) ↔ 5 < x)
        ∧ (rejected (setFanMode fuel x io) ↔ 2 < x)
        ∧ (rejected (setLightColourTemp fuel x io) ↔ 2 < x)
        ∧ (rejected (setFanDirection fuel x io) ↔ 1 < x)) := by
  have key := fun dpid type value =>
    sendAndReturnTrue_hangs fuel dpid type value v cmd rest io hrx
  refine ⟨?_, ?_, ?_, ?_, ?_, ?_, ?_, ?_⟩
  · intro x hx
    rw [setFanSpeed_eq, if_neg (by omega)]
    exact key _ _ _
  · intro x hx
    rw [setLightBrightness_eq, if_neg (by omega)]
    exact key _ _ _
  · intro x hx
    have e : setFanMode fuel x io = sendAndReturnTrue fuel DP_FAN_MODE DP_TYPE_ENUM x io := by
      unfold setFanMode
      rw [if_neg (by simp [TuyaFanMode.toUInt8]; omega)]
    rw [e]
    exact key _ _ _
  · intro x hx
    have e : setLightColourTemp fuel x io
        = sendAndReturnTrue fuel DP_LIGHT_COLOUR_TEMP DP_TYPE_ENUM x io := by
      unfold setLightColourTemp
      rw [if_neg (by simp [ColourTempLevel.toUInt8]; omega)]
    rw [e]
    exact key _ _ _
  · intro x hx
    have e : setFanDirection fuel x io
        = sendAndReturnTrue fuel DP_FAN_DIRECTION DP_TYPE_ENUM x io := by
      unfold setFanDirection
      rw [if_neg (by simp [FanDirection.toUInt8]; omega)]
    rw [e]
    exact key _ _ _
  · intro isOn
    exact ⟨(key _ _ _).1, (key _ _ _).2.1⟩
  · intro isOn
    exact ⟨(key _ _ _).1, (key _ _ _).2.1⟩
  · intro x
    exact ⟨(validates_of_eq _ 5 _ _ setFanSpeed_eq io).1 fuel x,
      (validates_of_eq _ 5 _ _ setLightBrightness_eq io).1 fuel x,
      (validates_of_eq _ 2 DP_FAN_MODE DP_TYPE_ENUM (fun _ _ _ => rfl) io).1 fuel x,
      (validates_of_eq _ 2 DP_LIGHT_COLOUR_TEMP DP_TYPE_ENUM (fun _ _ _ => rfl) io).1 fuel x,
      (validates_of_eq _ 1 DP_FAN_DIRECTION DP_TYPE_ENUM (fun _ _ _ => rfl) io).1 fuel x⟩

/-- Witness for C12: `setFanSpeed(3)` with `55 AA 03 06 FF FF` waiting transmits its frame
and does not return within any fuel. -/
theorem setters_hang_on_ffff_witness :
    (setFanSpeed 1000 3
        { rx := [0x55, 0xAA, 0x03, 0x06, 0xFF, 0xFF] ++ [], incoming := [], now := 0 }).2 = none
    ∧ ¬ returnsTrue (setFanSpeed 1000 3
        { rx := [0x55, 0xAA, 0x03, 0x06, 0xFF, 0xFF] ++ [], incoming := [], now := 0 })
    ∧ (setFanSpeed 1000 3
        { rx := [0x55, 0xAA, 0x03, 0x06, 0xFF, 0xFF] ++ [], incoming := [],
          now := 0 }).1 ≠ [] :=
  (setters_hang_on_ffff 1000 0x03 0x06 []
    { rx := [0x55, 0xAA, 0x03, 0x06, 0xFF, 0xFF] ++ [], incoming := [], now := 0 } rfl).1 3
    (by decide)

/-! ## Claims about outbound data points -/

theorem value_bytes (v : Nat) :
    (v >>> 24) &&& 0xFF = v / 16777216 % 256 ∧ (v >>> 16) &&& 0xFF = v / 65536 % 256
    ∧ (v >>> 8) &&& 0xFF = v / 256 % 256 ∧ v &&& 0xFF = v % 256 := by
  simp only [and_ff, Nat.shiftRight_eq_div_pow]
  norm_num

/-- C13. Data-point wire encoding: `sendDataPoint(d, 0x01, v)` transmits
`encode(0x06, [d, 0x01, 0x00, 0x01, (1 if v != 0 else 0)])`, and `sendDataPoint(d, t, v)`
with `t` equal to `0x02` or `0x04` transmits
`encode(0x06, [d, t, 0x00, 0x04, v>>24 & 0xFF, v>>16 & 0xFF, v>>8 & 0xFF, v & 0xFF])`;
a valid `setFanSpeed(s)` transmits `encode(0x06, [3, 2, 0, 4, 0, 0, 0, s])`. -/
theorem dataPoint_encoding (fuel d v : Nat) (io : Serial) :
    (sendDataPoint fuel d 0x01 v io).1
        = sendCommand 0x06 [d, 0x01, 0x00, 0x01, if v ≠ 0 then 1 else 0] 5
    ∧ (sendDataPoint fuel d 0x02 v io).1
        = sendCommand 0x06 [d, 0x02, 0x00, 0x04, (v >>> 24) &&& 0xFF, (v >>> 16) &&& 0xFF,
            (v >>> 8) &&& 0xFF, v &&& 0xFF] 8
    ∧ (sendDataPoint fuel d 0x04 v io).1
        = sendCommand 0x06 [d, 0x04, 0x00, 0x04, (v >>> 24) &&& 0xFF, (v >>> 16) &&& 0xFF,
            (v >>> 8) &&& 0xFF, v &&& 0xFF] 8
    ∧ ((v >>> 24) &&& 0xFF = v / 16777216 % 256 ∧ (v >>> 16) &&& 0xFF = v / 65536 % 256
        ∧ (v >>> 8) &&& 0xFF = v / 256 % 256 ∧ v &&& 0xFF = v % 256)
    ∧ (∀ s, s ≤ 5 →
        (setFanSpeed fuel s io).1 = sendCommand 0x06 [3, 2, 0, 4, 0, 0, 0, s] 8) := by
  refine ⟨rfl, rfl, rfl, value_bytes v, ?_⟩
  intro s hs
  rw [setFanSpeed_eq, if_neg (by omega)]
  obtain ⟨h1, h2, h3, h4⟩ := value_bytes s
  simp only [sendAndReturnTrue, sendDataPoint, dataPointPayload, DP_TYPE_VALUE, DP_TYPE_BOOL,
    DP_FAN_SPEED, TUYA_CMD_SEND_COMMAND, h1, h2, h3, h4]
  have e1 : s / 16777216 % 256 = 0 := by omega
  have e2 : s / 65536 % 256 = 0 := by omega
  have e3 : s / 256 % 256 = 0 := by omega
  have e4 : s % 256 = s := by omega
  rw [e1, e2, e3, e4]
  rfl

theorem recv_entries (zc : Bool) (now : Nat) (s : TuyaProtocol) (v cs : Nat)
    (es : List Entry)
    (hs : s.rxState = TuyaProtocolState.WAIT_HEADER_1) (h0 : s.rxIndex = 0)
    (hcb : s.deviceStatusCallback = true)
    (hwf : ∀ e ∈ es, e.wellFormed) (hlen : (entriesBytes es).length ≤ 249) :
    callbacks (processResponse zc now s
        ([0x55, 0xAA, v, 0x07, 0x00, (entriesBytes es).length] ++ entriesBytes es ++ [cs])).2
      = es.map Entry.call := by
  rw [recv_status_report zc now s v (entriesBytes es) cs hs h0 hlen, hcb]
  have hbuf := received_entries s v 0x07 0x00 (entriesBytes es).length (entriesBytes es) []
    cs (entriesBytes_lt es hwf)
  rw [List.append_nil] at hbuf
  rw [parse_entries _ (7 + (entriesBytes es).length) (entriesBytes es).length (by omega)
    es 6 hwf hbuf (by omega)]
  rw [parse_done _ _ _ _ _ (Nat.le_refl _)]
  simp [callbacks]

theorem recv_entries_encoded (zc : Bool) (now : Nat) (s : TuyaProtocol) (es : List Entry)
    (hs : s.rxState = TuyaProtocolState.WAIT_HEADER_1) (h0 : s.rxIndex = 0)
    (hcb : s.deviceStatusCallback = true)
    (hwf : ∀ e ∈ es, e.wellFormed) (hlen : (entriesBytes es).length ≤ 249) :
    callbacks (processResponse zc now s
        (sendCommand 0x07 (entriesBytes es) (entriesBytes es).length)).2
      = es.map Entry.call := by
  rw [sendCommand_eq]
  have h1 : (entriesBytes es).length / 256 % 256 = 0 := by omega
  have h2 : (entriesBytes es).length % 256 = (entriesBytes es).length := by omega
  rw [h1, h2]
  exact recv_entries zc now s 0x03 _ es hs h0 hcb hwf hlen

/-- C14. Data-point round trip: the payload that `sendDataPoint(d, t, v)` builds, for
`t` one of `0x01`, `0x02`, `0x04` and a 32-bit `v`, wrapped in a status-report frame and
fed to a receiver waiting for a header with `rxIndex = 0` and a registered handler, makes
exactly one handler call: `(d, v)` when `t` is `0x02` or `0x04`, and
`(d, 1 if v != 0 else 0)` when `t` is `0x01`. -/
theorem dataPoint_roundtrip (zc : Bool) (now : Nat) (s : TuyaProtocol) (d t v : Nat)
    (hs : s.rxState = TuyaProtocolState.WAIT_HEADER_1) (h0 : s.rxIndex = 0)
    (hcb : s.deviceStatusCallback = true)
    (hd : d < 256) (ht : t = 0x01 ∨ t = 0x02 ∨ t = 0x04) (hv : v < 4294967296) :
    callbacks (processResponse zc now s
        (sendCommand 0x07 (dataPointPayload d t v) (dataPointPayload d t v).length)).2
      = [(d, if t = 0x01 then (if v ≠ 0 then 1 else 0) else v)] := by
  obtain ⟨h1, h2, h3, h4⟩ := value_bytes v
  have hnum : ∀ ty, ty = 0x02 ∨ ty = 0x04 →
      callbacks (processResponse zc now s
        (sendCommand 0x07 (dataPointPayload d ty v) (dataPointPayload d ty v).length)).2
        = [(d, v)] := by
    intro ty hty
    have hp : dataPointPayload d ty v
        = entriesBytes [Entry.numeric d ty (v / 16777216 % 256) (v / 65536 % 256)
            (v / 256 % 256) (v % 256)] := by
      rcases hty with rfl | rfl <;>
        simp [dataPointPayload, entriesBytes, Entry.bytes, h1, h2, h3, h4]
    rw [hp, recv_entries_encoded zc now s _ hs h0 hcb
      (by
        intro e he
        rw [List.mem_singleton] at he
        subst he
        exact ⟨hd, hty, by omega, by omega, by omega, by omega⟩)
      (by simp [entriesBytes, Entry.bytes])]
    simp only [List.map_cons, List.map_nil, Entry.call]
    congr 2
    omega
  rcases ht with rfl | rfl | rfl
  · have hp : dataPointPayload d 0x01 v
        = entriesBytes [Entry.boolean d (if v ≠ 0 then 1 else 0)] := by
      simp [dataPointPayload, entriesBytes, Entry.bytes]
    rw [hp, recv_entries_encoded zc now s _ hs h0 hcb
      (by
        intro e he
        rw [List.mem_singleton] at he
        subst he
        exact ⟨hd, by split <;> omega⟩)
      (by simp [entriesBytes, Entry.bytes])]
    simp [Entry.call]
  · rw [hnum 0x02 (Or.inl rfl)]; simp
  · rw [hnum 0x04 (Or.inr rfl)]; simp

/-- Witness for C14: a numeric data point whose value has the top bit set. -/
theorem dataPoint_roundtrip_witness :
    callbacks (processResponse false 0
        (setDeviceStatusCallback (TuyaProtocol.new fun _ => 0) true)
        (sendCommand 0x07 (dataPointPayload 3 0x02 0x80000001)
          (dataPointPayload 3 0x02 0x80000001).length)).2
      = [(3, 0x80000001)] :=
  dataPoint_roundtrip false 0 (setDeviceStatusCallback (TuyaProtocol.new fun _ => 0) true)
    3 0x02 0x80000001 rfl rfl rfl (by decide) (by decide) (by decide)

/-! ## Claims about the wait for an acknowledgement -/

theorem sendAndReturnTrue_of_wait (fuel dpid type value : Nat) (io io1 : Serial) (b : Bool)
    (h : waitForResponse fuel TUYA_CMD_SEND_COMMAND TUYA_COMMAND_TIMEOUT_MS io
      = some (b, io1)) :
    (sendAndReturnTrue fuel dpid type value io).2 = some (true, io1) := by
  simp [sendAndReturnTrue, sendDataPoint, h]

/-- C15 (counterexample). On a silent link `waitForResponse(0x06, 500)` returns `false`
after 500 ms, and `setFanSpeed(3)`, which has transmitted its frame and made that call,
returns `true`. -/
theorem setFanSpeed_true_after_timeout :
    waitForResponse 51 TUYA_CMD_SEND_COMMAND TUYA_COMMAND_TIMEOUT_MS
        { rx := [], incoming := [], now := 0 }
      = some (false, { rx := [], incoming := [], now := 500 })
    ∧ setFanSpeed 51 3 { rx := [], incoming := [], now := 0 }
      = ([0x55, 0xAA, 0x03, 0x06, 0x00, 0x08, 3, 2, 0, 4, 0, 0, 0, 3, 29],
         some (true, { rx := [], incoming := [], now := 500 })) := by
  decide

/-- C15 (amended). The time-out is not reported by the setters: whenever the call
`waitForResponse(0x06, 500)` made by `sendDataPoint` returns, with `true` or with `false`,
every attribute setter called with an in-range value returns `true`; the value returned
by `waitForResponse` is discarded. -/
theorem setters_ignore_timeout (fuel : Nat) (io io1 : Serial) (b : Bool)
    (h : waitForResponse fuel TUYA_CMD_SEND_COMMAND TUYA_COMMAND_TIMEOUT_MS io
      = some (b, io1)) :
    (∀ isOn, (setFanSwitch fuel isOn io).2 = some (true, io1))
    ∧ (∀ x, x ≤ 5 → (setFanSpeed fuel x io).2 = some (true, io1))
    ∧ (∀ x, x ≤ 2 → (setFanMode fuel x io).2 = some (true, io1))
    ∧ (∀ x, x ≤ 1 → (setFanDirection fuel x io).2 = some (true, io1))
    ∧ (∀ isOn, (setLightSwitch fuel isOn io).2 = some (true, io1))
    ∧ (∀ x, x ≤ 5 → (setLightBrightness fuel x io).2 = some (true, io1))
    ∧ (∀ x, x ≤ 2 → (setLightColourTemp fuel x io).2 = some (true, io1)) := by
  refine ⟨?_, ?_, ?_, ?_, ?_, ?_, ?_⟩
  · intro isOn
    exact sendAndReturnTrue_of_wait _ _ _ _ _ _ _ h
  · intro x hx
    rw [setFanSpeed_eq, if_neg (by omega)]
    exact sendAndReturnTrue_of_wait _ _ _ _ _ _ _ h
  · intro x hx
    have e : setFanMode fuel x io
        = if 2 < x then ([], some (false, io))
          else sendAndReturnTrue fuel DP_FAN_MODE DP_TYPE_ENUM x io := rfl
    rw [e, if_neg (by omega)]
    exact sendAndReturnTrue_of_wait _ _ _ _ _ _ _ h
  · intro x hx
    have e : setFanDirection fuel x io
        = if 1 < x then ([], some (false, io))
          else sendAndReturnTrue fuel DP_FAN_DIRECTION DP_TYPE_ENUM x io := rfl
    rw [e, if_neg (by omega)]
    exact sendAndReturnTrue_of_wait _ _ _ _ _ _ _ h
  · intro isOn
    exact sendAndReturnTrue_of_wait _ _ _ _ _ _ _ h
  · intro x hx
    rw [setLightBrightness_eq, if_neg (by omega)]
    exact sendAndReturnTrue_of_wait _ _ _ _ _ _ _ h
  · intro x hx
    have e : setLightColourTemp fuel x io
        = if 2 < x then ([], some (false, io))
          else sendAndReturnTrue fuel DP_LIGHT_COLOUR_TEMP DP_TYPE_ENUM x io := rfl
    rw [e, if_neg (by omega)]
    exact sendAndReturnTrue_of_wait _ _ _ _ _ _ _ h

/-- Witness for C15 (amended): the silent link, on which the wait returns `false`. -/
theorem setters_ignore_timeout_witness :
    (setLightBrightness 51 4 { rx := [], incoming := [], now := 0 }).2
      = some (true, { rx := [], incoming := [], now := 500 }) :=
  (setters_ignore_timeout 51 { rx := [], incoming := [], now := 0 }
    { rx := [], incoming := [], now := 500 } false (by decide)).2.2.2.2.2.1 4 (by decide)

/-- C16 (the code at the failing input). When the six bytes of a header `55 AA v cmd FF FF`
are waiting in the receive buffer, `waitForResponse` does not return, whatever the expected
command, the bytes that follow and the fuel: the drain loop
`for (uint16_t i = 0; i < len + 1; i++)` compares its 16-bit counter with `65536` and never
exits. -/
theorem waitForResponse_hangs_on_ffff (fuel expectedCmd v cmd : Nat) (rest : List Nat)
    (incoming : List (List Nat)) (now : Nat) :
    waitForResponse fuel expectedCmd TUYA_COMMAND_TIMEOUT_MS
        { rx := [0x55, 0xAA, v, cmd, 0xFF, 0xFF] ++ rest, incoming := incoming, now := now }
      = none
    ∧ (∀ rx, drain fuel 0 0xFFFF rx = none)
    ∧ (setFanSpeed fuel 3
        { rx := [0x55, 0xAA, v, cmd, 0xFF, 0xFF] ++ rest, incoming := incoming,
          now := now }).2 = none := by
  have hw := waitForResponse_hangs fuel expectedCmd TUYA_COMMAND_TIMEOUT_MS v cmd rest
    incoming now
  have hw6 := waitForResponse_hangs fuel TUYA_CMD_SEND_COMMAND TUYA_COMMAND_TIMEOUT_MS v cmd
    rest incoming now
  have hnone : ∀ e, waitForResponse fuel e TUYA_COMMAND_TIMEOUT_MS
        { rx := [0x55, 0xAA, v, cmd, 0xFF, 0xFF] ++ rest, incoming := incoming, now := now }
      = (if 0 < TUYA_COMMAND_TIMEOUT_MS ∧ 0 < fuel then none
          else if fuel = 0 then none
          else some (false,
            { rx := [0x55, 0xAA, v, cmd, 0xFF, 0xFF] ++ rest, incoming := incoming,
              now := now })) →
      waitForResponse fuel e TUYA_COMMAND_TIMEOUT_MS
        { rx := [0x55, 0xAA, v, cmd, 0xFF, 0xFF] ++ rest, incoming := incoming, now := now }
      = none := by
    intro e he
    rw [he]
    by_cases hf : 0 < fuel
    · rw [if_pos ⟨by decide, hf⟩]
    · rw [if_neg (fun h => hf h.2), if_pos (by omega)]
  refine ⟨hnone _ hw, fun rx => drain_diverges fuel 0 rx (by decide), ?_⟩
  rw [setFanSpeed_eq, if_neg (by decide)]
  simp only [sendAndReturnTrue, sendDataPoint, hnone _ hw6, Option.map_none']

/-! ## Transmissions of the receiver -/

theorem packets_append (a b : List Effect) : packets (a ++ b) = packets a ++ packets b := by
  induction a with
  | nil => rfl
  | cons e es ih => cases e <;> simp [packets, ih]

theorem packets_store (i x : Nat) (es : List Effect) :
    packets (Effect.store i x :: es) = packets es := rfl

theorem frames_store (i x : Nat) (es : List Effect) :
    frames (Effect.store i x :: es) = frames es := rfl

theorem parseStatusReport_packets (cb : Bool) (buf : Nat → Nat) (ri el : Nat) :
    ∀ n d, ri - d ≤ n → packets (parseStatusReport cb buf ri el d) = [] := by
  intro n
  induction n with
  | zero =>
    intro d h
    rw [parseStatusReport]
    rw [dif_neg (by omega)]
    rfl
  | succ n ih =>
    intro d h
    rw [parseStatusReport]
    by_cases hloop : d < 6 + el ∧ d < ri
    · rw [dif_pos hloop]
      have h1 := ih (d + 4 + 1) (by omega)
      have h4 := ih (d + 4 + 4) (by omega)
      have hl := fun l => ih (d + 4 + l) (by omega)
      simp only []
      split_ifs <;> simp [packets, packets_append, h1, h4, hl]
    · rw [dif_neg hloop]
      rfl

theorem completeFrame_packets (zc : Bool) (now : Nat) (t : TuyaProtocol) :
    packets (completeFrame zc now t).2
      = if t.currentCmd = TUYA_CMD_NETWORK_STATUS then
          [sendNetworkStatus (if zc then NETWORK_STATUS_CONNECTED
            else NETWORK_STATUS_DISCONNECTED)]
        else [] := by
  unfold completeFrame
  simp only []
  split_ifs <;>
    simp_all [packets, parseStatusReport_packets _ _ _ _ _ _ (Nat.le_refl _)]

theorem processByte_packets (zc : Bool) (now : Nat) (s : TuyaProtocol) (b : Nat) :
    packets (processByte zc now s b).2
      = (frames (processByte zc now s b).2).filterMap fun f =>
          if f.1 = TUYA_CMD_NETWORK_STATUS then
            some (sendNetworkStatus (if zc then NETWORK_STATUS_CONNECTED
              else NETWORK_STATUS_DISCONNECTED))
          else none := by
  cases hst : s.rxState
  case WAIT_DATA_AND_CHECKSUM =>
    simp only [processByte, hst]
    by_cases hlt : s.rxIndex < TUYA_RX_BUFFER_SIZE
    · rw [if_pos hlt]
      by_cases hdone : (s.push (b % 256)).rxIndex ≥ 6 + (s.push (b % 256)).expectedLen + 1
      · rw [if_pos hdone]
        simp only []
        rw [packets_store, frames_store, completeFrame_packets, completeFrame_frames]
        by_cases hc : (s.push (b % 256)).currentCmd = TUYA_CMD_NETWORK_STATUS
        · simp only [List.filterMap_cons, List.filterMap_nil, hc, if_true]
        · simp only [List.filterMap_cons, List.filterMap_nil, hc, if_false]
      · rw [if_neg hdone]
        rfl
    · rw [if_neg hlt]
      rfl
  all_goals
    simp only [processByte, hst]
    (try split_ifs) <;> rfl

theorem processResponse_packets (zc : Bool) (now : Nat) (input : List Nat) :
    ∀ s : TuyaProtocol,
      packets (processResponse zc now s input).2
        = (frames (processResponse zc now s input).2).filterMap fun f =>
            if f.1 = TUYA_CMD_NETWORK_STATUS then
              some (sendNetworkStatus (if zc then NETWORK_STATUS_CONNECTED
                else NETWORK_STATUS_DISCONNECTED))
            else none := by
  induction input with
  | nil => intro s; rfl
  | cons b bs ih =>
    intro s
    simp only [processResponse, packets_append, frames_append, List.filterMap_append,
      processByte_packets, ih]

/-- C19. Network-status reply: the packets that `processResponse(zigbeeConnected)`
transmits are, in order, one network-status frame for every completed frame with command
`0x03` and nothing for any other completed frame; the reply follows the completion at
once; it is `55 AA 03 03 00 01 05 0C` when `zigbeeConnected` is true and
`55 AA 03 03 00 01 03 0A` when it is false. -/
theorem network_status_reply (zc : Bool) (now : Nat) (s : TuyaProtocol) (input : List Nat) :
    packets (processResponse zc now s input).2
        = ((frames (processResponse zc now s input).2).filterMap fun f =>
            if f.1 = 0x03 then some (sendNetworkStatus (if zc then 0x05 else 0x03))
            else none)
    ∧ (∀ t : TuyaProtocol, (completeFrame zc now { t with currentCmd := 0x03 }).2
        = [Effect.frame 0x03 t.expectedLen
              ((List.range t.expectedLen).map fun i => t.rxBuffer (6 + i)),
            Effect.transmit (sendNetworkStatus (if zc then 0x05 else 0x03))])
    ∧ sendNetworkStatus 0x05 = sendCommand 0x03 [0x05] 1
    ∧ sendNetworkStatus 0x05 = [0x55, 0xAA, 0x03, 0x03, 0x00, 0x01, 0x05, 0x0C]
    ∧ sendNetworkStatus 0x03 = sendCommand 0x03 [0x03] 1
    ∧ sendNetworkStatus 0x03 = [0x55, 0xAA, 0x03, 0x03, 0x00, 0x01, 0x03, 0x0A] := by
  refine ⟨processResponse_packets zc now input s, ?_, rfl, by decide, rfl, by decide⟩
  intro t
  simp [completeFrame]

/-! ## The periodic tick -/

theorem processByte_static (zc : Bool) (now : Nat) (s : TuyaProtocol) (b : Nat) :
    (processByte zc now s b).1.lastHeartbeatSent = s.lastHeartbeatSent
    ∧ (processByte zc now s b).1.lastZigbeeState = s.lastZigbeeState
    ∧ (processByte zc now s b).1.firstRun = s.firstRun := by
  obtain ⟨lh, tc, cb, st, buf, ri, el, cmd, lhs, lz, fr⟩ := s
  cases st <;>
    simp only [processByte, TuyaProtocol.push, completeFrame] <;>
    (try split_ifs) <;> simp

theorem processResponse_static (zc : Bool) (now : Nat) (input : List Nat) :
    ∀ s : TuyaProtocol,
      (processResponse zc now s input).1.lastHeartbeatSent = s.lastHeartbeatSent
      ∧ (processResponse zc now s input).1.lastZigbeeState = s.lastZigbeeState
      ∧ (processResponse zc now s input).1.firstRun = s.firstRun := by
  induction input with
  | nil => intro s; exact ⟨rfl, rfl, rfl⟩
  | cons b bs ih =>
    intro s
    obtain ⟨h1, h2, h3⟩ := processByte_static zc now s b
    obtain ⟨k1, k2, k3⟩ := ih (processByte zc now s b).1
    simp only [processResponse]
    exact ⟨k1.trans h1, k2.trans h2, k3.trans h3⟩

theorem update_effects (zc : Bool) (now : Nat) (s : TuyaProtocol) (input : List Nat) :
    (update zc now s input).2
        = (processResponse zc now s input).2
          ++ (if elapsed now s.lastHeartbeatSent > TUYA_HEARTBEAT_INTERVAL_MS then
                [Effect.transmit sendHeartbeat] else [])
          ++ (if s.firstRun = true ∨ s.lastZigbeeState ≠ zc then
                [Effect.transmit (sendNetworkStatus
                  (if zc then NETWORK_STATUS_CONNECTED else NETWORK_STATUS_DISCONNECTED))]
              else []) := by
  obtain ⟨h1, h2, h3⟩ := processResponse_static zc now input s
  unfold update
  simp only [h1]
  split_ifs <;> simp_all

theorem update_lastHeartbeatSent (zc : Bool) (now : Nat) (s : TuyaProtocol)
    (input : List Nat) :
    (update zc now s input).1.lastHeartbeatSent
        = (if elapsed now s.lastHeartbeatSent > TUYA_HEARTBEAT_INTERVAL_MS then now
            else s.lastHeartbeatSent) := by
  obtain ⟨h1, h2, h3⟩ := processResponse_static zc now input s
  unfold update
  simp only [h1]
  split_ifs <;> simp_all

theorem update_announced (zc : Bool) (now : Nat) (s : TuyaProtocol) (input : List Nat) :
    (update zc now s input).1.firstRun = false
    ∧ (update zc now s input).1.lastZigbeeState = zc := by
  unfold update
  simp only []
  split_ifs <;> simp_all

theorem update_connected (zc : Bool) (now : Nat) (s : TuyaProtocol) (input : List Nat) :
    (update zc now s input).1.tuyaConnected
        = ((processResponse zc now s input).1.tuyaConnected
            && !decide (elapsed now (processResponse zc now s input).1.lastHeartbeat
                  > TUYA_CONNECTION_TIMEOUT_MS))
    ∧ (update zc now s input).1.lastHeartbeat
        = (processResponse zc now s input).1.lastHeartbeat := by
  unfold update
  simp only []
  split_ifs <;> simp_all

theorem networkStatusPackets_append (a b : List Effect) :
    networkStatusPackets (a ++ b) = networkStatusPackets a ++ networkStatusPackets b := by
  simp [networkStatusPackets, packets_append]

theorem networkStatusPackets_heartbeat :
    networkStatusPackets [Effect.transmit sendHeartbeat] = [] := by
  decide

theorem networkStatusPackets_status (zc : Bool) :
    networkStatusPackets [Effect.transmit (sendNetworkStatus
        (if zc then NETWORK_STATUS_CONNECTED else NETWORK_STATUS_DISCONNECTED))]
      = [sendNetworkStatus (if zc then NETWORK_STATUS_CONNECTED
          else NETWORK_STATUS_DISCONNECTED)] := by
  cases zc <;> decide

theorem update_networkStatus (zc : Bool) (now : Nat) (s : TuyaProtocol) :
    networkStatusPackets (update zc now s []).2
      = if s.firstRun = true ∨ s.lastZigbeeState ≠ zc then
          [sendNetworkStatus (if zc then NETWORK_STATUS_CONNECTED
            else NETWORK_STATUS_DISCONNECTED)]
        else [] := by
  rw [update_effects]
  simp only [processResponse, List.nil_append, networkStatusPackets_append]
  have hb : networkStatusPackets
      (if elapsed now s.lastHeartbeatSent > TUYA_HEARTBEAT_INTERVAL_MS then
        [Effect.transmit sendHeartbeat] else []) = [] := by
    split_ifs
    · exact networkStatusPackets_heartbeat
    · rfl
  rw [hb, List.nil_append]
  by_cases ha : s.firstRun = true ∨ s.lastZigbeeState ≠ zc
  · rw [if_pos ha, if_pos ha]
    exact networkStatusPackets_status zc
  · rw [if_neg ha, if_neg ha]
    rfl

/-- C18. Edge-triggered announcement: with no inbound bytes, the first call of `update`
on a freshly constructed object transmits exactly one network-status frame, for either
value of the upstream-connectivity flag; every later call transmits one network-status
frame if the flag differs from the value passed to the previous call and none if it is the
same. -/
theorem network_status_edge_triggered (buf : Nat → Nat) (z1 z2 : Bool) (n1 n2 : Nat)
    (s : TuyaProtocol) (input : List Nat) :
    networkStatusPackets (update z1 n1 (TuyaProtocol.new buf) []).2
        = [sendNetworkStatus (if z1 then 0x05 else 0x03)]
    ∧ networkStatusPackets (update z2 n2 (update z1 n1 s input).1 []).2
        = (if z2 = z1 then [] else [sendNetworkStatus (if z2 then 0x05 else 0x03)])
    ∧ networkStatusPackets (update z1 n2 (update z1 n1 (TuyaProtocol.new buf) []).1 []).2
        = [] := by
  have key : ∀ (t : TuyaProtocol) (inp : List Nat),
      networkStatusPackets (update z2 n2 (update z1 n1 t inp).1 []).2
        = (if z2 = z1 then [] else [sendNetworkStatus (if z2 then 0x05 else 0x03)]) := by
    intro t inp
    obtain ⟨h1, h2⟩ := update_announced z1 n1 t inp
    rw [update_networkStatus, h1, h2]
    by_cases hz : z2 = z1
    · rw [if_pos hz, if_neg (by simp [hz])]
    · rw [if_neg hz, if_pos (Or.inr (fun h => hz h.symm))]
  refine ⟨?_, key s input, ?_⟩
  · rw [update_networkStatus,
      if_pos (show (TuyaProtocol.new buf).firstRun = true
        ∨ (TuyaProtocol.new buf).lastZigbeeState ≠ z1 from Or.inl rfl)]
  · obtain ⟨h1, h2⟩ := update_announced z1 n1 (TuyaProtocol.new buf) []
    rw [update_networkStatus, h1, h2, if_neg (by simp)]

theorem runTicks_quiet (ticks : List (Bool × Nat)) :
    ∀ s : TuyaProtocol,
      (runTicks s (quiet ticks)).tuyaConnected
        = (s.tuyaConnected && ticks.all fun t =>
            !decide (elapsed t.2 s.lastHeartbeat > TUYA_CONNECTION_TIMEOUT_MS))
      ∧ (runTicks s (quiet ticks)).lastHeartbeat = s.lastHeartbeat := by
  induction ticks with
  | nil => intro s; simp [runTicks, quiet]
  | cons t ts ih =>
    intro s
    obtain ⟨h1, h2⟩ := update_connected t.1 t.2 s []
    simp only [processResponse] at h1 h2
    obtain ⟨k1, k2⟩ := ih (update t.1 t.2 s []).1
    have hq : quiet (t :: ts) = (t.1, t.2, []) :: quiet ts := rfl
    rw [hq, runTicks, k1, k2, h1, h2]
    simp [Bool.and_assoc]

theorem elapsed_sub (now since : Nat) (h1 : since ≤ now) (h2 : now < 4294967296) :
    elapsed now since = now - since := by
  unfold elapsed
  omega

theorem connected_after_ticks (s : TuyaProtocol) (t0 : Nat) (pre : List (Bool × Nat))
    (z : Bool) (t : Nat)
    (hconn : s.tuyaConnected = true) (hlast : s.lastHeartbeat = t0)
    (hpre : ∀ x ∈ pre, t0 ≤ x.2 ∧ x.2 < t) (ht0 : t0 ≤ t) (ht : t < 4294967296) :
    isConnected (runTicks s (quiet (pre ++ [(z, t)]))) = decide (t - t0 ≤ 30000) := by
  rw [isConnected, (runTicks_quiet (pre ++ [(z, t)]) s).1, hconn, hlast, Bool.true_and]
  rw [Bool.eq_iff_iff]
  simp only [List.all_eq_true, Bool.not_eq_true', decide_eq_false_iff_not,
    decide_eq_true_eq, List.mem_append, List.mem_singleton]
  constructor
  · intro h
    have := h (z, t) (Or.inr rfl)
    rw [elapsed_sub t t0 ht0 ht] at this
    simp only [TUYA_CONNECTION_TIMEOUT_MS] at this
    omega
  · intro h x hx
    rcases hx with hx | rfl
    · obtain ⟨a, b⟩ := hpre x hx
      rw [elapsed_sub x.2 t0 a (by omega)]
      simp only [TUYA_CONNECTION_TIMEOUT_MS]
      omega
    · rw [elapsed_sub t t0 ht0 ht]
      simp only [TUYA_CONNECTION_TIMEOUT_MS]
      omega

theorem sorted_split (ticks pre suf : List (Bool × Nat)) (z : Bool) (t : Nat)
    (hsorted : (ticks.map (·.2)).Pairwise (· < ·)) (hsplit : ticks = pre ++ (z, t) :: suf) :
    (∀ x ∈ pre, x.2 < t) ∧ (∀ x ∈ suf, t < x.2) := by
  subst hsplit
  rw [List.map_append, List.map_cons, List.pairwise_append] at hsorted
  obtain ⟨_, h2, h3⟩ := hsorted
  rw [List.pairwise_cons] at h2
  refine ⟨fun x hx => h3 x.2 (List.mem_map_of_mem _ hx) t (List.mem_cons_self _ _), ?_⟩
  intro x hx
  exact h2.1 x.2 (List.mem_map_of_mem _ hx)

/-- C17. Liveness timeout: from a state with `connected = true` and last heartbeat at
`t0`, for every increasing sequence of tick times (values of `millis()` not before `t0`)
with no inbound bytes, after the tick at time `t` the connected flag is true exactly
when `t - t0 <= 30000`; hence once a tick has found it false every later tick finds it
false, and it changes from true to false at one tick only. -/
theorem liveness_timeout (s : TuyaProtocol) (t0 : Nat) (ticks : List (Bool × Nat))
    (hconn : s.tuyaConnected = true) (hlast : s.lastHeartbeat = t0)
    (hsorted : (ticks.map (·.2)).Pairwise (· < ·))
    (hrange : ∀ x ∈ ticks, t0 ≤ x.2 ∧ x.2 < 4294967296) :
    (∀ pre z t suf, ticks = pre ++ (z, t) :: suf →
        isConnected (runTicks s (quiet (pre ++ [(z, t)]))) = decide (t - t0 ≤ 30000))
    ∧ (∀ pre z t mid y u suf, ticks = pre ++ (z, t) :: (mid ++ (y, u) :: suf) →
        isConnected (runTicks s (quiet (pre ++ [(z, t)]))) = false →
        isConnected (runTicks s (quiet (pre ++ (z, t) :: (mid ++ [(y, u)])))) = false) := by
  have main : ∀ pre z t suf, ticks = pre ++ (z, t) :: suf →
      isConnected (runTicks s (quiet (pre ++ [(z, t)]))) = decide (t - t0 ≤ 30000) := by
    intro pre z t suf hsplit
    have hmem : (z, t) ∈ ticks := by rw [hsplit]; simp
    obtain ⟨ht0, ht⟩ := hrange (z, t) hmem
    refine connected_after_ticks s t0 pre z t hconn hlast ?_ ht0 ht
    intro x hx
    have hxm : x ∈ ticks := by rw [hsplit]; simp [hx]
    exact ⟨(hrange x hxm).1, (sorted_split ticks pre suf z t hsorted hsplit).1 x hx⟩
  refine ⟨main, ?_⟩
  intro pre z t mid y u suf hsplit hfalse
  have h1 := main pre z t (mid ++ (y, u) :: suf) hsplit
  have hsplit2 : ticks = (pre ++ (z, t) :: mid) ++ (y, u) :: suf := by
    rw [hsplit]; simp
  have h2 := main (pre ++ (z, t) :: mid) y u suf hsplit2
  have hlt : t < u :=
    (sorted_split ticks pre (mid ++ (y, u) :: suf) z t hsorted hsplit).2 (y, u) (by simp)
  have e : pre ++ (z, t) :: (mid ++ [(y, u)]) = (pre ++ (z, t) :: mid) ++ [(y, u)] := by
    simp
  rw [e, h2]
  rw [h1] at hfalse
  simp only [decide_eq_false_iff_not] at hfalse ⊢
  omega

/-- Witness for C17: a heartbeat frame is completed at time 1000, then ticks follow at
times 2000, 31000 and 31001; the link is reported lost at the last of them. -/
theorem liveness_timeout_witness :
    isConnected (runTicks (processResponse true 1000 (TuyaProtocol.new fun _ => 0)
        sendHeartbeat).1 (quiet [(true, 2000), (true, 31000)])) = true
    ∧ isConnected (runTicks (processResponse true 1000 (TuyaProtocol.new fun _ => 0)
        sendHeartbeat).1 (quiet [(true, 2000), (true, 31000), (true, 31001)])) = false :=
  ⟨(liveness_timeout (processResponse true 1000 (TuyaProtocol.new fun _ => 0)
        sendHeartbeat).1 1000 [(true, 2000), (true, 31000), (true, 31001)] rfl rfl
      (by decide) (by decide)).1 [(true, 2000)] true 31000 [(true, 31001)] rfl,
   (liveness_timeout (processResponse true 1000 (TuyaProtocol.new fun _ => 0)
        sendHeartbeat).1 1000 [(true, 2000), (true, 31000), (true, 31001)] rfl rfl
      (by decide) (by decide)).1 [(true, 2000), (true, 31000)] true 31001 [] rfl⟩

theorem status_ne_heartbeat (zc : Bool) :
    sendNetworkStatus (if zc then NETWORK_STATUS_CONNECTED else NETWORK_STATUS_DISCONNECTED)
      ≠ sendHeartbeat := by
  cases zc <;> decide

theorem heartbeat_not_in_processResponse (zc : Bool) (now : Nat) (s : TuyaProtocol)
    (input : List Nat) : sendHeartbeat ∉ packets (processResponse zc now s input).2 := by
  rw [processResponse_packets]
  intro h
  rw [List.mem_filterMap] at h
  obtain ⟨f, _, hf⟩ := h
  by_cases hc : f.1 = TUYA_CMD_NETWORK_STATUS
  · rw [if_pos hc] at hf
    exact status_ne_heartbeat zc (Option.some.inj hf)
  · rw [if_neg hc] at hf
    exact Option.noConfusion hf

theorem update_heartbeat_count (zc : Bool) (now : Nat) (s : TuyaProtocol)
    (input : List Nat) :
    (packets (update zc now s input).2).count sendHeartbeat
      = if elapsed now s.lastHeartbeatSent > TUYA_HEARTBEAT_INTERVAL_MS then 1 else 0 := by
  rw [update_effects, packets_append, packets_append, List.count_append, List.count_append,
    List.count_eq_zero_of_not_mem (heartbeat_not_in_processResponse zc now s input)]
  have h3 : (packets (if s.firstRun = true ∨ s.lastZigbeeState ≠ zc then
        [Effect.transmit (sendNetworkStatus
          (if zc then NETWORK_STATUS_CONNECTED else NETWORK_STATUS_DISCONNECTED))]
      else [])).count sendHeartbeat = 0 := by
    apply List.count_eq_zero_of_not_mem
    by_cases ha : s.firstRun = true ∨ s.lastZigbeeState ≠ zc
    · rw [if_pos ha]
      simp only [packets, List.mem_singleton]
      exact fun h => status_ne_heartbeat zc h.symm
    · rw [if_neg ha]
      simp [packets]
  rw [h3]
  by_cases hb : elapsed now s.lastHeartbeatSent > TUYA_HEARTBEAT_INTERVAL_MS
  · rw [if_pos hb, if_pos hb]
    simp [packets]
  · rw [if_neg hb, if_neg hb]
    simp [packets]

theorem update_heartbeat_iff (zc : Bool) (now : Nat) (s : TuyaProtocol) (input : List Nat) :
    sendHeartbeat ∈ packets (update zc now s input).2
      ↔ elapsed now s.lastHeartbeatSent > TUYA_HEARTBEAT_INTERVAL_MS := by
  rw [← List.count_pos_iff, update_heartbeat_count]
  split_ifs with h
  · simp [h]
  · simp [h]

theorem heartbeatTimes_chain (ticks : List (Bool × Nat × List Nat)) :
    ∀ s : TuyaProtocol,
      List.Chain (fun a b => elapsed b a > TUYA_HEARTBEAT_INTERVAL_MS) s.lastHeartbeatSent
        (heartbeatTimes s ticks) := by
  induction ticks with
  | nil => intro s; exact List.Chain.nil
  | cons t ts ih =>
    intro s
    obtain ⟨zc, now, input⟩ := t
    have hnext := ih (update zc now s input).1
    rw [update_lastHeartbeatSent] at hnext
    simp only [heartbeatTimes]
    by_cases hb : elapsed now s.lastHeartbeatSent > TUYA_HEARTBEAT_INTERVAL_MS
    · rw [if_pos hb] at hnext
      rw [if_pos ((update_heartbeat_iff zc now s input).mpr hb)]
      exact List.Chain.cons hb hnext
    · rw [if_neg hb] at hnext
      rw [if_neg (fun h => hb ((update_heartbeat_iff zc now s input).mp h))]
      exact hnext

/-- C20. Periodic keepalive: a call of `update` at time `now` transmits the heartbeat
frame `55 AA 03 00 00 00 03`, once, if and only if `now - lastSent > 10000` in 32-bit
arithmetic, whatever the connected flag, the upstream-connectivity flag and the bytes
read; `lastSent` is 0 initially and becomes `now` at each transmission; so the times of
consecutive heartbeat transmissions are more than 10000 ms apart. -/
theorem heartbeat_keepalive (zc : Bool) (now : Nat) (s : TuyaProtocol) (input : List Nat)
    (buf : Nat → Nat) (ticks : List (Bool × Nat × List Nat)) :
    (sendHeartbeat ∈ packets (update zc now s input).2
        ↔ elapsed now s.lastHeartbeatSent > 10000)
    ∧ (packets (update zc now s input).2).count sendHeartbeat
        = (if elapsed now s.lastHeartbeatSent > 10000 then 1 else 0)
    ∧ (update zc now s input).1.lastHeartbeatSent
        = (if elapsed now s.lastHeartbeatSent > 10000 then now else s.lastHeartbeatSent)
    ∧ (TuyaProtocol.new buf).lastHeartbeatSent = 0
    ∧ sendHeartbeat = [0x55, 0xAA, 0x03, 0x00, 0x00, 0x00, 0x03]
    ∧ elapsed now s.lastHeartbeatSent
        = (now % 4294967296 + 4294967296 - s.lastHeartbeatSent % 4294967296) % 4294967296
    ∧ List.Chain (fun a b => elapsed b a > 10000) s.lastHeartbeatSent
        (heartbeatTimes s ticks) :=
  ⟨update_heartbeat_iff zc now s input, update_heartbeat_count zc now s input,
   update_lastHeartbeatSent zc now s input, rfl, sendHeartbeat_eq, rfl,
   heartbeatTimes_chain ticks s⟩

/-! ## The checksum byte and liveness -/

theorem completeFrame_liveness (zc : Bool) (now : Nat) (t : TuyaProtocol) :
    (completeFrame zc now t).1.tuyaConnected
        = (if t.currentCmd = TUYA_CMD_HEARTBEAT then true else t.tuyaConnected)
    ∧ (completeFrame zc now t).1.lastHeartbeat
        = (if t.currentCmd = TUYA_CMD_HEARTBEAT then now else t.lastHeartbeat) := by
  unfold completeFrame
  simp only [TUYA_CMD_STATUS_REPORT, TUYA_CMD_HEARTBEAT, TUYA_CMD_NETWORK_STATUS]
  split_ifs <;> simp_all

theorem storeBytes_last (buf : Nat → Nat) (k : Nat) (l : List Nat) (a b i : Nat)
    (hne : i ≠ k + l.length) :
    storeBytes buf k (l ++ [a]) i = storeBytes buf k (l ++ [b]) i := by
  rw [storeBytes_append, storeBytes_append]
  simp only [storeBytes]
  rw [Function.update_noteq hne, Function.update_noteq hne]

theorem received_elsewhere (s : TuyaProtocol) (v c hi lo : Nat) (q : List Nat)
    (cs1 cs2 : Nat) (i : Nat) (hne : i ≠ 6 + q.length) :
    (received s v c hi lo q cs1).rxBuffer i = (received s v c hi lo q cs2).rxBuffer i := by
  simp only [received, List.map_append, List.map_cons, List.map_nil]
  exact storeBytes_last _ _ _ _ _ _ (by simp; omega)

/-- C21. Checksum received but not verified: for a header `0x55 0xAA v c hi lo` declaring
at most 249 payload bytes and a payload `q` of that length, fed to a receiver waiting for a
header with `rxIndex = 0`, and any two checksum bytes `cs1`, `cs2`: no frame is completed
before the checksum byte; with either checksum byte the frame completes on that byte with
the same command, declared length and payload, so it is routed to the same handler; the
transmitted packets, `tuyaConnected` and `lastHeartbeat` are the same; and the receiver
state afterwards is the same: `rxState`, `rxIndex` (0), `expectedLen`, `currentCmd` and
the buffer contents below `rxIndex`.  The two buffers agree at every index other than
`6 + |q|`, the stale cell above `rxIndex` in which the checksum byte itself was stored. -/
theorem checksum_not_verified (zc : Bool) (now : Nat) (s : TuyaProtocol) (v c hi lo : Nat)
    (q : List Nat) (cs1 cs2 : Nat)
    (hs : s.rxState = TuyaProtocolState.WAIT_HEADER_1) (h0 : s.rxIndex = 0)
    (hq : q.length = hi % 256 * 256 + lo % 256) (hL : q.length ≤ 249) :
    frames (processResponse zc now s ([0x55, 0xAA, v, c, hi, lo] ++ q)).2 = []
    ∧ frames (processResponse zc now s ([0x55, 0xAA, v, c, hi, lo] ++ q ++ [cs1])).2
        = [(c % 256, q.length, q.map (· % 256))]
    ∧ frames (processResponse zc now s ([0x55, 0xAA, v, c, hi, lo] ++ q ++ [cs2])).2
        = [(c % 256, q.length, q.map (· % 256))]
    ∧ packets (processResponse zc now s ([0x55, 0xAA, v, c, hi, lo] ++ q ++ [cs1])).2
        = packets (processResponse zc now s ([0x55, 0xAA, v, c, hi, lo] ++ q ++ [cs2])).2
    ∧ (processResponse zc now s ([0x55, 0xAA, v, c, hi, lo] ++ q ++ [cs1])).1.tuyaConnected
        = (processResponse zc now s
            ([0x55, 0xAA, v, c, hi, lo] ++ q ++ [cs2])).1.tuyaConnected
    ∧ (processResponse zc now s ([0x55, 0xAA, v, c, hi, lo] ++ q ++ [cs1])).1.lastHeartbeat
        = (processResponse zc now s
            ([0x55, 0xAA, v, c, hi, lo] ++ q ++ [cs2])).1.lastHeartbeat
    ∧ (processResponse zc now s ([0x55, 0xAA, v, c, hi, lo] ++ q ++ [cs1])).1.rxState
        = (processResponse zc now s ([0x55, 0xAA, v, c, hi, lo] ++ q ++ [cs2])).1.rxState
    ∧ (processResponse zc now s ([0x55, 0xAA, v, c, hi, lo] ++ q ++ [cs1])).1.rxIndex
        = (processResponse zc now s ([0x55, 0xAA, v, c, hi, lo] ++ q ++ [cs2])).1.rxIndex
    ∧ (processResponse zc now s ([0x55, 0xAA, v, c, hi, lo] ++ q ++ [cs1])).1.expectedLen
        = (processResponse zc now s ([0x55, 0xAA, v, c, hi, lo] ++ q ++ [cs2])).1.expectedLen
    ∧ (processResponse zc now s ([0x55, 0xAA, v, c, hi, lo] ++ q ++ [cs1])).1.currentCmd
        = (processResponse zc now s ([0x55, 0xAA, v, c, hi, lo] ++ q ++ [cs2])).1.currentCmd
    ∧ (∀ i, i < (processResponse zc now s
          ([0x55, 0xAA, v, c, hi, lo] ++ q ++ [cs1])).1.rxIndex →
        (processResponse zc now s ([0x55, 0xAA, v, c, hi, lo] ++ q ++ [cs1])).1.rxBuffer i
          = (processResponse zc now s
              ([0x55, 0xAA, v, c, hi, lo] ++ q ++ [cs2])).1.rxBuffer i)
    ∧ ∀ i, i ≠ 6 + q.length →
        (processResponse zc now s ([0x55, 0xAA, v, c, hi, lo] ++ q ++ [cs1])).1.rxBuffer i
          = (processResponse zc now s
              ([0x55, 0xAA, v, c, hi, lo] ++ q ++ [cs2])).1.rxBuffer i := by
  have hpart := recv_frame_partial zc now s v c hi lo q cs1 hs h0 hq hL
    ([0x55, 0xAA, v, c, hi, lo] ++ q) [cs1] rfl (by simp)
  have hf1 := recv_frame_frames zc now s v c hi lo q cs1 hs h0 hq hL
  have hf2 := recv_frame_frames zc now s v c hi lo q cs2 hs h0 hq hL
  have hp : packets (processResponse zc now s ([0x55, 0xAA, v, c, hi, lo] ++ q ++ [cs1])).2
      = packets (processResponse zc now s ([0x55, 0xAA, v, c, hi, lo] ++ q ++ [cs2])).2 := by
    rw [processResponse_packets, processResponse_packets, hf1, hf2]
  refine ⟨hpart, hf1, hf2, hp, ?_⟩
  rw [recv_frame zc now s v c hi lo q cs1 hs h0 hq hL,
    recv_frame zc now s v c hi lo q cs2 hs h0 hq hL]
  obtain ⟨a1, a2, a3, a4, a5, _⟩ := completeFrame_state zc now (received s v c hi lo q cs1)
  obtain ⟨b1, b2, b3, b4, b5, _⟩ := completeFrame_state zc now (received s v c hi lo q cs2)
  obtain ⟨a6, a7⟩ := completeFrame_liveness zc now (received s v c hi lo q cs1)
  obtain ⟨b6, b7⟩ := completeFrame_liveness zc now (received s v c hi lo q cs2)
  simp only [a1, a2, a3, a4, a5, a6, a7, b1, b2, b3, b4, b5, b6, b7]
  refine ⟨rfl, rfl, trivial, trivial, trivial, rfl, ?_, ?_⟩
  · intro i hlt
    exact absurd hlt (Nat.not_lt_zero i)
  · intro i hne
    exact received_elsewhere s v c hi lo q cs1 cs2 i hne


/-- Witness for C21: a heartbeat frame with the right checksum `0x03` and with the wrong
checksum `0xFF` completes the same frame and leaves the same `tuyaConnected`. -/
theorem checksum_not_verified_witness :
    frames (processResponse true 5 (TuyaProtocol.new fun _ => 0)
        ([0x55, 0xAA, 0x03, 0x00, 0x00, 0x00] ++ [] ++ [0x03])).2
      = [(0x00 % 256, ([] : List Nat).length, ([] : List Nat).map (· % 256))]
    ∧ frames (processResponse true 5 (TuyaProtocol.new fun _ => 0)
        ([0x55, 0xAA, 0x03, 0x00, 0x00, 0x00] ++ [] ++ [0xFF])).2
      = [(0x00 % 256, ([] : List Nat).length, ([] : List Nat).map (· % 256))]
    ∧ (processResponse true 5 (TuyaProtocol.new fun _ => 0)
        ([0x55, 0xAA, 0x03, 0x00, 0x00, 0x00] ++ [] ++ [0x03])).1.tuyaConnected
      = (processResponse true 5 (TuyaProtocol.new fun _ => 0)
        ([0x55, 0xAA, 0x03, 0x00, 0x00, 0x00] ++ [] ++ [0xFF])).1.tuyaConnected :=
  ⟨(checksum_not_verified true 5 (TuyaProtocol.new fun _ => 0) 0x03 0x00 0x00 0x00 []
      0x03 0xFF rfl rfl (by decide) (by decide)).2.1,
   (checksum_not_verified true 5 (TuyaProtocol.new fun _ => 0) 0x03 0x00 0x00 0x00 []
      0x03 0xFF rfl rfl (by decide) (by decide)).2.2.1,
   (checksum_not_verified true 5 (TuyaProtocol.new fun _ => 0) 0x03 0x00 0x00 0x00 []
      0x03 0xFF rfl rfl (by decide) (by decide)).2.2.2.2.1⟩


/-- C22. Liveness is driven by heartbeat frames only: every byte either completes no frame
or completes exactly one; a byte that completes a frame with command `0x00` sets
`tuyaConnected` to true and `lastHeartbeat` to the current time; a byte that completes a
frame with any other command (status reports included) and a byte that completes no frame
leave `tuyaConnected` and `lastHeartbeat` unchanged. -/
theorem heartbeat_only_liveness (zc : Bool) (now : Nat) (s : TuyaProtocol) (b : Nat) :
    (frames (processByte zc now s b).2 = []
      ∨ ∃ c l p, frames (processByte zc now s b).2 = [(c, l, p)])
    ∧ (∀ c l p, frames (processByte zc now s b).2 = [(c, l, p)] → c = TUYA_CMD_HEARTBEAT →
        (processByte zc now s b).1.tuyaConnected = true
        ∧ (processByte zc now s b).1.lastHeartbeat = now)
    ∧ (∀ c l p, frames (processByte zc now s b).2 = [(c, l, p)] → c ≠ TUYA_CMD_HEARTBEAT →
        (processByte zc now s b).1.tuyaConnected = s.tuyaConnected
        ∧ (processByte zc now s b).1.lastHeartbeat = s.lastHeartbeat)
    ∧ (frames (processByte zc now s b).2 = [] →
        (processByte zc now s b).1.tuyaConnected = s.tuyaConnected
        ∧ (processByte zc now s b).1.lastHeartbeat = s.lastHeartbeat) := by
  cases hst : s.rxState
  case WAIT_DATA_AND_CHECKSUM =>
    simp only [processByte, hst]
    by_cases hlt : s.rxIndex < TUYA_RX_BUFFER_SIZE
    · rw [if_pos hlt]
      by_cases hdone : (s.push (b % 256)).rxIndex ≥ 6 + (s.push (b % 256)).expectedLen + 1
      · rw [if_pos hdone]
        simp only []
        rw [frames_store, completeFrame_frames]
        obtain ⟨hc, hh⟩ := completeFrame_liveness zc now (s.push (b % 256))
        rw [hc, hh]
        refine ⟨Or.inr ⟨_, _, _, rfl⟩, ?_, ?_, ?_⟩
        · intro c l p heq hcmd
          simp only [List.cons.injEq, Prod.mk.injEq, and_true] at heq
          rw [if_pos (heq.1.trans hcmd), if_pos (heq.1.trans hcmd)]
          exact ⟨rfl, rfl⟩
        · intro c l p heq hcmd
          simp only [List.cons.injEq, Prod.mk.injEq, and_true] at heq
          have hne : ¬ (s.push (b % 256)).currentCmd = TUYA_CMD_HEARTBEAT :=
            fun h => hcmd (heq.1.symm.trans h)
          rw [if_neg hne, if_neg hne]
          exact ⟨rfl, rfl⟩
        · intro h; simp at h
      · rw [if_neg hdone]
        simp [frames, TuyaProtocol.push]
    · rw [if_neg hlt]
      simp [frames]
  all_goals
    simp only [processByte, hst]
    (try split_ifs) <;> simp [frames, TuyaProtocol.push]


/-! ## Bounds of the decoder reads -/

theorem readIndices_append (a b : List Effect) :
    readIndices (a ++ b) = readIndices a ++ readIndices b := by
  induction a with
  | nil => rfl
  | cons e es ih => cases e <;> simp [readIndices, ih]

theorem parseStatusReport_reads (cb : Bool) (buf : Nat → Nat) (ri el : Nat) :
    ∀ n d, ri - d ≤ n → ∀ i ∈ readIndices (parseStatusReport cb buf ri el d), i < ri := by
  intro n
  induction n with
  | zero =>
    intro d h i hi
    rw [parseStatusReport, dif_neg (by omega)] at hi
    simp [readIndices] at hi
  | succ n ih =>
    intro d h i hi
    rw [parseStatusReport] at hi
    by_cases hloop : d < 6 + el ∧ d < ri
    · rw [dif_pos hloop] at hi
      have h1 := ih (d + 4 + 1) (by omega) i
      have h4 := ih (d + 4 + 4) (by omega) i
      have hl := fun l => ih (d + 4 + l) (by omega) i
      simp only [] at hi
      generalize ((buf (d + 2) <<< 8) ||| buf (d + 3)) % 65536 = L at hi
      split_ifs at hi with ha hb hc hd <;>
        simp [readIndices, readIndices_append] at hi
      all_goals
        first
        | omega
        | (rcases hi with hi | hi | hi | hi <;> omega)
        | (rcases hi with hi | hi | hi | hi | hi <;> first | omega | exact hl _ hi)
        | (rcases hi with hi | hi | hi | hi | hi | hi <;> first | omega | exact h1 hi)
        | (rcases hi with hi | hi | hi | hi | hi | hi | hi | hi | hi <;>
            first | omega | exact h4 hi)
    · rw [dif_neg hloop] at hi
      simp [readIndices] at hi


theorem completeFrame_reads (zc : Bool) (now : Nat) (t : TuyaProtocol) :
    ∀ i ∈ readIndices (completeFrame zc now t).2, i < t.rxIndex := by
  intro i hi
  unfold completeFrame at hi
  simp only [] at hi
  split_ifs at hi <;> simp [readIndices] at hi
  exact parseStatusReport_reads _ _ _ _ _ _ (Nat.le_refl _) i hi

theorem processByte_reads (zc : Bool) (now : Nat) (s : TuyaProtocol) (b : Nat) :
    ∀ i ∈ readIndices (processByte zc now s b).2,
      i < s.rxIndex + 1 ∧ s.rxIndex + 1 ≤ TUYA_RX_BUFFER_SIZE := by
  intro i hi
  cases hst : s.rxState
  case WAIT_DATA_AND_CHECKSUM =>
    simp only [processByte, hst] at hi
    by_cases hlt : s.rxIndex < TUYA_RX_BUFFER_SIZE
    · rw [if_pos hlt] at hi
      simp only [TUYA_RX_BUFFER_SIZE] at hlt ⊢
      have hmod : (s.push (b % 256)).rxIndex = s.rxIndex + 1 := by
        simp only [TuyaProtocol.push]; omega
      by_cases hdone : (s.push (b % 256)).rxIndex ≥ 6 + (s.push (b % 256)).expectedLen + 1
      · rw [if_pos hdone] at hi
        simp only [readIndices] at hi
        have := completeFrame_reads zc now (s.push (b % 256)) i hi
        omega
      · rw [if_neg hdone] at hi
        simp [readIndices] at hi
    · rw [if_neg hlt] at hi
      simp [readIndices] at hi
  all_goals
    simp only [processByte, hst] at hi
    (try split_ifs at hi) <;> simp [readIndices] at hi

theorem processResponse_reads (zc : Bool) (now : Nat) (input : List Nat) :
    ∀ s : TuyaProtocol, ∀ i ∈ readIndices (processResponse zc now s input).2,
      i < TUYA_RX_BUFFER_SIZE := by
  induction input with
  | nil => intro s i hi; simp [processResponse, readIndices] at hi
  | cons b bs ih =>
    intro s i hi
    simp only [processResponse, readIndices_append, List.mem_append] at hi
    rcases hi with hi | hi
    · have := processByte_reads zc now s b i hi
      omega
    · exact ih _ i hi

/-- C23. Decoder reads stay in bounds: whatever the buffer contents, the declared entry
lengths, `rxIndex` and `expectedLen`, every index that the decoder loop reads is smaller
than `rxIndex`; the decoder reads only on a byte that is stored below the end of
`rxBuffer`, where `rxIndex` after the store is `s.rxIndex + 1`, at most 256; hence every
read of every run of `processResponse` is at an index below 256. -/
theorem decoder_reads_in_bounds (zc : Bool) (now : Nat) (s : TuyaProtocol) :
    (∀ cb buf ri el, ∀ i ∈ readIndices (parseStatusReport cb buf ri el 6), i < ri)
    ∧ (∀ b, ∀ i ∈ readIndices (processByte zc now s b).2,
        i < s.rxIndex + 1 ∧ s.rxIndex + 1 ≤ TUYA_RX_BUFFER_SIZE)
    ∧ (∀ input, ∀ i ∈ readIndices (processResponse zc now s input).2,
        i < TUYA_RX_BUFFER_SIZE) :=
  ⟨fun cb buf ri el => parseStatusReport_reads cb buf ri el _ 6 (Nat.le_refl _),
   processByte_reads zc now s, fun input => processResponse_reads zc now input s⟩


/-- Witness for C23: a status report whose payload is the truncated boolean entry
`01 01 00 01`; the decoder reads the indices 6 to 10, all below `rxIndex = 11`. -/
theorem decoder_reads_in_bounds_witness :
    readIndices (processResponse false 0
        (setDeviceStatusCallback (TuyaProtocol.new fun _ => 0) true)
        [0x55, 0xAA, 0x03, 0x07, 0x00, 0x04, 0x01, 0x01, 0x00, 0x01, 0x11]).2
      = [6, 7, 8, 9, 10]
    ∧ (readIndices (processResponse false 0
        (setDeviceStatusCallback (TuyaProtocol.new fun _ => 0) true)
        [0x55, 0xAA, 0x03, 0x07, 0x00, 0x04, 0x01, 0x01, 0x00, 0x01, 0x11]).2).all
          (fun i => decide (i < TUYA_RX_BUFFER_SIZE)) = true :=
  ⟨by
    simp [processResponse, processByte, TuyaProtocol.push, completeFrame,
      setDeviceStatusCallback, TuyaProtocol.new, TUYA_RX_BUFFER_SIZE, readIndices,
      parseStatusReport, Function.update, DP_TYPE_BOOL, TUYA_CMD_STATUS_REPORT],
   List.all_eq_true.mpr fun i hi => decide_eq_true
    ((decoder_reads_in_bounds false 0
      (setDeviceStatusCallback (TuyaProtocol.new fun _ => 0) true)).2.2 _ i hi)⟩


/-! ## Handler calls and the checksum byte -/

theorem recv_truncated_boolean (zc : Bool) (now : Nat) (s : TuyaProtocol) (v id cs : Nat)
    (hs : s.rxState = TuyaProtocolState.WAIT_HEADER_1) (h0 : s.rxIndex = 0)
    (hcb : s.deviceStatusCallback = true) :
    callbacks (processResponse zc now s
        ([0x55, 0xAA, v, 0x07, 0x00, 0x04] ++ [id, 0x01, 0x00, 0x01] ++ [cs])).2
      = [(id % 256, cs % 256)] := by
  have h := recv_status_report zc now s v [id, 0x01, 0x00, 0x01] cs hs h0 (by simp)
  have hat := received_at s v 0x07 0x00 4 [id, 0x01, 0x00, 0x01] cs
  have hcs := received_checksum s v 0x07 0x00 4 [id, 0x01, 0x00, 0x01] cs
  simp only [List.length_cons, List.length_nil, Nat.zero_add, Nat.reduceAdd] at h hat hcs
  rw [h, hcb]
  rw [parse_bool_step _ 11 4 6 (id % 256) (cs % 256) (by omega) (by omega)
    (hat 0 (by omega)) (hat 1 (by omega)) (hat 2 (by omega)) (hat 3 (by omega)) hcs]
  rw [parse_done _ _ _ _ _ (by omega)]
  rfl

/-- C24 (the code at the failing inputs). Two status-report frames with the same
four-byte payload `id, 0x01, 0x00 0x01` (a boolean entry header with no value byte left in
the payload) that differ only in the checksum byte: both complete with the same command,
declared length and payload, and the handler is called with the checksum byte as value, so
the handler calls differ.  The length check of the decoder compares against `rxIndex`,
which counts the checksum byte (the defect of C10). -/
theorem checksum_reaches_handler (zc : Bool) (now : Nat) (s : TuyaProtocol)
    (v id cs1 cs2 : Nat)
    (hs : s.rxState = TuyaProtocolState.WAIT_HEADER_1) (h0 : s.rxIndex = 0)
    (hcb : s.deviceStatusCallback = true) (hne : cs1 % 256 ≠ cs2 % 256) :
    frames (processResponse zc now s
        ([0x55, 0xAA, v, 0x07, 0x00, 0x04] ++ [id, 0x01, 0x00, 0x01] ++ [cs1])).2
      = frames (processResponse zc now s
        ([0x55, 0xAA, v, 0x07, 0x00, 0x04] ++ [id, 0x01, 0x00, 0x01] ++ [cs2])).2
    ∧ callbacks (processResponse zc now s
        ([0x55, 0xAA, v, 0x07, 0x00, 0x04] ++ [id, 0x01, 0x00, 0x01] ++ [cs1])).2
      = [(id % 256, cs1 % 256)]
    ∧ callbacks (processResponse zc now s
        ([0x55, 0xAA, v, 0x07, 0x00, 0x04] ++ [id, 0x01, 0x00, 0x01] ++ [cs2])).2
      = [(id % 256, cs2 % 256)]
    ∧ callbacks (processResponse zc now s
        ([0x55, 0xAA, v, 0x07, 0x00, 0x04] ++ [id, 0x01, 0x00, 0x01] ++ [cs1])).2
      ≠ callbacks (processResponse zc now s
        ([0x55, 0xAA, v, 0x07, 0x00, 0x04] ++ [id, 0x01, 0x00, 0x01] ++ [cs2])).2 := by
  have h1 := recv_truncated_boolean zc now s v id cs1 hs h0 hcb
  have h2 := recv_truncated_boolean zc now s v id cs2 hs h0 hcb
  refine ⟨?_, h1, h2, ?_⟩
  · rw [recv_frame_frames zc now s v 0x07 0x00 0x04 [id, 0x01, 0x00, 0x01] cs1 hs h0
        (by simp) (by simp),
      recv_frame_frames zc now s v 0x07 0x00 0x04 [id, 0x01, 0x00, 0x01] cs2 hs h0
        (by simp) (by simp)]
  · rw [h1, h2]
    intro heq
    simp only [List.cons.injEq, Prod.mk.injEq, and_true, true_and] at heq
    exact hne heq


/-- Witness for C24: payload `01 01 00 01` with checksum bytes `0x00` and `0x01`; the
handler is called with `(1, 0)` for the first frame and `(1, 1)` for the second. -/
theorem checksum_reaches_handler_witness :
    callbacks (processResponse false 0
        (setDeviceStatusCallback (TuyaProtocol.new fun _ => 0) true)
        ([0x55, 0xAA, 0x03, 0x07, 0x00, 0x04] ++ [0x01, 0x01, 0x00, 0x01] ++ [0x00])).2
      = [(1 % 256, 0 % 256)]
    ∧ callbacks (processResponse false 0
        (setDeviceStatusCallback (TuyaProtocol.new fun _ => 0) true)
        ([0x55, 0xAA, 0x03, 0x07, 0x00, 0x04] ++ [0x01, 0x01, 0x00, 0x01] ++ [0x01])).2
      = [(1 % 256, 1 % 256)] :=
  ⟨(checksum_reaches_handler false 0
      (setDeviceStatusCallback (TuyaProtocol.new fun _ => 0) true) 0x03 1 0 1 rfl rfl rfl
      (by decide)).2.1,
   (checksum_reaches_handler false 0
      (setDeviceStatusCallback (TuyaProtocol.new fun _ => 0) true) 0x03 1 0 1 rfl rfl rfl
      (by decide)).2.2.1⟩


/-! ## The cost of an oversized length -/

theorem storeIndices_storeTrace (k : Nat) (bs : List Nat) :
    storeIndices (storeTrace k bs) = (List.range bs.length).map (k + ·) := by
  induction bs generalizing k with
  | nil => rfl
  | cons b bs ih =>
    simp only [storeTrace, storeIndices, ih, List.length_cons, List.range_succ_eq_map,
      List.map_cons, List.map_map, Nat.add_zero, List.cons.injEq, true_and]
    apply List.map_congr_left
    intro i _
    simp only [Function.comp]
    omega

/-- C25. Exact cost of an oversized length: after a header `0x55 0xAA v c hi lo` whose
declared length is at least 250, fed to a receiver waiting for a header with
`rxIndex = 0`, and whatever 250 bytes `g` and bytes `x`, `y` follow: during the 251 bytes
`g ++ [x]` no frame completes, no handler runs and nothing is transmitted; the bytes of
`g` are stored (the stores of header and `g` fill the indices 0 to 255); `x` is discarded
without any effect and leaves the receiver in `WAIT_HEADER_1` with `rxIndex = 0` and
`expectedLen = 0`, also when `x` is `0x55`; and `y`, the 252nd byte, is examined as first
header byte: the receiver moves to `WAIT_HEADER_2` exactly when `y` is `0x55`. -/
theorem oversized_length_cost (zc : Bool) (now : Nat) (s : TuyaProtocol) (v c hi lo : Nat)
    (g : List Nat) (x y : Nat)
    (hs : s.rxState = TuyaProtocolState.WAIT_HEADER_1) (h0 : s.rxIndex = 0)
    (hL : 250 ≤ hi % 256 * 256 + lo % 256) (hg : g.length = 250) :
    (∀ pre suf, g ++ [x] = pre ++ suf →
        frames (processResponse zc now s ([0x55, 0xAA, v, c, hi, lo] ++ pre)).2 = []
        ∧ callbacks (processResponse zc now s ([0x55, 0xAA, v, c, hi, lo] ++ pre)).2 = []
        ∧ transmitted (processResponse zc now s ([0x55, 0xAA, v, c, hi, lo] ++ pre)).2 = [])
    ∧ (processResponse zc now s ([0x55, 0xAA, v, c, hi, lo] ++ g)).2
        = storeTrace 0 (([0x55, 0xAA, v, c, hi, lo] ++ g).map (· % 256))
    ∧ storeIndices (processResponse zc now s ([0x55, 0xAA, v, c, hi, lo] ++ g)).2
        = List.range 256
    ∧ (processResponse zc now s ([0x55, 0xAA, v, c, hi, lo] ++ g ++ [x])).2
        = (processResponse zc now s ([0x55, 0xAA, v, c, hi, lo] ++ g)).2
    ∧ (processResponse zc now s ([0x55, 0xAA, v, c, hi, lo] ++ g ++ [x])).1.rxState
        = TuyaProtocolState.WAIT_HEADER_1
    ∧ (processResponse zc now s ([0x55, 0xAA, v, c, hi, lo] ++ g ++ [x])).1.rxIndex = 0
    ∧ (processResponse zc now s ([0x55, 0xAA, v, c, hi, lo] ++ g ++ [x])).1.expectedLen = 0
    ∧ (processResponse zc now s ([0x55, 0xAA, v, c, hi, lo] ++ g ++ [x] ++ [y])).1.rxState
        = (if y % 256 = 0x55 then TuyaProtocolState.WAIT_HEADER_2
           else TuyaProtocolState.WAIT_HEADER_1)
    ∧ (processResponse zc now s ([0x55, 0xAA, v, c, hi, lo] ++ g ++ [x] ++ [y])).1.rxIndex
        = (if y % 256 = 0x55 then 1 else 0) := by
  have hfull := recv_overflow zc now s v c hi lo g x hs h0 hL hg
  have hg6 : (processResponse zc now s ([0x55, 0xAA, v, c, hi, lo] ++ g)).2
      = storeTrace 0 (([0x55, 0xAA, v, c, hi, lo] ++ g).map (· % 256)) := by
    rw [processResponse_append, recv_header zc now s v c hi lo hs h0]
    simp only []
    rw [recv_data zc now g _ rfl (by simp; omega) (by simp; omega)]
    simp [List.map_append, storeTrace_append, storeTrace]
  refine ⟨?_, hg6, ?_, ?_, ?_, ?_, ?_, ?_, ?_⟩
  · intro pre suf hsplit
    have hall := hfull
    rw [List.append_assoc, hsplit, ← List.append_assoc, processResponse_append] at hall
    have heff := congrArg Prod.snd hall
    simp only [] at heff
    have hf := congrArg frames heff
    have hc := congrArg callbacks heff
    have ht := congrArg transmitted heff
    rw [frames_append, frames_storeTrace, List.append_eq_nil] at hf
    rw [callbacks_append, callbacks_storeTrace, List.append_eq_nil] at hc
    rw [transmitted_append, transmitted_storeTrace, List.append_eq_nil] at ht
    exact ⟨hf.1, hc.1, ht.1⟩
  · rw [hg6, storeIndices_storeTrace]
    simp [hg]
  · rw [hfull, hg6]
  · rw [hfull]
  · rw [hfull]
  · rw [hfull]
  · rw [processResponse_append, hfull]
    simp only [processResponse, processByte]
    split_ifs <;> rfl
  · rw [processResponse_append, hfull]
    simp only [processResponse, processByte, TuyaProtocol.push]
    split_ifs <;> rfl


/-- Witness for C25: declared length 250 followed by 252 bytes `0x55`; the 251st leaves
the receiver in `WAIT_HEADER_1` and the 252nd is taken as first header byte. -/
theorem oversized_length_cost_witness :
    (processResponse true 0 (TuyaProtocol.new fun _ => 0)
        ([0x55, 0xAA, 0x03, 0x07, 0x00, 0xFA] ++ List.replicate 250 0x55 ++ [0x55])).1.rxState
      = TuyaProtocolState.WAIT_HEADER_1
    ∧ (processResponse true 0 (TuyaProtocol.new fun _ => 0)
        ([0x55, 0xAA, 0x03, 0x07, 0x00, 0xFA] ++ List.replicate 250 0x55 ++ [0x55]
          ++ [0x55])).1.rxState
      = (if 0x55 % 256 = 0x55 then TuyaProtocolState.WAIT_HEADER_2
         else TuyaProtocolState.WAIT_HEADER_1) :=
  ⟨(oversized_length_cost true 0 (TuyaProtocol.new fun _ => 0) 0x03 0x07 0x00 0xFA
      (List.replicate 250 0x55) 0x55 0x55 rfl rfl (by decide)
      (List.length_replicate 250 0x55)).2.2.2.2.1,
   (oversized_length_cost true 0 (TuyaProtocol.new fun _ => 0) 0x03 0x07 0x00 0xFA
      (List.replicate 250 0x55) 0x55 0x55 rfl rfl (by decide)
      (List.length_replicate 250 0x55)).2.2.2.2.2.2.2.1⟩


/-! ## The root-level copy of the receiver -/

theorem root_recv_header (fuel : Nat) (zc : Bool) (now : Nat) (t : Root.TuyaProtocol)
    (v c hi lo : Nat) (hs : t.rxState = 0) (h0 : t.rxIndex = 0) :
    Root.processResponse fuel zc now t [0x55, 0xAA, v, c, hi, lo]
      = some ({ t with
            rxState := 6
            rxIndex := 6
            expectedLen := hi % 256 * 256 + lo % 256
            currentCmd := c % 256
            rxBuffer := storeBytes t.rxBuffer 0
              [0x55, 0xAA, v % 256, c % 256, hi % 256, lo % 256] },
         storeTrace 0 [0x55, 0xAA, v % 256, c % 256, hi % 256, lo % 256]) := by
  simp [Root.processResponse, Root.processByte, Root.TuyaProtocol.push, hs, h0, storeBytes,
    storeTrace, len_combine]

theorem root_recv_data (fuel : Nat) (zc : Bool) (now : Nat) (q : List Nat)
    (t : Root.TuyaProtocol) (hs : t.rxState = 6)
    (hpart : t.rxIndex + q.length < 7 + t.expectedLen)
    (hfit : t.rxIndex + q.length < 65536) :
    Root.processResponse fuel zc now t q
      = some ({ t with
            rxIndex := t.rxIndex + q.length
            rxBuffer := storeBytes t.rxBuffer t.rxIndex (q.map (· % 256)) },
         storeTrace t.rxIndex (q.map (· % 256))) := by
  induction q generalizing t with
  | nil => simp [Root.processResponse, storeBytes, storeTrace]
  | cons b bs ih =>
    simp only [List.length_cons] at hpart hfit
    have hmod : (t.rxIndex + 1) % 65536 = t.rxIndex + 1 := by omega
    have hstep : Root.processByte fuel zc now t b
        = some (t.push (b % 256), [Effect.store t.rxIndex (b % 256)]) := by
      simp only [Root.processByte, hs, Root.TuyaProtocol.push, hmod, ge_iff_le]
      rw [if_neg (by omega)]
    rw [Root.processResponse]
    simp only [hstep]
    rw [ih (t.push (b % 256)) (by simpa [Root.TuyaProtocol.push] using hs)
      (by simp only [Root.TuyaProtocol.push, hmod]; omega)
      (by simp only [Root.TuyaProtocol.push, hmod]; omega)]
    simp [Root.TuyaProtocol.push, hmod, storeBytes, storeTrace, Nat.add_assoc, Nat.add_comm 1]

theorem root_processResponse_append (fuel : Nat) (zc : Bool) (now : Nat)
    (t : Root.TuyaProtocol) (a b : List Nat) :
    Root.processResponse fuel zc now t (a ++ b)
      = (Root.processResponse fuel zc now t a).bind fun r1 =>
          (Root.processResponse fuel zc now r1.1 b).map fun r2 => (r2.1, r1.2 ++ r2.2) := by
  induction a generalizing t with
  | nil =>
    simp only [List.nil_append, Root.processResponse, Option.some_bind, List.nil_append]
    cases Root.processResponse fuel zc now t b <;> rfl
  | cons x xs ih =>
    rw [List.cons_append, Root.processResponse, Root.processResponse]
    cases hx : Root.processByte fuel zc now t x with
    | none => rfl
    | some r1 =>
      simp only []
      rw [ih]
      cases h2 : Root.processResponse fuel zc now r1.1 xs with
      | none => rfl
      | some r2 =>
        simp only [Option.map_some', Option.some_bind]
        cases Root.processResponse fuel zc now r2.1 b with
        | none => rfl
        | some r3 => simp [List.append_assoc]

/-- C26 (the code at the failing inputs). The root-level receiver has no overflow guard:
after a header `0x55 0xAA v c hi lo` whose declared length is at least 251, fed from the
initial receiver state, the next 251 bytes are all stored, at the indices 6 to 256, so the
last of them is stored at index 256, past the end of the 256-byte `rxBuffer`, and
`rxIndex` becomes 257. -/
theorem root_receiver_writes_past_buffer (fuel : Nat) (zc : Bool) (now : Nat)
    (t : Root.TuyaProtocol) (v c hi lo : Nat) (g : List Nat)
    (hs : t.rxState = 0) (h0 : t.rxIndex = 0)
    (hL : 251 ≤ hi % 256 * 256 + lo % 256) (hg : g.length = 251) :
    (Root.processResponse fuel zc now t ([0x55, 0xAA, v, c, hi, lo] ++ g)).map
        (fun r => (storeIndices r.2, r.1.rxIndex))
      = some (List.range 257, 257) := by
  rw [root_processResponse_append, root_recv_header fuel zc now t v c hi lo hs h0]
  simp only [Option.some_bind]
  rw [root_recv_data fuel zc now g _ rfl (by simp; omega) (by simp; omega)]
  have e := storeTrace_append 0 [0x55, 0xAA, v % 256, c % 256, hi % 256, lo % 256]
    (g.map (· % 256))
  simp only [List.length_cons, List.length_nil, Nat.zero_add, Nat.reduceAdd] at e
  simp only [Option.map_some', ← e, storeIndices_storeTrace]
  simp [hg]


/-- Witness for C26: the header `55 AA 03 00 01 00` (declared length 256) followed by 251
zero bytes. -/
theorem root_receiver_writes_past_buffer_witness :
    (Root.processResponse 0 true 0 (Root.TuyaProtocol.new fun _ => 0)
        ([0x55, 0xAA, 0x03, 0x00, 0x01, 0x00] ++ List.replicate 251 0)).map
        (fun r => (storeIndices r.2, r.1.rxIndex))
      = some (List.range 257, 257) :=
  root_receiver_writes_past_buffer 0 true 0 (Root.TuyaProtocol.new fun _ => 0)
    0x03 0x00 0x01 0x00 (List.replicate 251 0) rfl rfl (by decide)
    (List.length_replicate 251 0)

theorem entriesBytes_length_le (es : List Entry) : es.length ≤ (entriesBytes es).length := by
  induction es with
  | nil => simp
  | cons e es ih =>
    cases e <;> simp only [entriesBytes, Entry.bytes, List.length_cons, List.length_append,
      List.length_nil] <;> omega

theorem root_parse_done (cb : Bool) (buf : Nat → Nat) (ri el fuel d : Nat)
    (h : 6 + el ≤ d) :
    Root.parseStatusReport cb buf ri el (fuel + 1) d = some [] := by
  rw [Root.parseStatusReport, if_neg (by omega)]

theorem root_parse_bool_step (cb : Bool) (buf : Nat → Nat) (ri el fuel d id value : Nat)
    (hloop : d < 6 + el) (hfit : d + 5 ≤ ri) (hri : ri < 65536)
    (e0 : buf d = id) (e1 : buf (d + 1) = 1) (e2 : buf (d + 2) = 0) (e3 : buf (d + 3) = 1)
    (e4 : buf (d + 4) = value) :
    Root.parseStatusReport cb buf ri el (fuel + 1) d
      = (Root.parseStatusReport cb buf ri el fuel (d + 5)).map fun rest =>
          (if cb then [Effect.callback id value] else []) ++ rest := by
  rw [Root.parseStatusReport]
  have hlen : ((0 <<< 8) ||| 1) % 65536 = 1 := by decide
  have hmod : (d + 4 + 1) % 65536 = d + 5 := by omega
  rw [if_pos hloop, if_pos (by omega)]
  simp only [e0, e1, e2, e3, e4, hlen, DP_TYPE_BOOL, and_self, if_true, hmod]

theorem root_parse_num_step (cb : Bool) (buf : Nat → Nat)
    (ri el fuel d id type b0 b1 b2 b3 : Nat)
    (hloop : d < 6 + el) (hfit : d + 8 ≤ ri) (hri : ri < 65536)
    (ht : type = 0x02 ∨ type = 0x04)
    (h0 : b0 < 256) (h1 : b1 < 256) (h2 : b2 < 256) (h3 : b3 < 256)
    (e0 : buf d = id) (e1 : buf (d + 1) = type) (e2 : buf (d + 2) = 0) (e3 : buf (d + 3) = 4)
    (e4 : buf (d + 4) = b0) (e5 : buf (d + 5) = b1) (e6 : buf (d + 6) = b2)
    (e7 : buf (d + 7) = b3) :
    Root.parseStatusReport cb buf ri el (fuel + 1) d
      = (Root.parseStatusReport cb buf ri el fuel (d + 8)).map fun rest =>
          (if cb then
            [Effect.callback id (b0 * 16777216 + b1 * 65536 + b2 * 256 + b3)] else [])
          ++ rest := by
  rw [Root.parseStatusReport]
  have hlen : ((0 <<< 8) ||| 4) % 65536 = 4 := by decide
  have hmod : (d + 4 + 4) % 65536 = d + 8 := by omega
  rw [if_pos hloop, if_pos (by omega)]
  have hc1 : ¬ (type = DP_TYPE_BOOL ∧ 4 = 1) := by omega
  have hc2 : (type = DP_TYPE_VALUE ∨ type = DP_TYPE_ENUM) ∧ True := ⟨ht, trivial⟩
  simp only [e0, e1, e2, e3, e4, e5, e6, e7, hlen, be32 b0 b1 b2 b3 h0 h1 h2 h3]
  rw [if_pos hc2, if_neg hc1]
  simp only [hmod]

theorem callbacks_map_call (es : List Entry) :
    callbacks (es.map fun e => Effect.callback e.call.1 e.call.2) = es.map Entry.call := by
  induction es with
  | nil => rfl
  | cons e es ih => simp [callbacks, ih]

theorem root_parse_entries (cb : Bool) (buf : Nat → Nat) (ri el : Nat) (hri : 6 + el < ri)
    (hri2 : ri < 65536) :
    ∀ (es : List Entry) (d fuel : Nat), (∀ e ∈ es, e.wellFormed) →
      (∀ i, i < (entriesBytes es).length → buf (d + i) = (entriesBytes es).getD i 0) →
      d + (entriesBytes es).length ≤ 6 + el →
      Root.parseStatusReport cb buf ri el (fuel + es.length) d
        = (Root.parseStatusReport cb buf ri el fuel (d + (entriesBytes es).length)).map
            fun rest =>
              (if cb then es.map (fun e => Effect.callback e.call.1 e.call.2) else [])
                ++ rest := by
  intro es
  induction es with
  | nil =>
    intro d fuel _ _ _
    cases cb <;> simp [entriesBytes]
  | cons e es ih =>
    intro d fuel hwf hbuf hfit
    have he := hwf e (List.mem_cons_self _ _)
    have hwf2 : ∀ x ∈ es, x.wellFormed := fun x hx => hwf x (List.mem_cons_of_mem _ hx)
    have hfuel : fuel + (e :: es).length = fuel + es.length + 1 := by simp; omega
    rw [hfuel]
    cases e with
    | boolean id value =>
      have hl : (entriesBytes (Entry.boolean id value :: es)).length
          = (entriesBytes es).length + 5 := by simp [entriesBytes, Entry.bytes]
      rw [hl] at hfit hbuf
      have e0 : buf d = id := hbuf 0 (by omega)
      have e1 : buf (d + 1) = 1 := hbuf 1 (by omega)
      have e2 : buf (d + 2) = 0 := hbuf 2 (by omega)
      have e3 : buf (d + 3) = 1 := hbuf 3 (by omega)
      have e4 : buf (d + 4) = value := hbuf 4 (by omega)
      have hrest : ∀ i, i < (entriesBytes es).length →
          buf (d + 5 + i) = (entriesBytes es).getD i 0 := by
        intro i hi
        have h := hbuf (i + 5) (by omega)
        rw [show d + (i + 5) = d + 5 + i by omega] at h
        exact h
      rw [root_parse_bool_step cb buf ri el _ d id value (by omega) (by omega) hri2
          e0 e1 e2 e3 e4,
        ih (d + 5) fuel hwf2 hrest (by omega), hl,
        show d + 5 + (entriesBytes es).length = d + ((entriesBytes es).length + 5) by omega]
      cases Root.parseStatusReport cb buf ri el fuel _ with
      | none => rfl
      | some rest => cases cb <;> simp [Entry.call]
    | numeric id type b0 b1 b2 b3 =>
      simp only [Entry.wellFormed] at he
      obtain ⟨_, ht, h0, h1, h2, h3⟩ := he
      have hl : (entriesBytes (Entry.numeric id type b0 b1 b2 b3 :: es)).length
          = (entriesBytes es).length + 8 := by simp [entriesBytes, Entry.bytes]
      rw [hl] at hfit hbuf
      have e0 : buf d = id := hbuf 0 (by omega)
      have e1 : buf (d + 1) = type := hbuf 1 (by omega)
      have e2 : buf (d + 2) = 0 := hbuf 2 (by omega)
      have e3 : buf (d + 3) = 4 := hbuf 3 (by omega)
      have e4 : buf (d + 4) = b0 := hbuf 4 (by omega)
      have e5 : buf (d + 5) = b1 := hbuf 5 (by omega)
      have e6 : buf (d + 6) = b2 := hbuf 6 (by omega)
      have e7 : buf (d + 7) = b3 := hbuf 7 (by omega)
      have hrest : ∀ i, i < (entriesBytes es).length →
          buf (d + 8 + i) = (entriesBytes es).getD i 0 := by
        intro i hi
        have h := hbuf (i + 8) (by omega)
        rw [show d + (i + 8) = d + 8 + i by omega] at h
        exact h
      rw [root_parse_num_step cb buf ri el _ d id type b0 b1 b2 b3 (by omega) (by omega) hri2
          ht h0 h1 h2 h3 e0 e1 e2 e3 e4 e5 e6 e7,
        ih (d + 8) fuel hwf2 hrest (by omega), hl,
        show d + 8 + (entriesBytes es).length = d + ((entriesBytes es).length + 8) by omega]
      cases Root.parseStatusReport cb buf ri el fuel _ with
      | none => rfl
      | some rest => cases cb <;> simp [Entry.call]

theorem parseStatusReport_silent (buf : Nat → Nat) (ri el : Nat) :
    ∀ n d, ri - d ≤ n → callbacks (parseStatusReport false buf ri el d) = [] := by
  intro n
  induction n with
  | zero =>
    intro d h
    rw [parseStatusReport, dif_neg (by omega)]
    rfl
  | succ n ih =>
    intro d h
    rw [parseStatusReport]
    by_cases hloop : d < 6 + el ∧ d < ri
    · rw [dif_pos hloop]
      have h1 := ih (d + 4 + 1) (by omega)
      have h4 := ih (d + 4 + 4) (by omega)
      have hl := fun l => ih (d + 4 + l) (by omega)
      simp only [Bool.false_eq_true, if_false, List.append_nil]
      split_ifs <;> simp [callbacks, callbacks_append, h1, h4, hl]
    · rw [dif_neg hloop]
      rfl

theorem packets_map_call (es : List Entry) :
    packets (es.map fun e => Effect.callback e.call.1 e.call.2) = [] := by
  induction es with
  | nil => rfl
  | cons e es ih => simp [packets, ih]

theorem frames_map_call (es : List Entry) :
    frames (es.map fun e => Effect.callback e.call.1 e.call.2) = [] := by
  induction es with
  | nil => rfl
  | cons e es ih => simp [frames, ih]

theorem parse_wellFormed (cb : Bool) (buf : Nat → Nat) (ri el : Nat) (hri : 6 + el ≤ ri)
    (es : List Entry) (hwf : ∀ e ∈ es, e.wellFormed)
    (hpay : (List.range el).map (fun i => buf (6 + i)) = entriesBytes es) :
    callbacks (parseStatusReport cb buf ri el 6) = if cb then es.map Entry.call else [] := by
  have hlen : (entriesBytes es).length = el := by rw [← hpay]; simp
  have hbuf : ∀ i, i < (entriesBytes es).length → buf (6 + i) = (entriesBytes es).getD i 0 := by
    intro i hi
    have h := congrArg (fun l => l.getD i 0) hpay
    simp only [] at h
    rw [← h, List.getD_eq_getElem _ _ (by simp; omega)]
    simp
  cases cb with
  | false => exact parseStatusReport_silent buf ri el _ 6 (Nat.le_refl _)
  | true =>
    rw [parse_entries buf ri el hri es 6 hwf hbuf (by omega),
      parse_done _ _ _ _ _ (by omega)]
    simp [callbacks]

theorem root_parse_wellFormed (cb : Bool) (buf : Nat → Nat) (ri el fuel : Nat)
    (hri : 6 + el < ri) (hri2 : ri ≤ 256) (hfuel : 256 ≤ fuel)
    (es : List Entry) (hwf : ∀ e ∈ es, e.wellFormed)
    (hpay : (List.range el).map (fun i => buf (6 + i)) = entriesBytes es) :
    Root.parseStatusReport cb buf ri el fuel 6
      = some (if cb then es.map (fun e => Effect.callback e.call.1 e.call.2) else []) := by
  have hlen : (entriesBytes es).length = el := by rw [← hpay]; simp
  have hbuf : ∀ i, i < (entriesBytes es).length → buf (6 + i) = (entriesBytes es).getD i 0 := by
    intro i hi
    have h := congrArg (fun l => l.getD i 0) hpay
    simp only [] at h
    rw [← h, List.getD_eq_getElem _ _ (by simp; omega)]
    simp
  have hcount := entriesBytes_length_le es
  have hf : fuel = (fuel - es.length - 1 + 1) + es.length := by omega
  rw [hf, root_parse_entries cb buf ri el hri (by omega) es 6 _ hwf hbuf (by omega),
    root_parse_done _ _ _ _ _ _ (by omega)]
  simp

theorem completeFrame_refines (fuel : Nat) (zc : Bool) (now : Nat) (t : TuyaProtocol)
    (hfuel : 256 ≤ fuel) (hdone : 7 + t.expectedLen ≤ t.rxIndex) (hri : t.rxIndex ≤ 256)
    (hwf : t.currentCmd = TUYA_CMD_STATUS_REPORT →
      ∃ es : List Entry, (∀ e ∈ es, e.wellFormed)
        ∧ (List.range t.expectedLen).map (fun i => t.rxBuffer (6 + i)) = entriesBytes es) :
    ∃ e, Root.completeFrame fuel zc now (toRoot t)
          = some (toRoot (completeFrame zc now t).1, e)
      ∧ callbacks e = callbacks (completeFrame zc now t).2
      ∧ packets e = packets (completeFrame zc now t).2
      ∧ frames e = frames (completeFrame zc now t).2 := by
  by_cases h7 : t.currentCmd = TUYA_CMD_STATUS_REPORT
  · obtain ⟨es, hes, hpay⟩ := hwf h7
    have hroot := root_parse_wellFormed t.deviceStatusCallback t.rxBuffer t.rxIndex
      t.expectedLen fuel (by omega) hri hfuel es hes hpay
    have hnew := parse_wellFormed t.deviceStatusCallback t.rxBuffer t.rxIndex
      t.expectedLen (by omega) es hes hpay
    refine ⟨Effect.frame t.currentCmd t.expectedLen
        ((List.range t.expectedLen).map fun i => t.rxBuffer (6 + i))
      :: (if t.deviceStatusCallback then
            es.map (fun e => Effect.callback e.call.1 e.call.2) else []), ?_, ?_, ?_, ?_⟩
    · simp only [Root.completeFrame, toRoot, h7, if_true, hroot, Option.map_some',
        completeFrame, TuyaProtocolState.toUInt8]
    · rw [completeFrame_callbacks, if_pos h7, hnew]
      cases t.deviceStatusCallback <;> simp [callbacks, callbacks_map_call]
    · have h3 : ¬ t.currentCmd = TUYA_CMD_NETWORK_STATUS := by rw [h7]; decide
      rw [completeFrame_packets, if_neg h3]
      cases t.deviceStatusCallback <;> simp [packets, packets_map_call]
    · rw [completeFrame_frames]
      cases t.deviceStatusCallback <;> simp [frames, frames_map_call]
  · refine ⟨(completeFrame zc now t).2, ?_, rfl, rfl, rfl⟩
    simp only [Root.completeFrame, toRoot, completeFrame, h7, if_false]
    split_ifs <;> simp [TuyaProtocolState.toUInt8]

theorem toRoot_push (s : TuyaProtocol) (x : Nat) : (toRoot s).push x = toRoot (s.push x) :=
  rfl

theorem processByte_refines (fuel : Nat) (zc : Bool) (now : Nat) (s : TuyaProtocol) (b : Nat)
    (hfuel : 256 ≤ fuel) (hno : ¬ overflowGuardFires s)
    (hwf : ∀ l p, (TUYA_CMD_STATUS_REPORT, l, p) ∈ frames (processByte zc now s b).2 →
      ∃ es : List Entry, (∀ e ∈ es, e.wellFormed) ∧ p = entriesBytes es) :
    ∃ e, Root.processByte fuel zc now (toRoot s) b
          = some (toRoot (processByte zc now s b).1, e)
      ∧ callbacks e = callbacks (processByte zc now s b).2
      ∧ packets e = packets (processByte zc now s b).2
      ∧ frames e = frames (processByte zc now s b).2 := by
  cases hst : s.rxState
  case WAIT_DATA_AND_CHECKSUM =>
    have hlt : s.rxIndex < TUYA_RX_BUFFER_SIZE := by
      by_contra h
      exact hno ⟨hst, h⟩
    have hroot : (toRoot s).rxState = 6 := by simp [toRoot, hst, TuyaProtocolState.toUInt8]
    simp only [processByte, hst, if_pos hlt] at hwf ⊢
    simp only [Root.processByte, hroot, toRoot_push]
    simp only [TUYA_RX_BUFFER_SIZE] at hlt
    have hidx : (s.push (b % 256)).rxIndex = s.rxIndex + 1 := by
      simp only [TuyaProtocol.push]; omega
    by_cases hdone : (s.push (b % 256)).rxIndex ≥ 6 + (s.push (b % 256)).expectedLen + 1
    · rw [if_pos hdone] at hwf ⊢
      have hdone2 : (toRoot (s.push (b % 256))).rxIndex
          ≥ 6 + (toRoot (s.push (b % 256))).expectedLen + 1 := hdone
      rw [if_pos hdone2]
      simp only [] at hwf ⊢
      rw [frames_store, completeFrame_frames] at hwf
      obtain ⟨e, he, hc, hp, hf⟩ := completeFrame_refines fuel zc now (s.push (b % 256)) hfuel
        (by omega) (by omega)
        (fun h7 => hwf _ _ (by rw [h7]; exact List.mem_singleton_self _))
      refine ⟨Effect.store s.rxIndex (b % 256) :: e, ?_, ?_, ?_, ?_⟩
      · rw [he]; rfl
      · simpa [callbacks] using hc
      · simpa [packets] using hp
      · simpa [frames] using hf
    · have hdone2 : ¬ (toRoot (s.push (b % 256))).rxIndex
          ≥ 6 + (toRoot (s.push (b % 256))).expectedLen + 1 := hdone
      rw [if_neg hdone, if_neg hdone2]
      exact ⟨_, rfl, rfl, rfl, rfl⟩
  all_goals
    refine ⟨(processByte zc now s b).2, ?_, rfl, rfl, rfl⟩
    simp only [processByte, Root.processByte, toRoot, hst, TuyaProtocolState.toUInt8,
      Root.TuyaProtocol.push, TuyaProtocol.push]
    try ((try split_ifs) <;> simp [hst])

theorem processResponse_refines (fuel : Nat) (zc : Bool) (now : Nat) (hfuel : 256 ≤ fuel)
    (input : List Nat) :
    ∀ s : TuyaProtocol, wellFormedTraffic zc now s input →
      ∃ e, Root.processResponse fuel zc now (toRoot s) input
            = some (toRoot (processResponse zc now s input).1, e)
        ∧ callbacks e = callbacks (processResponse zc now s input).2
        ∧ packets e = packets (processResponse zc now s input).2
        ∧ frames e = frames (processResponse zc now s input).2 := by
  induction input with
  | nil => intro s _; exact ⟨[], rfl, rfl, rfl, rfl⟩
  | cons b bs ih =>
    intro s hwf
    obtain ⟨hno, hpay, hrest⟩ := hwf
    obtain ⟨e1, h1, c1, p1, f1⟩ := processByte_refines fuel zc now s b hfuel hno hpay
    obtain ⟨e2, h2, c2, p2, f2⟩ := ih _ hrest
    refine ⟨e1 ++ e2, ?_, ?_, ?_, ?_⟩
    · rw [Root.processResponse, h1]
      simp only []
      rw [h2]
      rfl
    · rw [processResponse, callbacks_append, callbacks_append, c1, c2]
    · rw [processResponse, packets_append, packets_append, p1, p2]
    · rw [processResponse, frames_append, frames_append, f1, f2]

/-- C27. The two copies of the receiver agree on well-formed traffic: for every byte
stream, from every receiver state, on which the newer receiver never triggers its overflow
guard and every status report it completes has a payload that is a concatenation of
well-formed boolean, numeric and enumerated entries, the root-level receiver started with
the same field values (its decoder loop allowed at least 256 iterations) returns, and it
produces the same handler calls, the same transmitted packets and the same completed
frames, and ends with the same field values: `tuyaConnected`, `lastHeartbeat`, `rxState`,
`rxBuffer`, `rxIndex`, `expectedLen` and `currentCmd`. -/
theorem receivers_agree_on_wellFormed_traffic (fuel : Nat) (zc : Bool) (now : Nat)
    (s : TuyaProtocol) (input : List Nat) (hfuel : 256 ≤ fuel)
    (hwf : wellFormedTraffic zc now s input) :
    (Root.processResponse fuel zc now (toRoot s) input).map
        (fun r => (r.1, callbacks r.2, packets r.2, frames r.2))
      = some (toRoot (processResponse zc now s input).1,
              callbacks (processResponse zc now s input).2,
              packets (processResponse zc now s input).2,
              frames (processResponse zc now s input).2) := by
  obtain ⟨e, he, hc, hp, hf⟩ := processResponse_refines fuel zc now hfuel input s hwf
  rw [he, Option.map_some', hc, hp, hf]


theorem wellFormedTraffic_example :
    wellFormedTraffic true 0 (setDeviceStatusCallback (TuyaProtocol.new fun _ => 0) true)
      [0x55, 0xAA, 0x03, 0x07, 0x00, 0x05, 0x01, 0x01, 0x00, 0x01, 0x01, 0x11,
       0x55, 0xAA, 0x03, 0x03, 0x00, 0x00, 0x06] := by
  simp [wellFormedTraffic, overflowGuardFires, processByte, TuyaProtocol.push,
    setDeviceStatusCallback, TuyaProtocol.new, frames, frames_store, completeFrame_frames,
    completeFrame_state, TUYA_RX_BUFFER_SIZE]
  intro l p h
  rcases h with ⟨_, hp⟩ | h
  · refine ⟨[Entry.boolean 1 1], by decide, ?_⟩
    rw [hp]
    decide
  · rw [(parseStatusReport_kinds _ _ _ _ _ _ (Nat.le_refl _)).1] at h
    simp at h


/-- Witness for C27: a status report with the boolean entry `01 01 00 01 01`, followed by
a network-status request. -/
theorem receivers_agree_on_wellFormed_traffic_witness :
    (Root.processResponse 256 true 0
        (toRoot (setDeviceStatusCallback (TuyaProtocol.new fun _ => 0) true))
        [0x55, 0xAA, 0x03, 0x07, 0x00, 0x05, 0x01, 0x01, 0x00, 0x01, 0x01, 0x11,
         0x55, 0xAA, 0x03, 0x03, 0x00, 0x00, 0x06]).map
        (fun r => (r.1, callbacks r.2, packets r.2, frames r.2))
      = some (toRoot (processResponse true 0
                (setDeviceStatusCallback (TuyaProtocol.new fun _ => 0) true)
                [0x55, 0xAA, 0x03, 0x07, 0x00, 0x05, 0x01, 0x01, 0x00, 0x01, 0x01, 0x11,
                 0x55, 0xAA, 0x03, 0x03, 0x00, 0x00, 0x06]).1,
              callbacks (processResponse true 0
                (setDeviceStatusCallback (TuyaProtocol.new fun _ => 0) true)
                [0x55, 0xAA, 0x03, 0x07, 0x00, 0x05, 0x01, 0x01, 0x00, 0x01, 0x01, 0x11,
                 0x55, 0xAA, 0x03, 0x03, 0x00, 0x00, 0x06]).2,
              packets (processResponse true 0
                (setDeviceStatusCallback (TuyaProtocol.new fun _ => 0) true)
                [0x55, 0xAA, 0x03, 0x07, 0x00, 0x05, 0x01, 0x01, 0x00, 0x01, 0x01, 0x11,
                 0x55, 0xAA, 0x03, 0x03, 0x00, 0x00, 0x06]).2,
              frames (processResponse true 0
                (setDeviceStatusCallback (TuyaProtocol.new fun _ => 0) true)
                [0x55, 0xAA, 0x03, 0x07, 0x00, 0x05, 0x01, 0x01, 0x00, 0x01, 0x01, 0x11,
                 0x55, 0xAA, 0x03, 0x03, 0x00, 0x00, 0x06]).2) :=
  receivers_agree_on_wellFormed_traffic 256 true 0
    (setDeviceStatusCallback (TuyaProtocol.new fun _ => 0) true) _ (by decide)
    wellFormedTraffic_example


/-! ## Colour temperature -/

/-- C28 (the code at the failing input). The constants for warm and natural are the values
of `kelvinToMired`, `333` and `238`; for cool, `kelvinToMired(6500)` is `153`, the quotient
`1000000 / 6500` of the integer division, while `COLOUR_TEMP_COOL_MIRED` is `154`. -/
theorem mired_constants_vs_function :
    kelvinToMired COLOUR_TEMP_WARM_KELVIN = COLOUR_TEMP_WARM_MIRED
    ∧ kelvinToMired COLOUR_TEMP_NATURAL_KELVIN = COLOUR_TEMP_NATURAL_MIRED
    ∧ kelvinToMired COLOUR_TEMP_COOL_KELVIN = 153
    ∧ COLOUR_TEMP_COOL_MIRED = 154
    ∧ kelvinToMired COLOUR_TEMP_COOL_KELVIN ≠ COLOUR_TEMP_COOL_MIRED := by
  decide

/-- C29 (counterexample). At `x = 1` the quotient `1000000` does not fit the `uint16_t`
return type: both functions return `16960`, which is `1000000` modulo 65536. -/
theorem reciprocal_truncated_at_one :
    kelvinToMired 1 = 16960 ∧ miredToKelvin 1 = 16960
    ∧ kelvinToMired 1 ≠ 1000000 / 1 ∧ miredToKelvin 1 ≠ 1000000 / 1 := by
  decide

/-- C29 (amended). For every 16-bit `x` of at least 16, `kelvinToMired(x)` and
`miredToKelvin(x)` both equal `1000000 / x` rounded down; for `1 <= x <= 15` the quotient
exceeds 65535 and both return it modulo 65536, which differs from the quotient; both
return 0 for `x = 0`. -/
theorem reciprocal_on_uint16 (x : Nat) (hx : x < 65536) :
    (16 ≤ x → kelvinToMired x = 1000000 / x ∧ miredToKelvin x = 1000000 / x)
    ∧ (0 < x → x < 16 →
        kelvinToMired x = 1000000 / x % 65536 ∧ miredToKelvin x = 1000000 / x % 65536
        ∧ 1000000 / x % 65536 ≠ 1000000 / x)
    ∧ kelvinToMired 0 = 0 ∧ miredToKelvin 0 = 0 := by
  refine ⟨?_, ?_, by decide, by decide⟩
  · intro hlo
    have hq : 1000000 / x < 65536 := by
      apply Nat.div_lt_of_lt_mul
      omega
    have hpos : x > 0 := by omega
    refine ⟨?_, ?_⟩
    · simp only [kelvinToMired, if_pos hpos]
      exact Nat.mod_eq_of_lt hq
    · simp only [miredToKelvin, if_pos hpos]
      exact Nat.mod_eq_of_lt hq
  · intro hpos hlt
    have hq : 65536 ≤ 1000000 / x := by
      rw [Nat.le_div_iff_mul_le hpos]
      omega
    refine ⟨?_, ?_, ?_⟩
    · simp only [kelvinToMired, if_pos hpos]
    · simp only [miredToKelvin, if_pos hpos]
    · have := Nat.mod_lt (1000000 / x) (show 65536 > 0 by decide)
      omega

/-- Witness for C29: at `x = 6500` both conversions return `1000000 / 6500 = 153`. -/
theorem reciprocal_on_uint16_witness :
    kelvinToMired 6500 = 1000000 / 6500 ∧ miredToKelvin 6500 = 1000000 / 6500 :=
  (reciprocal_on_uint16 6500 (by decide)).1 (by decide)

/-- C30. Colour-temperature levels survive the trip through mired and through Kelvin: for
each of the levels warm, natural and cool,
`miredToTuyaColourTemp(tuyaColourTempToMired(l)) = l` and
`kelvinToTuyaColourTemp(tuyaColourTempToKelvin(l)) = l`. -/
theorem colour_level_roundtrip (l : ColourTempLevel) :
    miredToTuyaColourTemp (tuyaColourTempToMired l) = l
    ∧ kelvinToTuyaColourTemp (tuyaColourTempToKelvin l) = l := by
  cases l <;> decide

/-! ## Brightness mapping -/

/-- C31 (counterexample). Tuya brightness 1 becomes Zigbee level 50
(`1 * 254 / 5`), and Zigbee level 50 becomes Tuya brightness 0 (`50 * 5 / 254`). -/
theorem brightness_roundtrip_fails_at_one :
    tuyaBrightnessToZigbee 1 = 50 ∧ zigbeeBrightnessToTuya 50 = 0
    ∧ zigbeeBrightnessToTuya (tuyaBrightnessToZigbee 1) ≠ 1 := by
  decide

/-- C31 (amended). For every Tuya brightness `t` in 0..5, with `map` the truncating
integer linear map, `zigbeeBrightnessToTuya(tuyaBrightnessToZigbee(t))` is `t` at the two
ends of the range, 0 and 5, and `t - 1` for `t` in 1..4: the Zigbee levels are
0, 50, 101, 152, 203, 254 and the way back gives 0, 0, 1, 2, 3, 5. -/
theorem brightness_roundtrip_truncates (t : Nat) (ht : t ≤ TUYA_BRIGHTNESS_MAX) :
    tuyaBrightnessToZigbee t = t * 254 / 5
    ∧ zigbeeBrightnessToTuya (tuyaBrightnessToZigbee t)
        = (if t = 0 ∨ t = 5 then t else t - 1) := by
  simp only [TUYA_BRIGHTNESS_MAX] at ht
  interval_cases t <;> decide

/-- Witness for C31: brightness 3 becomes Zigbee level 152 and comes back as 2. -/
theorem brightness_roundtrip_truncates_witness :
    tuyaBrightnessToZigbee 3 = 3 * 254 / 5
    ∧ zigbeeBrightnessToTuya (tuyaBrightnessToZigbee 3) = (if 3 = 0 ∨ 3 = 5 then 3 else 3 - 1) :=
  brightness_roundtrip_truncates 3 (by decide)

/-! ## The debounced button -/

theorem release_resets_pressed (t : DebouncedButton) :
    ¬ ((if t.currentState = HIGH ∧ t.pressed = true then { t with pressed := false }
          else t).pressed = true
       ∧ (if t.currentState = HIGH ∧ t.pressed = true then { t with pressed := false }
          else t).currentState = HIGH) := by
  by_cases h : t.currentState = HIGH ∧ t.pressed = true
  · rw [if_pos h]
    simp
  · rw [if_neg h]
    intro h2
    exact h ⟨h2.2, h2.1⟩

theorem update_pressed_low (s : DebouncedButton) (reading : Bool) (now : Nat)
    (h : ¬ (s.pressed = true ∧ s.currentState = HIGH)) :
    ¬ ((s.update reading now).pressed = true ∧ (s.update reading now).currentState = HIGH) := by
  have h1 : ¬ ((if reading ≠ s.lastState then { s with lastStateChange := now % 4294967296 }
        else s).pressed = true
      ∧ (if reading ≠ s.lastState then { s with lastStateChange := now % 4294967296 }
        else s).currentState = HIGH) := by
    split_ifs <;> exact h
  unfold DebouncedButton.update
  simp only []
  generalize (if reading ≠ s.lastState then { s with lastStateChange := now % 4294967296 }
    else s) = s1 at h1 ⊢
  by_cases hb : elapsed now s1.lastStateChange > s1.debounceDelay
  · rw [if_pos hb]
    exact release_resets_pressed _
  · rw [if_neg hb]
    exact h1

theorem updates_pressed_low (calls : List (Bool × Nat)) :
    ∀ s : DebouncedButton, ¬ (s.pressed = true ∧ s.currentState = HIGH) →
      ¬ ((s.updates calls).pressed = true ∧ (s.updates calls).currentState = HIGH) := by
  induction calls with
  | nil => intro s h; exact h
  | cons c rest ih =>
    intro s h
    obtain ⟨reading, now⟩ := c
    exact ih _ (update_pressed_low s reading now h)

/-- C32 (the code at the failing inputs). From the state the constructor leaves, after
every sequence of `update()` calls, whatever pin levels and times they see, `wasPressed()`
returns false and leaves the object unchanged: the call of `update()` that sets
`currentState` to `HIGH` also resets `pressed`, so `pressed && currentState == HIGH` never
holds when `wasPressed()` tests it.  This covers the short press of the claim: pin `LOW`
for longer than the debounce delay and shorter than the long-press delay, then `HIGH` for
longer than the debounce delay. -/
theorem wasPressed_never_true (buttonPin debounceMs longPressMs : Nat)
    (calls : List (Bool × Nat)) :
    ((DebouncedButton.new buttonPin debounceMs longPressMs).updates calls).wasPressed.1 = false
    ∧ ((DebouncedButton.new buttonPin debounceMs longPressMs).updates calls).wasPressed.2
        = (DebouncedButton.new buttonPin debounceMs longPressMs).updates calls := by
  have h := updates_pressed_low calls (DebouncedButton.new buttonPin debounceMs longPressMs)
    (by simp [DebouncedButton.new])
  simp only [DebouncedButton.wasPressed, if_neg h, and_self]

/-- Witness for C32: debounce delay 100 ms, long-press delay 3000 ms; the pin reads `LOW`
at 1000, 1101 and 1500 ms (the press is registered: `isPressed()` and `pressed` are true),
then `HIGH` at 2000 and 2101 ms (the release is registered, no long press); the following
`wasPressed()` returns false. -/
theorem wasPressed_never_true_witness :
    ((DebouncedButton.new 9 BUTTON_DEBOUNCE_DELAY_MS FACTORY_RESET_HOLD_TIME_MS).updates
        [(LOW, 1000), (LOW, 1101), (LOW, 1500)]).isPressed = true
    ∧ ((DebouncedButton.new 9 BUTTON_DEBOUNCE_DELAY_MS FACTORY_RESET_HOLD_TIME_MS).updates
        [(LOW, 1000), (LOW, 1101), (LOW, 1500)]).pressed = true
    ∧ ((DebouncedButton.new 9 BUTTON_DEBOUNCE_DELAY_MS FACTORY_RESET_HOLD_TIME_MS).updates
        [(LOW, 1000), (LOW, 1101), (LOW, 1500), (HIGH, 2000), (HIGH, 2101)]).currentState
          = HIGH
    ∧ ((DebouncedButton.new 9 BUTTON_DEBOUNCE_DELAY_MS FACTORY_RESET_HOLD_TIME_MS).updates
        [(LOW, 1000), (LOW, 1101), (LOW, 1500), (HIGH, 2000), (HIGH, 2101)]).longPressed
          = false
    ∧ ((DebouncedButton.new 9 BUTTON_DEBOUNCE_DELAY_MS FACTORY_RESET_HOLD_TIME_MS).updates
        [(LOW, 1000), (LOW, 1101), (LOW, 1500), (HIGH, 2000), (HIGH, 2101)]).wasPressed.1
          = false :=
  ⟨by decide, by decide, by decide, by decide,
   (wasPressed_never_true 9 BUTTON_DEBOUNCE_DELAY_MS FACTORY_RESET_HOLD_TIME_MS
      [(LOW, 1000), (LOW, 1101), (LOW, 1500), (HIGH, 2000), (HIGH, 2101)]).1⟩

end Skyfan
